import Mathlib

/-!
# HD44780 character-LCD driver (`src/lcd.c`, `src/lcd.h`)

A shallow embedding of the driver and theorems about it.

* C `int` values are `Int`; a `uint8_t` parameter or variable receives its
  argument reduced modulo 256 (`uint8`); the bit operators `&`, `|`, `~` on
  `int` act on the 32-bit two's-complement pattern (`u32`, `s32`).
* The external capabilities `gpio_set`, `gpio_dir`, `gpio_get` and `delay_us`
  are observed through a trace of `Event`s.  The pin macros `RS_PIN`, `EN_PIN`,
  `RW_PIN` and `DATA_PIN(lcd, d)` select a logical `Line`; the port and pin
  numbers stored behind `control_pins` and `data_pins` are not interpreted, and
  these two pointers are kept as addresses (`0` is the null pointer).
* `gpio_get` takes its results from a finite list of pending reads; when the
  list is exhausted the execution is `Fault.blocked` (the busy poll is still
  waiting).  An access outside an array is `Fault.bounds`.
* The build options of `lcd.h` are parameters: `rw` is `LCD_RW_SUPPORT`
  (commented out in the header, so `false` there) and `N` is
  `LCD_MAX_INSTANCES` (`1` in the header).
-/

namespace LCD

/-! ## Machine integers -/

/-- Conversion of a C `int` to `uint8_t`. -/
def uint8 (x : Int) : Nat := (x % 256).toNat

/-- The 32-bit pattern of a C `int`. -/
def u32 (x : Int) : Nat := (x % 4294967296).toNat

/-- The C `int` with a given 32-bit pattern. -/
def s32 (n : Nat) : Int :=
  if n % 4294967296 < 2147483648 then ((n % 4294967296 : Nat) : Int)
  else ((n % 4294967296 : Nat) : Int) - 4294967296

/-- Wraparound of an integer result to the 32-bit `int` range. -/
def int32 (x : Int) : Int := s32 (u32 x)

/-- C `a & b` on `int`. -/
def band (a b : Int) : Int := s32 (u32 a &&& u32 b)

/-- C `a | b` on `int`. -/
def bor (a b : Int) : Int := s32 (u32 a ||| u32 b)

/-- C `~a` on `int`. -/
def bnot (a : Int) : Int := s32 (u32 a ^^^ 4294967295)

/-! ## Constants of `lcd.c` and `lcd.h` -/

def GPIO_INPUT : Nat := 0
def GPIO_OUTPUT : Nat := 1

def LCD_CLEAR_DISPLAY : Int := 0x01
def LCD_RETURN_HOME : Int := 0x02
def LCD_ENTRY_MODE_SET : Int := 0x04
def LCD_DISPLAY_CONTROL : Int := 0x08
def LCD_CURSOR_SHIFT : Int := 0x10
def LCD_FUNCTION_SET : Int := 0x20
def LCD_SET_CGRAM_ADDR : Int := 0x40
def LCD_SET_DDRAM_ADDR : Int := 0x80

def LCD_DISPLAY_MOVE : Int := 0x08
def LCD_CURSOR_MOVE : Int := 0x00

/-- The anonymous `enum {LCD_CMD, LCD_DATA}`. -/
def LCD_CMD : Int := 0
def LCD_DATA : Int := 1

/-- The anonymous `enum {LCD_WRITE, LCD_READ}`. -/
def LCD_WRITE : Nat := 0
def LCD_READ : Nat := 1

/-- Configuration flags `lcd_config_t` (combined with `|`, so kept as `int`). -/
def LCD_8BIT : Int := 0x10
def LCD_4BIT : Int := 0x00
def LCD_2LINE : Int := 0x08
def LCD_1LINE : Int := 0x00
def LCD_5x10 : Int := 0x04
def LCD_5x8 : Int := 0x00

/-- The enumeration `lcd_state_t`. -/
inductive lcd_state_t where
  | LCD_OFF
  | LCD_ON
  deriving DecidableEq, Repr

/-- The enumeration `lcd_cursor_t`. -/
inductive lcd_cursor_t where
  | LCD_CURSOR_OFF
  | LCD_CURSOR_ON
  deriving DecidableEq, Repr

/-- The enumeration `lcd_blink_t`. -/
inductive lcd_blink_t where
  | LCD_BLINK_OFF
  | LCD_BLINK_ON
  deriving DecidableEq, Repr

/-- The enumeration `lcd_direction_t`. -/
inductive lcd_direction_t where
  | LCD_RIGHT_TO_LEFT
  | LCD_LEFT_TO_RIGHT
  deriving DecidableEq, Repr

/-- The enumeration `lcd_autoscroll_t` (spelled as in the header). -/
inductive lcd_autoscroll_t where
  | LCD_AUTOSCROOL_OFF
  | LCD_AUTOSCROOL_ON
  deriving DecidableEq, Repr

/-- The enumeration `lcd_scroll_t`. -/
inductive lcd_scroll_t where
  | LCD_SCROLL_TO_LEFT
  | LCD_SCROLL_TO_RIGHT
  deriving DecidableEq, Repr

/-- Value of an `lcd_state_t` enumerator. -/
def lcd_state_t.val : lcd_state_t → Int
  | .LCD_OFF => 0x00
  | .LCD_ON => 0x04

/-- Value of an `lcd_cursor_t` enumerator. -/
def lcd_cursor_t.val : lcd_cursor_t → Int
  | .LCD_CURSOR_OFF => 0x00
  | .LCD_CURSOR_ON => 0x02

/-- Value of an `lcd_blink_t` enumerator. -/
def lcd_blink_t.val : lcd_blink_t → Int
  | .LCD_BLINK_OFF => 0x00
  | .LCD_BLINK_ON => 0x01

/-- Value of an `lcd_direction_t` enumerator. -/
def lcd_direction_t.val : lcd_direction_t → Int
  | .LCD_RIGHT_TO_LEFT => 0x00
  | .LCD_LEFT_TO_RIGHT => 0x02

/-- Value of an `lcd_autoscroll_t` enumerator. -/
def lcd_autoscroll_t.val : lcd_autoscroll_t → Int
  | .LCD_AUTOSCROOL_OFF => 0x00
  | .LCD_AUTOSCROOL_ON => 0x01

/-- Value of an `lcd_scroll_t` enumerator. -/
def lcd_scroll_t.val : lcd_scroll_t → Int
  | .LCD_SCROLL_TO_LEFT => 0x00
  | .LCD_SCROLL_TO_RIGHT => 0x04

/-! ## Device record, bus events -/

/-- The structure `struct lcd_t`. -/
structure lcd_t where
  control_pins : Nat
  data_pins : Nat
  interface : Int
  control : Int
  mode : Int
  deriving DecidableEq, Repr

/-- The line a pin macro selects: `RS_PIN`, `EN_PIN`, `RW_PIN`, `DATA_PIN(lcd, d)`. -/
inductive Line where
  | RS
  | EN
  | RW
  | DATA (d : Int)
  deriving DecidableEq, Repr

/-- One call of an external capability. -/
inductive Event where
  | set (line : Line) (value : Nat)
  | dir (line : Line) (direction : Nat)
  | get (line : Line) (value : Int)
  | delay (us : Nat)
  deriving DecidableEq, Repr

/-- Why an execution does not return. -/
inductive Fault where
  | blocked
  | bounds
  deriving DecidableEq, Repr

/-- The environment: the calls made so far, oldest first, and the values
the next calls of `gpio_get` will return. -/
structure Env where
  trace : List Event
  reads : List Int
  deriving DecidableEq, Repr

/-- Executions of driver code. -/
abbrev M := StateT Env (Except Fault)

deriving instance DecidableEq for Except

/-- Record one call. -/
def emit (e : Event) : M Unit :=
  modify fun env => { env with trace := env.trace ++ [e] }

/-- The macro `GPIO_SET`, a call of `gpio_set`. -/
def GPIO_SET (line : Line) (value : Nat) : M Unit := emit (.set line value)

/-- The macro `GPIO_DIR`, a call of `gpio_dir`. -/
def GPIO_DIR (line : Line) (direction : Nat) : M Unit := emit (.dir line direction)

/-- The macro `GPIO_GET`, a call of `gpio_get`: it returns the next pending read. -/
def GPIO_GET (line : Line) : M Int := do
  let env ← get
  match env.reads with
  | [] => throw Fault.blocked
  | v :: rest =>
    set ({ trace := env.trace ++ [.get line v], reads := rest } : Env)
    pure v

/-- The macro `LCD_DELAY_us`, a call of `delay_us`. -/
def LCD_DELAY_us (time : Nat) : M Unit := emit (.delay time)

/-! ## Internal functions -/

/-- The function `lcd_enable`: the enable pulse. -/
def lcd_enable (_lcd : lcd_t) : M Unit := do
  GPIO_SET .EN 1
  LCD_DELAY_us 1
  GPIO_SET .EN 0

/-- The `while (busy)` loop of `lcd_busy`.  Every iteration consumes one
pending read, so `fuel` one above their number is never used up. -/
def lcd_busy_loop (lcd : lcd_t) (d7 : Int) : Nat → M Unit
  | 0 => throw Fault.blocked
  | fuel + 1 => do
    GPIO_SET .EN 1
    LCD_DELAY_us 1
    let busy ← GPIO_GET (.DATA d7)
    GPIO_SET .EN 0
    if lcd.interface = 4 then
      lcd_enable lcd
    if busy ≠ 0 then
      lcd_busy_loop lcd d7 fuel

/-- The function `lcd_busy` (compiled with `LCD_RW_SUPPORT`). -/
def lcd_busy (lcd : lcd_t) : M Unit := do
  GPIO_SET .RS LCD_CMD.toNat
  GPIO_SET .RW LCD_READ
  let d7 := lcd.interface - 1
  GPIO_DIR (.DATA d7) GPIO_INPUT
  let env ← get
  lcd_busy_loop lcd d7 (env.reads.length + 1)
  GPIO_DIR (.DATA d7) GPIO_OUTPUT
  GPIO_SET .RW LCD_WRITE

/-- The function `lcd_write`. -/
def lcd_write (rw : Bool) (lcd : lcd_t) (value : Int) : M Unit := do
  let value := uint8 value
  (List.range lcd.interface.toNat).forM fun i =>
    GPIO_SET (.DATA i) ((value >>> i) &&& 1)
  lcd_enable lcd
  if !rw then
    LCD_DELAY_us 50

/-- The function `lcd_send`. -/
def lcd_send (rw : Bool) (lcd : lcd_t) (value : Int) (cmd_data : Int) : M Unit := do
  let value := uint8 value
  let cmd_data := uint8 cmd_data
  if rw then
    lcd_busy lcd
  GPIO_SET .RS cmd_data
  if lcd.interface = 4 then
    lcd_write rw lcd (value >>> 4 : Nat)
  lcd_write rw lcd value

/-! ## Public operations on a device

An operation receives the record its `lcd_t *lcd` argument points to and returns
the record as it stands when the operation returns. -/

/-- The function `lcd_state`. -/
def lcd_state (rw : Bool) (lcd : lcd_t) (state : lcd_state_t) : M lcd_t := do
  let lcd := { lcd with control := band lcd.control (bnot lcd_state_t.LCD_ON.val) }
  let lcd := { lcd with control := bor lcd.control state.val }
  lcd_send rw lcd lcd.control LCD_CMD
  pure lcd

/-- The function `lcd_clear`. -/
def lcd_clear (rw : Bool) (lcd : lcd_t) : M lcd_t := do
  lcd_send rw lcd LCD_CLEAR_DISPLAY LCD_CMD
  LCD_DELAY_us 2000
  pure lcd

/-- The function `lcd_home`. -/
def lcd_home (rw : Bool) (lcd : lcd_t) : M lcd_t := do
  lcd_send rw lcd LCD_RETURN_HOME LCD_CMD
  LCD_DELAY_us 2000
  pure lcd

/-- The table `lines_offset` of `lcd_cursor_set`. -/
def lines_offset : List Int := [0x00, 0x40, 0x10, 0x50]

/-- The function `lcd_cursor_set`.  The `int` sum `col + lines_offset[line]` is
not wrapped: only its low eight bits reach `address`. -/
def lcd_cursor_set (rw : Bool) (lcd : lcd_t) (line col : Int) : M lcd_t := do
  if line < 0 then
    throw Fault.bounds
  match lines_offset[line.toNat]? with
  | none => throw Fault.bounds
  | some offset =>
    let address := uint8 (bor LCD_SET_DDRAM_ADDR (col + offset))
    lcd_send rw lcd address LCD_CMD
    pure lcd

/-- The function `lcd_cursor_state`. -/
def lcd_cursor_state (rw : Bool) (lcd : lcd_t) (state : lcd_cursor_t) : M lcd_t := do
  let lcd := { lcd with control := band lcd.control (bnot lcd_cursor_t.LCD_CURSOR_ON.val) }
  let lcd := { lcd with control := bor lcd.control state.val }
  lcd_send rw lcd lcd.control LCD_CMD
  pure lcd

/-- The function `lcd_cursor_blink`. -/
def lcd_cursor_blink (rw : Bool) (lcd : lcd_t) (state : lcd_blink_t) : M lcd_t := do
  let lcd := { lcd with control := band lcd.control (bnot lcd_blink_t.LCD_BLINK_ON.val) }
  let lcd := { lcd with control := bor lcd.control state.val }
  lcd_send rw lcd lcd.control LCD_CMD
  pure lcd

/-- The function `lcd_text_direction`. -/
def lcd_text_direction (rw : Bool) (lcd : lcd_t) (direction : lcd_direction_t) : M lcd_t := do
  let lcd := { lcd with mode := band lcd.mode (bnot lcd_direction_t.LCD_LEFT_TO_RIGHT.val) }
  let lcd := { lcd with mode := bor lcd.mode direction.val }
  lcd_send rw lcd lcd.mode LCD_CMD
  pure lcd

/-- The function `lcd_autoscroll`. -/
def lcd_autoscroll (rw : Bool) (lcd : lcd_t) (state : lcd_autoscroll_t) : M lcd_t := do
  let lcd := { lcd with mode := band lcd.mode (bnot lcd_autoscroll_t.LCD_AUTOSCROOL_ON.val) }
  let lcd := { lcd with mode := bor lcd.mode state.val }
  lcd_send rw lcd lcd.mode LCD_CMD
  pure lcd

/-- The function `lcd_scroll`. -/
def lcd_scroll (rw : Bool) (lcd : lcd_t) (direction : lcd_scroll_t) : M lcd_t := do
  lcd_send rw lcd (bor (bor LCD_CURSOR_SHIFT LCD_DISPLAY_MOVE) direction.val) LCD_CMD
  pure lcd

/-- C `a << k` on `int`, as the 32-bit pattern shifted. -/
def shl (a : Int) (k : Nat) : Int := s32 (u32 a <<< k)

/-- The function `lcd_create_char`; `charmap` is the array behind the pointer. -/
def lcd_create_char (rw : Bool) (lcd : lcd_t) (index : Int) (charmap : List Nat) : M lcd_t := do
  let index := band index 0x07
  lcd_send rw lcd (bor LCD_SET_CGRAM_ADDR (shl index 3)) LCD_CMD
  (List.range 8).forM fun i =>
    match charmap[i]? with
    | some c => lcd_send rw lcd c LCD_DATA
    | none => throw Fault.bounds
  pure lcd

/-- The function `lcd_print_char`; `c` is the byte value of the character. -/
def lcd_print_char (rw : Bool) (lcd : lcd_t) (c : Nat) : M lcd_t := do
  lcd_send rw lcd c LCD_DATA
  pure lcd

/-- The `while (*pstr)` loop of `lcd_print_str` over the bytes stored from
`pstr` on; running off their end is an access outside the array. -/
def lcd_print_str_loop (rw : Bool) (lcd : lcd_t) : List Nat → M Unit
  | [] => throw Fault.bounds
  | c :: pstr =>
    if c ≠ 0 then do
      lcd_send rw lcd c LCD_DATA
      lcd_print_str_loop rw lcd pstr
    else
      pure ()

/-- The function `lcd_print_str`; `str` is the array behind the pointer. -/
def lcd_print_str (rw : Bool) (lcd : lcd_t) (str : List Nat) : M lcd_t := do
  lcd_print_str_loop rw lcd str
  pure lcd

/-- The first loop of `lcd_print_int`, `while (num > 0)`, from index `i` on.
It runs only for positive `num`, where `/` and `%` are those of C. -/
def lcd_print_int_fill (num : Int) (i : Nat) (buffer : List Int) :
    Except Fault (Nat × List Int) :=
  if 0 < num then
    if i < buffer.length then
      lcd_print_int_fill (num / 10) (i + 1) (buffer.set i (num % 10 + Char.toNat '0'))
    else
      .error Fault.bounds
  else
    .ok (i, buffer)
termination_by num.toNat
decreasing_by omega

/-- The second loop of `lcd_print_int`, `while (i > 0)`. -/
def lcd_print_int_drain (rw : Bool) (lcd : lcd_t) (buffer : List Int) : Nat → M Unit
  | 0 => pure ()
  | i + 1 =>
    match buffer[i]? with
    | some c => do
      lcd_send rw lcd c LCD_DATA
      lcd_print_int_drain rw lcd buffer i
    | none => throw Fault.bounds

/-- The function `lcd_print_int`.  The negation wraps to 32 bits; the 12 entries
of `buffer` start as zeros, none is read before it is written. -/
def lcd_print_int (rw : Bool) (lcd : lcd_t) (num : Int) : M lcd_t := do
  let num ←
    if num < 0 then do
      lcd_send rw lcd (Char.toNat '-') LCD_DATA
      pure (int32 (-num))
    else
      pure num
  match lcd_print_int_fill num 0 (List.replicate 12 0) with
  | .error f => throw f
  | .ok (i, buffer) =>
    lcd_print_int_drain rw lcd buffer i
    pure lcd

/-! ## Device registry -/

/-- The static storage of `lcd.c`: the array `g_lcd[LCD_MAX_INSTANCES]` and the
`counter` of `lcd_instantiate`.  A pointer `lcd_t *` is `none` (null) or a slot. -/
structure Registry (N : Nat) where
  g_lcd : Fin N → lcd_t
  counter : Nat

/-- Static storage is zero-initialised. -/
def Registry.init (N : Nat) : Registry N :=
  { g_lcd := fun _ => ⟨0, 0, 0, 0, 0⟩, counter := 0 }

/-- The function `lcd_instantiate`. -/
def lcd_instantiate {N : Nat} (r : Registry N) : Option (Fin N) × Registry N :=
  if h : r.counter < N then
    (some ⟨r.counter, h⟩, { r with counter := r.counter + 1 })
  else
    ((List.finRange N).find? fun i => (r.g_lcd i).control_pins == 0, r)

/-- The function `lcd_create`.  The fields are written to the slot when the
initialisation has run. -/
def lcd_create {N : Nat} (rw : Bool) (r : Registry N) (config : Int)
    (control_pins data_pins : Nat) : M (Option (Fin N) × Registry N) := do
  let (lcd, r) := lcd_instantiate r
  match lcd with
  | none => pure (none, r)
  | some slot =>
    if control_pins = 0 ∨ data_pins = 0 then
      pure (none, r)
    else do
      let lcd := r.g_lcd slot
      let lcd := { lcd with control_pins := control_pins, data_pins := data_pins,
                            interface := if band config LCD_8BIT ≠ 0 then 8 else 4 }
      GPIO_DIR .RS GPIO_OUTPUT
      GPIO_DIR .EN GPIO_OUTPUT
      if rw then
        GPIO_DIR .RW GPIO_OUTPUT
        GPIO_SET .RW LCD_WRITE
      (List.range lcd.interface.toNat).forM fun i =>
        GPIO_DIR (.DATA i) GPIO_OUTPUT
      LCD_DELAY_us 50000
      GPIO_SET .RS 0
      GPIO_SET .EN 0
      if lcd.interface = 4 then
        lcd_write rw lcd 0x03
        LCD_DELAY_us 4500
        lcd_write rw lcd 0x03
        LCD_DELAY_us 150
        lcd_write rw lcd 0x03
        LCD_DELAY_us 150
        lcd_write rw lcd 0x02
      else
        lcd_send rw lcd config LCD_CMD
        LCD_DELAY_us 4500
        lcd_send rw lcd config LCD_CMD
        LCD_DELAY_us 150
        lcd_send rw lcd config LCD_CMD
      let config := bor config LCD_FUNCTION_SET
      lcd_send rw lcd config LCD_CMD
      let lcd := { lcd with control := bor LCD_DISPLAY_CONTROL lcd_state_t.LCD_ON.val }
      lcd_send rw lcd lcd.control LCD_CMD
      let lcd ← lcd_clear rw lcd
      let lcd := { lcd with mode := bor LCD_ENTRY_MODE_SET lcd_direction_t.LCD_LEFT_TO_RIGHT.val }
      lcd_send rw lcd lcd.mode LCD_CMD
      pure (some slot, { r with g_lcd := Function.update r.g_lcd slot lcd })

/-- The function `lcd_destroy`. -/
def lcd_destroy {N : Nat} (r : Registry N) (lcd : Option (Fin N)) : Registry N :=
  match lcd with
  | none => r
  | some slot =>
    { r with g_lcd := Function.update r.g_lcd slot { r.g_lcd slot with control_pins := 0 } }

/-! ## Vocabulary of the statements -/

/-- Several calls recorded at once. -/
def emits (es : List Event) : M Unit :=
  modify fun env => { env with trace := env.trace ++ es }

/-- The bytes `(value, kind)` of a list sent in order, each by one call of
`lcd_send`. -/
def sends (rw : Bool) (lcd : lcd_t) : List (Int × Int) → M Unit
  | [] => pure ()
  | b :: rest => do
    lcd_send rw lcd b.1 b.2
    sends rw lcd rest

/-- The wait for the busy flag that opens `lcd_send` when `LCD_RW_SUPPORT` is
defined. -/
def busyWait (rw : Bool) (lcd : lcd_t) : M Unit :=
  if rw then lcd_busy lcd else pure ()

/-- The settle delay that closes `lcd_write` when `LCD_RW_SUPPORT` is not
defined. -/
def settle (rw : Bool) : List Event :=
  if rw then [] else [.delay 50]

/-- The calls of one `lcd_write` of the byte `value` on a bus of `width` data
lines: the lines in increasing order, then the enable pulse. -/
def writeEvents (rw : Bool) (width : Nat) (value : Nat) : List Event :=
  ((List.range width).map fun (i : Nat) => Event.set (.DATA i) ((value >>> i) &&& 1)) ++
    [.set .EN 1, .delay 1, .set .EN 0] ++ settle rw

/-- The calls of one `lcd_send` once the busy flag is clear. -/
def sendEvents (rw : Bool) (lcd : lcd_t) (value cmd_data : Int) : List Event :=
  [Event.set .RS (uint8 cmd_data)] ++
    (if lcd.interface = 4 then writeEvents rw lcd.interface.toNat (uint8 value >>> 4) else []) ++
    writeEvents rw lcd.interface.toNat (uint8 value)

/-- The decimal representation of an integer as character codes: `-` for a
negative number, then the decimal digits of its absolute value, the most
significant first (`Nat.digits` lists them from the least significant one and
has no leading zero). -/
def decimalChars (num : Int) : List Int :=
  (if num < 0 then [(Char.toNat '-' : Int)] else []) ++
    (Nat.digits 10 num.natAbs).reverse.map fun (d : Nat) => (d : Int) + Char.toNat '0'

/-- The `int` `new` has the 32-bit pattern of `old` with bit `p` set to `b`. -/
def SetsBit (p : Nat) (b : Bool) (old new : Int) : Prop :=
  (-2147483648 ≤ new ∧ new < 2147483648) ∧
    ∀ j : Nat, j < 32 → (u32 new).testBit j = if j = p then b else (u32 old).testBit j

instance (p : Nat) (b : Bool) (old new : Int) : Decidable (SetsBit p b old new) := by
  unfold SetsBit
  infer_instance

/-- The device record a successful `lcd_create` leaves in the claimed slot. -/
def initDevice (config : Int) (control_pins data_pins : Nat) : lcd_t :=
  { control_pins := control_pins, data_pins := data_pins,
    interface := if band config LCD_8BIT ≠ 0 then 8 else 4,
    control := 0x0C, mode := 0x06 }

/-- The initialisation sequence of section 4.2 of the specification on the bus
of the device `lcd`: pin directions, power-up delay, RS and EN low, the reset
phase for the interface width, then function set, display control, clear with
its settle delay, and entry mode. -/
def initBus (rw : Bool) (lcd : lcd_t) (config : Int) : M Unit := do
  emits ([.dir .RS 1, .dir .EN 1] ++ (if rw then [.dir .RW 1, .set .RW 0] else []) ++
    ((List.range lcd.interface.toNat).map fun (i : Nat) => Event.dir (.DATA i) 1) ++
    [.delay 50000, .set .RS 0, .set .EN 0])
  if lcd.interface = 4 then
    emits (writeEvents rw 4 0x03 ++ [.delay 4500] ++ writeEvents rw 4 0x03 ++ [.delay 150] ++
      writeEvents rw 4 0x03 ++ [.delay 150] ++ writeEvents rw 4 0x02)
  else do
    lcd_send rw lcd config LCD_CMD
    emits [.delay 4500]
    lcd_send rw lcd config LCD_CMD
    emits [.delay 150]
    lcd_send rw lcd config LCD_CMD
  sends rw lcd [(bor config 0x20, LCD_CMD), (0x0C, LCD_CMD), (0x01, LCD_CMD)]
  emits [.delay 2000]
  sends rw lcd [(0x06, LCD_CMD)]

/-- A slot is free when its `control_pins` pointer is null. -/
def Registry.free {N : Nat} (r : Registry N) (slot : Fin N) : Prop :=
  (r.g_lcd slot).control_pins = 0

instance {N : Nat} (r : Registry N) (slot : Fin N) : Decidable (r.free slot) := by
  unfold Registry.free
  infer_instance

/-- The pool is full when no slot is free. -/
def Registry.full {N : Nat} (r : Registry N) : Prop :=
  ∀ slot : Fin N, ¬ r.free slot

instance {N : Nat} (r : Registry N) : Decidable r.full := by
  unfold Registry.full
  infer_instance

/-- The number of free slots. -/
def Registry.freeCount {N : Nat} (r : Registry N) : Nat :=
  (Finset.univ.filter fun slot : Fin N => (r.g_lcd slot).control_pins = 0).card

/-- The registry invariant: the counter is at most the capacity and every slot
from the counter on is free. -/
def Registry.Inv {N : Nat} (r : Registry N) : Prop :=
  r.counter ≤ N ∧ ∀ slot : Fin N, r.counter ≤ slot.val → r.free slot

instance {N : Nat} (r : Registry N) : Decidable r.Inv := by
  unfold Registry.Inv
  infer_instance

/-- Consecutive calls of `lcd_create`, one for each `(config, control_pins,
data_pins)` of the list: the number of calls that return a non-null handle. -/
def createCount (rw : Bool) {N : Nat} : List (Int × Nat × Nat) → Registry N → M Nat
  | [], _ => pure 0
  | c :: rest, r => do
    let (lcd, r1) ← lcd_create rw r c.1 c.2.1 c.2.2
    let k ← createCount rw rest r1
    pure (if lcd.isSome then k + 1 else k)

/-- A pool of one slot after one successful `lcd_create`. -/
def fullRegistry : Registry 1 :=
  { g_lcd := Function.update (Registry.init 1).g_lcd 0 (initDevice 0 1 1), counter := 1 }

/-- The registry states reached from the zero-initialised storage by calls of
`lcd_create` that return and calls of `lcd_destroy`. -/
inductive Reachable (rw : Bool) {N : Nat} : Registry N → Prop where
  | init : Reachable rw (Registry.init N)
  | create {r r1 : Registry N} {config : Int} {control_pins data_pins : Nat}
      {env env1 : Env} {lcd : Option (Fin N)} :
      Reachable rw r →
      lcd_create rw r config control_pins data_pins env = .ok ((lcd, r1), env1) →
      Reachable rw r1
  | destroy {r : Registry N} (lcd : Option (Fin N)) :
      Reachable rw r → Reachable rw (lcd_destroy r lcd)

/-- The calls of one iteration of the loop of `lcd_busy` in which the busy flag
is sampled as `b` on data line `d7`: an enable pulse around the sample, and a
second enable pulse on a 4-bit interface. -/
def pollEvents (lcd : lcd_t) (d7 : Int) (b : Int) : List Event :=
  [.set .EN 1, .delay 1, .get (.DATA d7) b, .set .EN 0] ++
    (if lcd.interface = 4 then [.set .EN 1, .delay 1, .set .EN 0] else [])

/-- The reset phase of `lcd_create` (steps 1 to 3 of section 4.2 of the
specification) on the bus of the device `lcd`: the directions of the pins, the
power-up delay, RS and EN low, then the reset sequence for the interface
width. -/
def resetBus (rw : Bool) (lcd : lcd_t) (config : Int) : M Unit := do
  emits ([.dir .RS 1, .dir .EN 1] ++ (if rw then [.dir .RW 1, .set .RW 0] else []) ++
    ((List.range lcd.interface.toNat).map fun (i : Nat) => Event.dir (.DATA i) 1) ++
    [.delay 50000, .set .RS 0, .set .EN 0])
  if lcd.interface = 4 then
    emits (writeEvents rw 4 0x03 ++ [.delay 4500] ++ writeEvents rw 4 0x03 ++ [.delay 150] ++
      writeEvents rw 4 0x03 ++ [.delay 150] ++ writeEvents rw 4 0x02)
  else do
    lcd_send rw lcd config LCD_CMD
    emits [.delay 4500]
    lcd_send rw lcd config LCD_CMD
    emits [.delay 150]
    lcd_send rw lcd config LCD_CMD

/-- The calls of a create with `config = LCD_8BIT` without `LCD_RW_SUPPORT`:
pin directions, power-up delay, RS and EN low, the byte `0x10` sent three times
with a delay after the first and after the second send only, then the bytes
`0x30`, `0x0C`, `0x01` (with its settle delay) and `0x06`. -/
def create8Trace : List Event :=
  [.dir .RS 1, .dir .EN 1, .dir (.DATA 0) 1, .dir (.DATA 1) 1, .dir (.DATA 2) 1,
    .dir (.DATA 3) 1, .dir (.DATA 4) 1, .dir (.DATA 5) 1, .dir (.DATA 6) 1,
    .dir (.DATA 7) 1, .delay 50000, .set .RS 0, .set .EN 0] ++
  sendEvents false (initDevice LCD_8BIT 1 1) 0x10 LCD_CMD ++ [.delay 4500] ++
  sendEvents false (initDevice LCD_8BIT 1 1) 0x10 LCD_CMD ++ [.delay 150] ++
  sendEvents false (initDevice LCD_8BIT 1 1) 0x10 LCD_CMD ++
  sendEvents false (initDevice LCD_8BIT 1 1) 0x30 LCD_CMD ++
  sendEvents false (initDevice LCD_8BIT 1 1) 0x0C LCD_CMD ++
  sendEvents false (initDevice LCD_8BIT 1 1) 0x01 LCD_CMD ++ [.delay 2000] ++
  sendEvents false (initDevice LCD_8BIT 1 1) 0x06 LCD_CMD

/-- The scenario of section 8 of the specification: on an empty registry, create
a 4-bit, 2-line, 5x8 device with the pin lists at address `pins`, clear it, put
the cursor at line 1, column 3, and print the string `"hi"`. -/
def scenario (rw : Bool) (N : Nat) (pins : Nat) : M (Option lcd_t) := do
  let (lcd, r) ← lcd_create rw (Registry.init N) (bor (bor LCD_4BIT LCD_2LINE) LCD_5x8) pins pins
  match lcd with
  | none => pure none
  | some slot =>
    let dev := r.g_lcd slot
    let dev ← lcd_clear rw dev
    let dev ← lcd_cursor_set rw dev 1 3
    let dev ← lcd_print_str rw dev [Char.toNat 'h', Char.toNat 'i', 0]
    pure (some dev)

/-- The calls that transmit one byte of kind `kind` on a 4-bit interface as the
nibble `high` and then the nibble `low`. -/
def nibblePair (rw : Bool) (kind high low : Nat) : List Event :=
  [Event.set .RS kind] ++ writeEvents rw 4 high ++ writeEvents rw 4 low

/-- The registry states reached from the zero-initialised storage by calls of
`lcd_create` that return and calls of `lcd_destroy`, each with the list of the
live handles: those returned by `lcd_create` and not passed to `lcd_destroy`
since. -/
inductive Live (rw : Bool) {N : Nat} : Registry N → List (Fin N) → Prop where
  | init : Live rw (Registry.init N) []
  | create {r r1 : Registry N} {handles : List (Fin N)} {config : Int}
      {control_pins data_pins : Nat} {env env1 : Env} {lcd : Option (Fin N)} :
      Live rw r handles →
      lcd_create rw r config control_pins data_pins env = .ok ((lcd, r1), env1) →
      Live rw r1 (lcd.toList ++ handles)
  | destroy {r : Registry N} {handles : List (Fin N)} (lcd : Option (Fin N)) :
      Live rw r handles →
      Live rw (lcd_destroy r lcd) (handles.filter fun h => some h ≠ lcd)

/-- A call of a public operation on a device, with well-formed arguments: a
declared enumerator for every flag, a line of the table of `lcd_cursor_set`, a
charmap of eight bytes, the characters of a string (the terminator is added),
an integer (converted to `int`). -/
inductive Op where
  | state (s : lcd_state_t)
  | clear
  | home
  | cursor_set (line : Fin 4) (col : Int)
  | cursor_state (s : lcd_cursor_t)
  | cursor_blink (s : lcd_blink_t)
  | text_direction (d : lcd_direction_t)
  | autoscroll (s : lcd_autoscroll_t)
  | scroll (d : lcd_scroll_t)
  | create_char (index : Int) (charmap : Fin 8 → Nat)
  | print_char (c : Nat)
  | print_str (s : List Nat)
  | print_int (num : Int)

/-- The call an `Op` stands for. -/
def Op.run (rw : Bool) (lcd : lcd_t) : Op → M lcd_t
  | .state s => lcd_state rw lcd s
  | .clear => lcd_clear rw lcd
  | .home => lcd_home rw lcd
  | .cursor_set line col => lcd_cursor_set rw lcd (line.val : Nat) col
  | .cursor_state s => lcd_cursor_state rw lcd s
  | .cursor_blink s => lcd_cursor_blink rw lcd s
  | .text_direction d => lcd_text_direction rw lcd d
  | .autoscroll s => lcd_autoscroll rw lcd s
  | .scroll d => lcd_scroll rw lcd d
  | .create_char index charmap => lcd_create_char rw lcd index (List.ofFn charmap)
  | .print_char c => lcd_print_char rw lcd c
  | .print_str s => lcd_print_str rw lcd (s ++ [0])
  | .print_int num => lcd_print_int rw lcd (int32 num)

/-- What the controller is given: a byte sent by `lcd_send`, or a delay. -/
inductive Step where
  | send (value kind : Int)
  | delay (us : Nat)
  deriving DecidableEq, Repr

/-- The steps of a list made in order on the bus of `lcd`. -/
def runSteps (rw : Bool) (lcd : lcd_t) : List Step → M Unit
  | [] => pure ()
  | .send value kind :: rest => do
    lcd_send rw lcd value kind
    runSteps rw lcd rest
  | .delay us :: rest => do
    LCD_DELAY_us us
    runSteps rw lcd rest

/-- The characters `lcd_print_int` sends for an `int`: its decimal
representation, nothing for zero, and the sign alone for `-2^31`. -/
def printedChars (num : Int) : List Int :=
  if num = -2147483648 then [(Char.toNat '-' : Int)] else decimalChars num

/-- The device record an operation returns and the steps it makes, read off the
code of the operation. -/
def Op.effect (lcd : lcd_t) : Op → lcd_t × List Step
  | .state s =>
    let c := bor (band lcd.control (bnot lcd_state_t.LCD_ON.val)) s.val
    ({ lcd with control := c }, [.send c LCD_CMD])
  | .clear => (lcd, [.send LCD_CLEAR_DISPLAY LCD_CMD, .delay 2000])
  | .home => (lcd, [.send LCD_RETURN_HOME LCD_CMD, .delay 2000])
  | .cursor_set line col =>
    (lcd, [.send (uint8 (bor LCD_SET_DDRAM_ADDR (col + lines_offset.getD line.val 0))) LCD_CMD])
  | .cursor_state s =>
    let c := bor (band lcd.control (bnot lcd_cursor_t.LCD_CURSOR_ON.val)) s.val
    ({ lcd with control := c }, [.send c LCD_CMD])
  | .cursor_blink s =>
    let c := bor (band lcd.control (bnot lcd_blink_t.LCD_BLINK_ON.val)) s.val
    ({ lcd with control := c }, [.send c LCD_CMD])
  | .text_direction d =>
    let m := bor (band lcd.mode (bnot lcd_direction_t.LCD_LEFT_TO_RIGHT.val)) d.val
    ({ lcd with mode := m }, [.send m LCD_CMD])
  | .autoscroll s =>
    let m := bor (band lcd.mode (bnot lcd_autoscroll_t.LCD_AUTOSCROOL_ON.val)) s.val
    ({ lcd with mode := m }, [.send m LCD_CMD])
  | .scroll d => (lcd, [.send (bor (bor LCD_CURSOR_SHIFT LCD_DISPLAY_MOVE) d.val) LCD_CMD])
  | .create_char index charmap =>
    (lcd, .send (bor LCD_SET_CGRAM_ADDR (shl (band index 0x07) 3)) LCD_CMD ::
      (List.ofFn charmap).map fun (c : Nat) => Step.send c LCD_DATA)
  | .print_char c => (lcd, [.send c LCD_DATA])
  | .print_str s => (lcd, (s.takeWhile fun c => c ≠ 0).map fun (c : Nat) => Step.send c LCD_DATA)
  | .print_int num => (lcd, (printedChars (int32 num)).map fun c => Step.send c LCD_DATA)

/-- The byte a step gives the controller as a COMMAND (RS low), if it is one. -/
def Step.command : Step → Option Nat
  | .send value kind => if uint8 kind = 0 then some (uint8 value) else none
  | .delay _ => none

/-- The COMMAND bytes of a list of steps, in order. -/
def commands (log : List Step) : List Nat := log.filterMap Step.command

/-- The most recent COMMAND byte of a list of steps within `lo..hi`. -/
def lastCommand (lo hi : Nat) (log : List Step) : Option Nat :=
  ((commands log).filter fun b => lo ≤ b ∧ b ≤ hi).getLast?

/-- The calls of `lcd_create` on the bus of `lcd` that are not made through
`lcd_send`: pin directions, power-up delay, RS and EN low, and, in 4-bit mode,
the nibble writes of the reset phase with their delays. -/
def resetEvents (rw : Bool) (lcd : lcd_t) : List Event :=
  [.dir .RS 1, .dir .EN 1] ++ (if rw then [.dir .RW 1, .set .RW 0] else []) ++
    ((List.range lcd.interface.toNat).map fun (i : Nat) => Event.dir (.DATA i) 1) ++
    [.delay 50000, .set .RS 0, .set .EN 0] ++
    (if lcd.interface = 4 then
      writeEvents rw 4 0x03 ++ [.delay 4500] ++ writeEvents rw 4 0x03 ++ [.delay 150] ++
        writeEvents rw 4 0x03 ++ [.delay 150] ++ writeEvents rw 4 0x02
    else [])

/-- The bytes `lcd_create` sends through `lcd_send`, with the delays between
them: in 8-bit mode `config` three times, then in both modes function set,
display control, clear and entry mode. -/
def createSteps (config : Int) : List Step :=
  (if band config LCD_8BIT ≠ 0 then
    [.send config LCD_CMD, .delay 4500, .send config LCD_CMD, .delay 150, .send config LCD_CMD]
  else []) ++
  [.send (bor config LCD_FUNCTION_SET) LCD_CMD,
    .send (bor LCD_DISPLAY_CONTROL lcd_state_t.LCD_ON.val) LCD_CMD,
    .send LCD_CLEAR_DISPLAY LCD_CMD, .delay 2000,
    .send (bor LCD_ENTRY_MODE_SET lcd_direction_t.LCD_LEFT_TO_RIGHT.val) LCD_CMD]

/-- The device records reachable from a call of `lcd_create` that returns a
handle by calls of operations that return, each with the steps made so far on
the bus of the device.  A later `lcd_create` that returns a handle for the
device again, after a destroy, starts from whatever its slot holds. -/
inductive Session (rw : Bool) : lcd_t → List Step → Prop
  | create {N : Nat} (r r1 : Registry N) (config : Int) (control_pins data_pins : Nat)
      (env env1 : Env) (slot : Fin N) :
      lcd_create rw r config control_pins data_pins env = .ok ((some slot, r1), env1) →
      Session rw (r1.g_lcd slot) (createSteps config)
  | op (lcd lcd1 : lcd_t) (log : List Step) (o : Op) (env env1 : Env) :
      Session rw lcd log → Op.run rw lcd o env = .ok (lcd1, env1) →
      Session rw lcd1 (log ++ (Op.effect lcd o).2)
  | recreate {N : Nat} (lcd : lcd_t) (log : List Step) (r r1 : Registry N) (config : Int)
      (control_pins data_pins : Nat) (env env1 : Env) (slot : Fin N) :
      Session rw lcd log →
      lcd_create rw r config control_pins data_pins env = .ok ((some slot, r1), env1) →
      Session rw (r1.g_lcd slot) (log ++ createSteps config)

/-! ## Executions that only record calls -/

theorem emit_eq (e : Event) : emit e = emits [e] := rfl

theorem emits_run (es : List Event) (env : Env) :
    emits es env = .ok ((), ⟨env.trace ++ es, env.reads⟩) := rfl

theorem emits_bind_run {α : Type} (a : List Event) (k : Unit → M α) (env : Env) :
    (emits a >>= k) env = k () ⟨env.trace ++ a, env.reads⟩ := rfl

theorem emits_nil : emits [] = pure () := by
  funext env
  simp [emits_run]
  rfl

theorem emits_append (a b : List Event) :
    (emits a >>= fun _ => emits b) = emits (a ++ b) := by
  funext env
  simp [emits_bind_run, emits_run]

theorem emits_append_bind {α : Type} (a b : List Event) (k : Unit → M α) :
    (emits a >>= fun _ => emits b >>= k) = emits (a ++ b) >>= k := by
  funext env
  simp [emits_bind_run]

theorem forM_emits {β : Type} (l : List β) (f : β → List Event) :
    (l.forM fun i => emits (f i)) = emits (l.flatMap f) := by
  induction l with
  | nil => simp [emits_nil]
  | cons x xs ih => simp [ih, emits_append]

theorem flatMap_single {β γ : Type} (l : List β) (f : β → γ) :
    (l.flatMap fun i => [f i]) = l.map f := by
  induction l with
  | nil => rfl
  | cons x xs ih => simp [List.flatMap_cons, ih]

theorem lcd_enable_eq (lcd : lcd_t) :
    lcd_enable lcd = emits [.set .EN 1, .delay 1, .set .EN 0] := by
  simp [lcd_enable, GPIO_SET, LCD_DELAY_us, emit_eq, emits_append]

theorem lcd_write_eq (rw : Bool) (lcd : lcd_t) (value : Int) :
    lcd_write rw lcd value = emits (writeEvents rw lcd.interface.toNat (uint8 value)) := by
  cases rw <;>
  simp [lcd_write, lcd_enable_eq, GPIO_SET, LCD_DELAY_us, emit_eq, emits_append, forM_emits,
    writeEvents, settle, flatMap_single, emits_nil]

theorem uint8_natCast (n : Nat) : uint8 (n : Int) = n % 256 := by
  unfold uint8; omega

theorem uint8_lt (x : Int) : uint8 x < 256 := by
  unfold uint8; omega

theorem uint8_shift_mod (x : Int) : uint8 x >>> 4 % 256 = uint8 x >>> 4 := by
  rw [Nat.shiftRight_eq_div_pow]
  have := uint8_lt x
  omega

theorem lcd_send_eq (rw : Bool) (lcd : lcd_t) (value cmd_data : Int) :
    lcd_send rw lcd value cmd_data =
      busyWait rw lcd >>= fun _ => emits (sendEvents rw lcd value cmd_data) := by
  by_cases h : lcd.interface = 4 <;> cases rw <;>
  simp [lcd_send, busyWait, sendEvents, lcd_write_eq, GPIO_SET, emit_eq, emits_append, h,
    uint8_shift_mod, uint8_natCast, Nat.mod_eq_of_lt (uint8_lt _)]

theorem sends_no_rw (lcd : lcd_t) (bs : List (Int × Int)) :
    sends false lcd bs = emits (bs.flatMap fun b => sendEvents false lcd b.1 b.2) := by
  induction bs with
  | nil => simp [sends, emits_nil]
  | cons b bs ih =>
    rw [sends, ih, lcd_send_eq]
    simp [busyWait, emits_append]

/-! ## `lcd_print_int` -/

theorem fill_nonpos (num : Int) (h : ¬ 0 < num) (i : Nat) (buf : List Int) :
    lcd_print_int_fill num i buf = .ok (i, buf) := by
  rw [lcd_print_int_fill]; simp [h]

theorem fill_pos (num : Int) (h : 0 < num) (i : Nat) (buf : List Int) (hi : i < buf.length) :
    lcd_print_int_fill num i buf =
      lcd_print_int_fill (num / 10) (i + 1) (buf.set i (num % 10 + 48)) := by
  rw [lcd_print_int_fill]; simp [h, hi]

theorem take_succ_set (buf : List Int) (i : Nat) (x : Int) (hi : i < buf.length) :
    (buf.set i x).take (i + 1) = buf.take i ++ [x] := by
  rw [List.take_succ, List.set_take, List.set_eq_of_length_le (by simp)]
  simp [hi]

/-- The first loop stores the digits of `n`, least significant first, from
index `i` on, provided they fit. -/
theorem fill_digits (n : Nat) : ∀ (i : Nat) (buf : List Int),
    i + (Nat.digits 10 n).length ≤ buf.length →
    ∃ buf', lcd_print_int_fill (n : Int) i buf = .ok (i + (Nat.digits 10 n).length, buf') ∧
      buf'.length = buf.length ∧
      buf'.take (i + (Nat.digits 10 n).length) =
        buf.take i ++ (Nat.digits 10 n).map (fun (d : Nat) => (d : Int) + 48) := by
  induction n using Nat.strong_induction_on with
  | _ n ih =>
    intro i buf h
    rcases Nat.eq_zero_or_pos n with h0 | hpos
    · subst h0
      simp [fill_nonpos]
    · rw [Nat.digits_def' (by norm_num) hpos] at h ⊢
      simp only [List.length_cons] at h ⊢
      have hi : i < buf.length := by omega
      have hpos' : (0 : Int) < (n : Int) := by exact_mod_cast hpos
      rw [fill_pos _ hpos' _ _ hi]
      have hdiv : ((n : Int) / 10) = ((n / 10 : Nat) : Int) := by norm_cast
      rw [hdiv]
      obtain ⟨buf', e1, e2, e3⟩ := ih (n / 10) (Nat.div_lt_self hpos (by norm_num)) (i + 1)
        (buf.set i ((n : Int) % 10 + 48)) (by simp; omega)
      refine ⟨buf', ?_, ?_, ?_⟩
      · rw [e1]; congr 2; omega
      · simpa using e2
      · have : i + ((Nat.digits 10 (n / 10)).length + 1) =
            i + 1 + (Nat.digits 10 (n / 10)).length := by omega
        rw [this, e3, take_succ_set _ _ _ hi]
        simp

/-- The second loop sends the first `k` entries of the buffer, last first. -/
theorem drain_take (rw : Bool) (lcd : lcd_t) (buffer : List Int) : ∀ k : Nat, k ≤ buffer.length →
    lcd_print_int_drain rw lcd buffer k =
      sends rw lcd ((buffer.take k).reverse.map fun c => (c, LCD_DATA)) := by
  intro k
  induction k with
  | zero => intro _; simp [lcd_print_int_drain, sends]
  | succ k ih =>
    intro h
    have hk : k < buffer.length := by omega
    rw [lcd_print_int_drain, List.take_succ, List.getElem?_eq_getElem hk]
    simp only [Option.toList, List.reverse_append, List.reverse_cons, List.reverse_nil,
      List.nil_append, List.singleton_append, List.map_cons]
    rw [sends, ih (by omega)]

theorem int32_of_range (x : Int) (h1 : -2147483648 ≤ x) (h2 : x < 2147483648) : int32 x = x := by
  unfold int32 s32 u32
  split <;> omega

theorem digits_length_int (n : Nat) (hn : n < 2147483648) : (Nat.digits 10 n).length ≤ 10 := by
  have h := Nat.le_digits_len_le 10 n 2147483647 (by omega)
  have h2 : (Nat.digits 10 2147483647).length = 10 := by norm_num
  omega

theorem print_loops (rw : Bool) (lcd : lcd_t) (n : Nat) (hn : n < 2147483648) :
    (match lcd_print_int_fill (n : Int) 0 (List.replicate 12 0) with
      | .error f => (throw f : M lcd_t)
      | .ok (i, buffer) => do
        lcd_print_int_drain rw lcd buffer i
        pure lcd) =
    (do sends rw lcd (((Nat.digits 10 n).reverse.map fun (d : Nat) => (d : Int) + 48).map
          fun c => (c, LCD_DATA))
        pure lcd) := by
  have hlen := digits_length_int n hn
  obtain ⟨buf', e1, e2, e3⟩ := fill_digits n 0 (List.replicate 12 0) (by simp; omega)
  rw [e1]
  simp only
  rw [drain_take rw lcd buf' _ (by simp at e2; omega), e3]
  simp

theorem lcd_print_int_sends (rw : Bool) (lcd : lcd_t) (num : Int)
    (hlo : -2147483648 < num) (hhi : num < 2147483648) :
    lcd_print_int rw lcd num =
      (do sends rw lcd ((decimalChars num).map fun c => (c, LCD_DATA))
          pure lcd) := by
  unfold lcd_print_int decimalChars
  by_cases hneg : num < 0
  · have e : int32 (-num) = ((num.natAbs : Nat) : Int) := by
      rw [int32_of_range _ (by omega) (by omega)]; omega
    simp only [hneg, if_true, bind_assoc, pure_bind, e]
    rw [print_loops rw lcd _ (by omega)]
    simp [sends]
  · obtain ⟨n, rfl⟩ : ∃ n : Nat, num = (n : Int) := ⟨num.toNat, by omega⟩
    simp only [hneg, if_false, pure_bind, Int.natAbs_ofNat]
    rw [print_loops rw lcd _ (by omega)]
    simp

/-- C1 (fails on the code): printing the integer 0 sends nothing at all, in
either build and on every device: the call returns with the trace as it was, so
no byte `'0'` reaches the controller. -/
theorem lcd_print_int_zero_sends_nothing (rw : Bool) (lcd : lcd_t) (env : Env) :
    lcd_print_int rw lcd 0 env = .ok (lcd, env) := by
  simp [lcd_print_int, fill_nonpos, lcd_print_int_drain]
  rfl

/-- C2: for a non-zero `num` with `-2^31 < num < 2^31`, `lcd_print_int` is the
sending of the decimal representation of `num` (a `-` exactly for a negative
number, then the digits of the absolute value, most significant first), every
byte with kind `LCD_DATA`, and it leaves the device record as it was; without
`LCD_RW_SUPPORT` it returns, having recorded the calls of these sends and no
others. -/
theorem lcd_print_int_decimal (rw : Bool) (lcd : lcd_t) (num : Int) (h0 : num ≠ 0)
    (hlo : -2147483648 < num) (hhi : num < 2147483648) :
    lcd_print_int rw lcd num =
        (do sends rw lcd ((decimalChars num).map fun c => (c, LCD_DATA))
            pure lcd) ∧
      (∀ env : Env, lcd_print_int false lcd num env =
        .ok (lcd, ⟨env.trace ++ (decimalChars num).flatMap fun c => sendEvents false lcd c LCD_DATA,
          env.reads⟩)) ∧
      (∃ d ds, (Nat.digits 10 num.natAbs).reverse = d :: ds ∧ 0 < d) := by
  refine ⟨lcd_print_int_sends rw lcd num hlo hhi, ?_, ?_⟩
  · intro env
    rw [lcd_print_int_sends false lcd num hlo hhi, sends_no_rw]
    simp [emits_bind_run, List.flatMap_map]
    rfl
  · have hn : num.natAbs ≠ 0 := by omega
    have hne : Nat.digits 10 num.natAbs ≠ [] := Nat.digits_ne_nil_iff_ne_zero.mpr hn
    have hlast := Nat.getLast_digit_ne_zero 10 hn
    refine ⟨(Nat.digits 10 num.natAbs).getLast hne, (Nat.digits 10 num.natAbs).dropLast.reverse,
      ?_, Nat.pos_of_ne_zero hlast⟩
    conv_lhs => rw [← List.dropLast_append_getLast hne]
    simp

/-- Witness of C2 at `-42` on a 4-bit device: the bytes are `-`, `4`, `2`. -/
theorem lcd_print_int_decimal_witness :
    ((-42 : Int) ≠ 0 ∧ (-2147483648 : Int) < -42 ∧ (-42 : Int) < 2147483648) ∧
    lcd_print_int true ⟨1, 1, 4, 12, 6⟩ (-42) =
      (do sends true ⟨1, 1, 4, 12, 6⟩ [(45, LCD_DATA), (52, LCD_DATA), (50, LCD_DATA)]
          pure ⟨1, 1, 4, 12, 6⟩) := by
  refine ⟨by decide, ?_⟩
  have h := (lcd_print_int_decimal true ⟨1, 1, 4, 12, 6⟩ (-42) (by decide) (by decide)
    (by decide)).1
  simpa [decimalChars] using h


/-! ## Machine integers -/

theorem u32_lt (x : Int) : u32 x < 4294967296 := by
  unfold u32; omega

theorem u32_natCast (n : Nat) (h : n < 4294967296) : u32 (n : Int) = n := by
  unfold u32; omega

theorem u32_s32 (n : Nat) : u32 (s32 n) = n % 4294967296 := by
  unfold u32 s32; split <;> omega

theorem s32_small (n : Nat) (h : n < 2147483648) : s32 n = (n : Int) := by
  unfold s32; split <;> omega

theorem uint8_small (n : Nat) (h : n < 256) : uint8 (n : Int) = n := by
  unfold uint8; omega

/-! ## `lcd_cursor_set` -/

/-- C3: for `line` in 0..3 with `offset` its entry of `[0x00, 0x40, 0x10, 0x50]`,
`col ≥ 0` and `col + offset ≤ 0x7F`, `lcd_cursor_set` is the sending of the one
byte `0x80 | (col + offset)` with kind `LCD_CMD`; the byte is below 256, so it is
not truncated; the device record, with its control and mode registers, is
returned as it was; and without `LCD_RW_SUPPORT` the call returns, having
recorded the calls of that one send. -/
theorem lcd_cursor_set_address (rw : Bool) (lcd : lcd_t) (line col offset : Int)
    (hline : (line, offset) ∈ [((0 : Int), (0x00 : Int)), (1, 0x40), (2, 0x10), (3, 0x50)])
    (hcol : 0 ≤ col) (hmax : col + offset ≤ 0x7F) :
    lcd_cursor_set rw lcd line col =
      (do sends rw lcd [(((0x80 ||| (col + offset).toNat : Nat) : Int), LCD_CMD)]
          pure lcd) ∧
      0x80 ||| (col + offset).toNat < 256 ∧
      (∀ env : Env, lcd_cursor_set false lcd line col env =
        .ok (lcd, ⟨env.trace ++
          sendEvents false lcd ((0x80 ||| (col + offset).toNat : Nat) : Int) LCD_CMD,
          env.reads⟩)) := by
  have hoff : 0 ≤ offset := by
    simp at hline; omega
  obtain ⟨n, hn⟩ : ∃ n : Nat, col + offset = (n : Int) := ⟨(col + offset).toNat, by omega⟩
  have hor : 128 ||| n < 256 := Nat.or_lt_two_pow (n := 8) (by norm_num) (by omega)
  have hbyte : uint8 (bor LCD_SET_DDRAM_ADDR (n : Int)) = 128 ||| n := by
    rw [bor, LCD_SET_DDRAM_ADDR, u32_natCast n (by omega)]
    have : u32 128 = 128 := by decide
    rw [this, s32_small _ (by omega), uint8_small _ (by omega)]
  have hlook : ¬ line < 0 ∧ lines_offset[line.toNat]? = some offset := by
    simp at hline
    rcases hline with ⟨rfl, rfl⟩ | ⟨rfl, rfl⟩ | ⟨rfl, rfl⟩ | ⟨rfl, rfl⟩ <;> decide
  have hsend : ∀ rw : Bool, lcd_cursor_set rw lcd line col =
      (do sends rw lcd [(((0x80 ||| (col + offset).toNat : Nat) : Int), LCD_CMD)]
          pure lcd) := by
    intro rw
    unfold lcd_cursor_set
    simp only [hlook.1, if_false, hlook.2, hn, hbyte, Int.toNat_ofNat]
    simp [sends]
  refine ⟨hsend rw, ?_, ?_⟩
  · rw [hn]; simpa using hor
  · intro env
    rw [hsend false, sends_no_rw]
    simp [emits_bind_run]
    rfl

/-- Witness of C3 at line 1, column 3: the byte is `0xC3`. -/
theorem lcd_cursor_set_address_witness :
    (((1 : Int), (0x40 : Int)) ∈ [((0 : Int), (0x00 : Int)), (1, 0x40), (2, 0x10), (3, 0x50)] ∧
      (0 : Int) ≤ 3 ∧ (3 : Int) + 0x40 ≤ 0x7F) ∧
    lcd_cursor_set true ⟨1, 1, 4, 12, 6⟩ 1 3 =
      (do sends true ⟨1, 1, 4, 12, 6⟩ [(0xC3, LCD_CMD)]
          pure ⟨1, 1, 4, 12, 6⟩) := by
  refine ⟨by decide, ?_⟩
  have h := (lcd_cursor_set_address true ⟨1, 1, 4, 12, 6⟩ 1 3 0x40 (by decide) (by decide)
    (by decide)).1
  simpa using h

/-! ## `lcd_print_str` -/

theorem print_str_loop_sends (rw : Bool) (lcd : lcd_t) (rest : List Nat) :
    ∀ s : List Nat, (∀ c ∈ s, c ≠ 0) →
      lcd_print_str_loop rw lcd (s ++ 0 :: rest) =
        sends rw lcd (s.map fun (c : Nat) => ((c : Int), LCD_DATA)) := by
  intro s
  induction s with
  | nil => intro _; simp [lcd_print_str_loop, sends]
  | cons c s ih =>
    intro h
    have hc : c ≠ 0 := h c (by simp)
    have hs : ∀ d ∈ s, d ≠ 0 := fun d hd => h d (by simp [hd])
    simp only [List.cons_append, List.map_cons]
    rw [lcd_print_str_loop, sends, ih hs]
    simp [hc]

/-- C6: for a string whose characters `s` (none of them zero) are followed by
the terminator, whatever is stored after it, `lcd_print_str` is the sending of
the characters of `s` in order, one byte each with kind `LCD_DATA`, and of
nothing else: as many sends as characters, the terminator not among them; the
empty string sends nothing; the device record, with its control and mode
registers, is returned as it was; and without `LCD_RW_SUPPORT` the call returns,
having recorded the calls of these sends. -/
theorem lcd_print_str_bytes (rw : Bool) (lcd : lcd_t) (s rest : List Nat)
    (hs : ∀ c ∈ s, c ≠ 0) :
    lcd_print_str rw lcd (s ++ 0 :: rest) =
        (do sends rw lcd (s.map fun (c : Nat) => ((c : Int), LCD_DATA))
            pure lcd) ∧
      (s.map fun (c : Nat) => ((c : Int), LCD_DATA)).length = s.length ∧
      lcd_print_str rw lcd (0 :: rest) = pure lcd ∧
      (∀ env : Env, lcd_print_str false lcd (s ++ 0 :: rest) env =
        .ok (lcd, ⟨env.trace ++ s.flatMap fun (c : Nat) => sendEvents false lcd c LCD_DATA,
          env.reads⟩)) := by
  refine ⟨?_, by simp, ?_, ?_⟩
  · rw [lcd_print_str, print_str_loop_sends rw lcd rest s hs]
  · have h := print_str_loop_sends rw lcd rest [] (by simp)
    simp only [List.nil_append, List.map_nil] at h
    rw [lcd_print_str, h]
    simp [sends]
  · intro env
    rw [lcd_print_str, print_str_loop_sends false lcd rest s hs, sends_no_rw]
    simp [emits_bind_run, List.flatMap_map]
    rfl

/-- Witness of C6 at the string `"hi"`. -/
theorem lcd_print_str_bytes_witness :
    (∀ c ∈ [104, 105], c ≠ 0) ∧
    lcd_print_str true ⟨1, 1, 4, 12, 6⟩ [104, 105, 0] =
      (do sends true ⟨1, 1, 4, 12, 6⟩ [(104, LCD_DATA), (105, LCD_DATA)]
          pure ⟨1, 1, 4, 12, 6⟩) := by
  refine ⟨by decide, ?_⟩
  have h := (lcd_print_str_bytes true ⟨1, 1, 4, 12, 6⟩ [104, 105] [] (by decide)).1
  simpa using h

/-! ## `lcd_create_char` -/

theorem band_seven (index : Int) : band index 0x07 = ((index % 8).toNat : Int) := by
  unfold band
  have h7 : u32 7 = 2 ^ 3 - 1 := by decide
  rw [h7, Nat.and_pow_two_sub_one_eq_mod]
  have : u32 index % 2 ^ 3 = (index % 8).toNat := by
    unfold u32; omega
  rw [this, s32_small _ (by omega)]

theorem cgram_byte (k : Nat) (hk : k < 8) :
    uint8 (bor LCD_SET_CGRAM_ADDR (shl (k : Int) 3)) = 0x40 ||| (k <<< 3) := by
  have h1 : k <<< 3 < 64 := by
    rw [Nat.shiftLeft_eq]; omega
  have h2 : 64 ||| (k <<< 3) < 128 := Nat.or_lt_two_pow (n := 7) (by norm_num) (by omega)
  have h64 : u32 64 = 64 := by decide
  have hshl : shl (k : Int) 3 = ((k <<< 3 : Nat) : Int) := by
    rw [shl, u32_natCast k (by omega), s32_small _ (by omega)]
  rw [hshl, bor, LCD_SET_CGRAM_ADDR, h64, u32_natCast _ (by omega), s32_small _ (by omega),
    uint8_small _ (by omega)]

theorem lcd_create_char_sends (rw : Bool) (lcd : lcd_t) (index : Int) (charmap : List Nat)
    (hlen : charmap.length = 8) :
    lcd_create_char rw lcd index charmap =
      (do sends rw lcd ((((0x40 ||| ((index % 8).toNat <<< 3) : Nat) : Int), LCD_CMD) ::
            charmap.map fun (c : Nat) => ((c : Int), LCD_DATA))
          pure lcd) := by
  have hk : (index % 8).toNat < 8 := by omega
  have hbyte := cgram_byte _ hk
  have hor : 64 ||| ((index % 8).toNat <<< 3) < 256 := by
    rw [← hbyte]; exact uint8_lt _
  have hsend : ∀ x : Int, uint8 x = 64 ||| ((index % 8).toNat <<< 3) →
      lcd_send rw lcd x LCD_CMD =
        lcd_send rw lcd ((64 ||| ((index % 8).toNat <<< 3) : Nat) : Int) LCD_CMD := by
    intro x hx
    simp only [lcd_send, hx, uint8_small _ hor]
  match charmap, hlen with
  | [c0, c1, c2, c3, c4, c5, c6, c7], _ =>
    unfold lcd_create_char
    rw [band_seven]
    simp only []
    rw [hsend _ hbyte]
    simp [sends, List.range_succ]

/-- C10: for every `index`, negative or above 7 included, and every charmap of
eight bytes, `lcd_create_char` is the sending of nine bytes: the byte
`0x40 | ((index mod 8) << 3)` with kind `LCD_CMD`, then the eight bytes of the
charmap in order with kind `LCD_DATA`; so two indices congruent modulo 8 give
the same execution; the device record is returned as it was; and without
`LCD_RW_SUPPORT` the call returns, having recorded the calls of these sends. -/
theorem lcd_create_char_bytes (rw : Bool) (lcd : lcd_t) (index : Int) (charmap : List Nat)
    (hlen : charmap.length = 8) :
    lcd_create_char rw lcd index charmap =
        (do sends rw lcd ((((0x40 ||| ((index % 8).toNat <<< 3) : Nat) : Int), LCD_CMD) ::
              charmap.map fun (c : Nat) => ((c : Int), LCD_DATA))
            pure lcd) ∧
      ((((0x40 ||| ((index % 8).toNat <<< 3) : Nat) : Int), LCD_CMD) ::
          charmap.map fun (c : Nat) => ((c : Int), LCD_DATA)).length = 9 ∧
      0x40 ||| ((index % 8).toNat <<< 3) < 256 ∧
      (∀ index' : Int, index' % 8 = index % 8 →
        lcd_create_char rw lcd index' charmap = lcd_create_char rw lcd index charmap) ∧
      (∀ env : Env, lcd_create_char false lcd index charmap env =
        .ok (lcd, ⟨env.trace ++
          (sendEvents false lcd ((0x40 ||| ((index % 8).toNat <<< 3) : Nat) : Int) LCD_CMD ++
            charmap.flatMap fun (c : Nat) => sendEvents false lcd c LCD_DATA),
          env.reads⟩)) := by
  refine ⟨lcd_create_char_sends rw lcd index charmap hlen, by simp [hlen], ?_, ?_, ?_⟩
  · rw [← cgram_byte _ (by omega)]; exact uint8_lt _
  · intro index' h
    rw [lcd_create_char_sends rw lcd index' charmap hlen,
      lcd_create_char_sends rw lcd index charmap hlen, h]
  · intro env
    rw [lcd_create_char_sends false lcd index charmap hlen, sends_no_rw]
    simp [emits_bind_run, List.flatMap_map, List.flatMap_cons]
    rfl

/-- Witness of C10 at index 10, which behaves as index 2: the command byte is
`0x50`. -/
theorem lcd_create_char_bytes_witness :
    [0, 1, 2, 3, 4, 5, 6, 7].length = 8 ∧
    lcd_create_char true ⟨1, 1, 4, 12, 6⟩ 10 [0, 1, 2, 3, 4, 5, 6, 7] =
      (do sends true ⟨1, 1, 4, 12, 6⟩ [(0x50, LCD_CMD), (0, LCD_DATA), (1, LCD_DATA),
            (2, LCD_DATA), (3, LCD_DATA), (4, LCD_DATA), (5, LCD_DATA), (6, LCD_DATA),
            (7, LCD_DATA)]
          pure ⟨1, 1, 4, 12, 6⟩) := by
  refine ⟨by decide, ?_⟩
  have h := (lcd_create_char_bytes true ⟨1, 1, 4, 12, 6⟩ 10 [0, 1, 2, 3, 4, 5, 6, 7]
    (by decide)).1
  simpa using h

/-! ## Flag setters -/

theorem u32_two_pow (p : Nat) (hp : p < 32) : u32 ((2 : Int) ^ p) = 2 ^ p := by
  have h : ((2 : Int) ^ p) = ((2 ^ p : Nat) : Int) := by push_cast; rfl
  have hlt : 2 ^ p < 2 ^ 32 := Nat.pow_lt_pow_right (by norm_num) hp
  rw [h, u32_natCast _ (by omega)]

theorem u32_testBit_high (x : Int) (j : Nat) (hj : 32 ≤ j) : (u32 x).testBit j = false := by
  apply Nat.testBit_lt_two_pow
  calc u32 x < 2 ^ 32 := u32_lt x
    _ ≤ 2 ^ j := Nat.pow_le_pow_right (by norm_num) hj

/-- The merge `(c & ~m) | v` of the flag setters, for a mask `m = 2^p` and a
value `v` that is `0` or `m`: bit `p` becomes that of `v`, every other bit of
the 32-bit pattern stays. -/
theorem merge_testBit (c : Int) (p : Nat) (hp : p < 32) (v : Int)
    (hv : v = 0 ∨ v = (2 : Int) ^ p) (j : Nat) :
    (u32 (bor (band c (bnot ((2 : Int) ^ p))) v)).testBit j =
      if j = p then decide (v ≠ 0) else (u32 c).testBit j := by
  have hmask : (4294967295 : Nat) = 2 ^ 32 - 1 := by norm_num
  have hmod : ∀ n : Nat, n % 4294967296 = n % 2 ^ 32 := fun n => by norm_num
  simp only [bor, band, bnot, u32_s32, hmod, Nat.testBit_mod_two_pow, Nat.testBit_or,
    Nat.testBit_and, Nat.testBit_xor, u32_two_pow p hp, hmask, Nat.testBit_two_pow_sub_one,
    Nat.testBit_two_pow]
  by_cases hj : j = p
  · subst hj
    rcases hv with rfl | rfl
    · simp [hp, u32]
    · simp [hp, u32_two_pow j hp, Nat.testBit_two_pow]
  · have hj' : ¬ p = j := fun h => hj h.symm
    by_cases h32 : j < 32
    · rcases hv with rfl | rfl
      · simp [hj, hj', h32, u32]
      · simp [hj, hj', h32, u32_two_pow p hp, Nat.testBit_two_pow]
    · simp [hj, h32, u32_testBit_high c j (by omega)]

theorem s32_range (n : Nat) : -2147483648 ≤ s32 n ∧ s32 n < 2147483648 := by
  unfold s32; split <;> omega

theorem merge_setsBit (c : Int) (p : Nat) (hp : p < 32) (m v : Int) (hm : m = (2 : Int) ^ p)
    (b : Bool) (hv : (v = 0 ∧ b = false) ∨ (v = m ∧ b = true)) :
    SetsBit p b c (bor (band c (bnot m)) v) := by
  subst hm
  refine ⟨s32_range _, fun j _ => ?_⟩
  rw [merge_testBit c p hp v (by rcases hv with h | h <;> simp [h.1]) j]
  by_cases hj : j = p
  · rcases hv with ⟨rfl, rfl⟩ | ⟨rfl, rfl⟩ <;> simp [hj]
  · simp [hj]

theorem send_return_no_rw (lcd lcd' : lcd_t) (value : Int) (env : Env) :
    ∃ env', (do lcd_send false lcd value LCD_CMD; pure lcd' : M lcd_t) env = .ok (lcd', env') := by
  rw [lcd_send_eq]
  exact ⟨_, rfl⟩

/-- C4: each flag setter sends the merged register as a command and returns the
device record with that register replaced and every other field as it was:
`lcd_state` sets bit 2 (`0x04`), `lcd_cursor_state` bit 1 (`0x02`) and
`lcd_cursor_blink` bit 0 (`0x01`) of `control` to the requested value and keeps
the other bits of `control`; `lcd_text_direction` sets bit 1 and
`lcd_autoscroll` bit 0 of `mode` and keeps the other bits of `mode`.  Without
`LCD_RW_SUPPORT` each call returns.  From `control = 0x0C`,
`lcd_cursor_blink(LCD_BLINK_ON)` gives `control = 0x0D`. -/
theorem flag_setters_merge (rw : Bool) (lcd : lcd_t) :
    (∀ state : lcd_state_t, ∃ c : Int,
      SetsBit 2 (decide (state = .LCD_ON)) lcd.control c ∧
      lcd_state rw lcd state =
        (do lcd_send rw { lcd with control := c } c LCD_CMD
            pure { lcd with control := c }) ∧
      ∀ env : Env, ∃ env', lcd_state false lcd state env = .ok ({ lcd with control := c }, env')) ∧
    (∀ state : lcd_cursor_t, ∃ c : Int,
      SetsBit 1 (decide (state = .LCD_CURSOR_ON)) lcd.control c ∧
      lcd_cursor_state rw lcd state =
        (do lcd_send rw { lcd with control := c } c LCD_CMD
            pure { lcd with control := c }) ∧
      ∀ env : Env, ∃ env',
        lcd_cursor_state false lcd state env = .ok ({ lcd with control := c }, env')) ∧
    (∀ state : lcd_blink_t, ∃ c : Int,
      SetsBit 0 (decide (state = .LCD_BLINK_ON)) lcd.control c ∧
      lcd_cursor_blink rw lcd state =
        (do lcd_send rw { lcd with control := c } c LCD_CMD
            pure { lcd with control := c }) ∧
      ∀ env : Env, ∃ env',
        lcd_cursor_blink false lcd state env = .ok ({ lcd with control := c }, env')) ∧
    (∀ direction : lcd_direction_t, ∃ m : Int,
      SetsBit 1 (decide (direction = .LCD_LEFT_TO_RIGHT)) lcd.mode m ∧
      lcd_text_direction rw lcd direction =
        (do lcd_send rw { lcd with mode := m } m LCD_CMD
            pure { lcd with mode := m }) ∧
      ∀ env : Env, ∃ env',
        lcd_text_direction false lcd direction env = .ok ({ lcd with mode := m }, env')) ∧
    (∀ state : lcd_autoscroll_t, ∃ m : Int,
      SetsBit 0 (decide (state = .LCD_AUTOSCROOL_ON)) lcd.mode m ∧
      lcd_autoscroll rw lcd state =
        (do lcd_send rw { lcd with mode := m } m LCD_CMD
            pure { lcd with mode := m }) ∧
      ∀ env : Env, ∃ env',
        lcd_autoscroll false lcd state env = .ok ({ lcd with mode := m }, env')) ∧
    lcd_cursor_blink rw { lcd with control := 0x0C } .LCD_BLINK_ON =
      (do lcd_send rw { lcd with control := 0x0D } 0x0D LCD_CMD
          pure { lcd with control := 0x0D }) := by
  refine ⟨?_, ?_, ?_, ?_, ?_, ?_⟩
  · intro state
    refine ⟨bor (band lcd.control (bnot lcd_state_t.LCD_ON.val)) state.val,
      merge_setsBit _ 2 (by norm_num) _ _ (by rfl) _ (by cases state <;> simp [lcd_state_t.val]),
      rfl, fun env => send_return_no_rw _ _ _ env⟩
  · intro state
    refine ⟨bor (band lcd.control (bnot lcd_cursor_t.LCD_CURSOR_ON.val)) state.val,
      merge_setsBit _ 1 (by norm_num) _ _ (by rfl) _ (by cases state <;> simp [lcd_cursor_t.val]),
      rfl, fun env => send_return_no_rw _ _ _ env⟩
  · intro state
    refine ⟨bor (band lcd.control (bnot lcd_blink_t.LCD_BLINK_ON.val)) state.val,
      merge_setsBit _ 0 (by norm_num) _ _ (by rfl) _ (by cases state <;> simp [lcd_blink_t.val]),
      rfl, fun env => send_return_no_rw _ _ _ env⟩
  · intro direction
    refine ⟨bor (band lcd.mode (bnot lcd_direction_t.LCD_LEFT_TO_RIGHT.val)) direction.val,
      merge_setsBit _ 1 (by norm_num) _ _ (by rfl) _
        (by cases direction <;> simp [lcd_direction_t.val]),
      rfl, fun env => send_return_no_rw _ _ _ env⟩
  · intro state
    refine ⟨bor (band lcd.mode (bnot lcd_autoscroll_t.LCD_AUTOSCROOL_ON.val)) state.val,
      merge_setsBit _ 0 (by norm_num) _ _ (by rfl) _
        (by cases state <;> simp [lcd_autoscroll_t.val]),
      rfl, fun env => send_return_no_rw _ _ _ env⟩
  · have h : bor (band 0x0C (bnot lcd_blink_t.LCD_BLINK_ON.val))
        lcd_blink_t.LCD_BLINK_ON.val = 0x0D := by decide
    simp only [lcd_cursor_blink, h]

/-! ## `lcd_send` on the bus -/

set_option maxRecDepth 100000 in
theorem nibbles_of_byte : ∀ v : Nat, v < 256 →
    ((v >>> 4 &&& 1) + 2 * (v >>> 5 &&& 1) + 4 * (v >>> 6 &&& 1) + 8 * (v >>> 7 &&& 1) = v >>> 4 ∧
      (v >>> 0 &&& 1) + 2 * (v >>> 1 &&& 1) + 4 * (v >>> 2 &&& 1) + 8 * (v >>> 3 &&& 1) = v &&& 15) ∧
      ((v >>> 4) <<< 4) ||| (v &&& 15) = v := by
  decide

/-- C5: for a byte `v` and a kind `LCD_CMD` or `LCD_DATA`, `lcd_send` first
waits for the busy flag when `LCD_RW_SUPPORT` is defined (which drives no data
line) and then makes exactly these calls: RS is set to the kind; on a 4-bit
interface two bus writes follow, the first putting bits 4..7 of `v` and the
second bits 0..3 of `v` on data lines 0..3, each closed by one enable pulse; on
an 8-bit interface one bus write follows, putting bits 0..7 of `v` on data
lines 0..7, closed by one enable pulse.  The levels of the first write are the
nibble `v >> 4`, those of the second the nibble `v & 15`, and
`(first << 4) | second = v`. -/
theorem lcd_send_bus (rw : Bool) (lcd : lcd_t) (v : Nat) (hv : v < 256) (kind : Int)
    (hk : kind = LCD_CMD ∨ kind = LCD_DATA) :
    (lcd.interface = 4 →
      lcd_send rw lcd v kind =
        (do busyWait rw lcd
            emits ([.set .RS kind.toNat,
              .set (.DATA 0) (v >>> 4 &&& 1), .set (.DATA 1) (v >>> 5 &&& 1),
              .set (.DATA 2) (v >>> 6 &&& 1), .set (.DATA 3) (v >>> 7 &&& 1),
              .set .EN 1, .delay 1, .set .EN 0] ++ settle rw ++
              [.set (.DATA 0) (v >>> 0 &&& 1), .set (.DATA 1) (v >>> 1 &&& 1),
              .set (.DATA 2) (v >>> 2 &&& 1), .set (.DATA 3) (v >>> 3 &&& 1),
              .set .EN 1, .delay 1, .set .EN 0] ++ settle rw))) ∧
    (lcd.interface = 8 →
      lcd_send rw lcd v kind =
        (do busyWait rw lcd
            emits ([.set .RS kind.toNat,
              .set (.DATA 0) (v >>> 0 &&& 1), .set (.DATA 1) (v >>> 1 &&& 1),
              .set (.DATA 2) (v >>> 2 &&& 1), .set (.DATA 3) (v >>> 3 &&& 1),
              .set (.DATA 4) (v >>> 4 &&& 1), .set (.DATA 5) (v >>> 5 &&& 1),
              .set (.DATA 6) (v >>> 6 &&& 1), .set (.DATA 7) (v >>> 7 &&& 1),
              .set .EN 1, .delay 1, .set .EN 0] ++ settle rw))) ∧
    ((v >>> 4 &&& 1) + 2 * (v >>> 5 &&& 1) + 4 * (v >>> 6 &&& 1) + 8 * (v >>> 7 &&& 1) = v >>> 4 ∧
      (v >>> 0 &&& 1) + 2 * (v >>> 1 &&& 1) + 4 * (v >>> 2 &&& 1) + 8 * (v >>> 3 &&& 1) = v &&& 15) ∧
    ((v >>> 4) <<< 4) ||| (v &&& 15) = v := by
  have hkind : uint8 kind = kind.toNat := by
    rcases hk with rfl | rfl <;> decide
  have hbyte : uint8 (v : Int) = v := uint8_small v hv
  have hsh : ∀ i : Nat, v >>> 4 >>> i = v >>> (4 + i) := fun i => (Nat.shiftRight_add v 4 i).symm
  refine ⟨?_, ?_, nibbles_of_byte v hv⟩
  · intro h4
    rw [lcd_send_eq]
    simp [sendEvents, writeEvents, h4, hkind, hbyte, List.range_succ, hsh]
  · intro h8
    rw [lcd_send_eq]
    simp [sendEvents, writeEvents, h8, hkind, hbyte, List.range_succ]

/-- Witness of C5 at the byte `0x41` sent as data on a 4-bit interface. -/
theorem lcd_send_bus_witness :
    ((0x41 : Nat) < 256 ∧ (LCD_DATA = LCD_CMD ∨ LCD_DATA = LCD_DATA)) ∧
    lcd_send false ⟨1, 1, 4, 12, 6⟩ (0x41 : Nat) LCD_DATA =
      emits [.set .RS 1,
        .set (.DATA 0) 0, .set (.DATA 1) 0, .set (.DATA 2) 1, .set (.DATA 3) 0,
        .set .EN 1, .delay 1, .set .EN 0, .delay 50,
        .set (.DATA 0) 1, .set (.DATA 1) 0, .set (.DATA 2) 0, .set (.DATA 3) 0,
        .set .EN 1, .delay 1, .set .EN 0, .delay 50] := by
  refine ⟨⟨by decide, Or.inr rfl⟩, ?_⟩
  have h := (lcd_send_bus false ⟨1, 1, 4, 12, 6⟩ 0x41 (by decide) LCD_DATA (Or.inr rfl)).1 rfl
  rw [h]
  simp [busyWait, settle, LCD_DATA]

/-! ## The bus activity depends on the interface width only -/

theorem lcd_busy_loop_congr (lcd lcd' : lcd_t) (h : lcd.interface = lcd'.interface) (d7 : Int) :
    ∀ fuel : Nat, lcd_busy_loop lcd d7 fuel = lcd_busy_loop lcd' d7 fuel := by
  intro fuel
  induction fuel with
  | zero => rfl
  | succ n ih => simp only [lcd_busy_loop, lcd_enable_eq, h, ih]

theorem lcd_busy_congr (lcd lcd' : lcd_t) (h : lcd.interface = lcd'.interface) :
    lcd_busy lcd = lcd_busy lcd' := by
  simp only [lcd_busy, h, lcd_busy_loop_congr lcd lcd' h]

theorem lcd_send_congr (rw : Bool) (lcd lcd' : lcd_t) (h : lcd.interface = lcd'.interface)
    (value cmd_data : Int) :
    lcd_send rw lcd value cmd_data = lcd_send rw lcd' value cmd_data := by
  simp only [lcd_send_eq, busyWait, sendEvents, h, lcd_busy_congr lcd lcd' h]

/-- The normal form of a send: the device record reduced to its width. -/
theorem lcd_send_width (rw : Bool) (lcd : lcd_t) (value cmd_data : Int) :
    lcd_send rw lcd value cmd_data =
      busyWait rw ⟨0, 0, lcd.interface, 0, 0⟩ >>= fun _ =>
        emits (sendEvents rw ⟨0, 0, lcd.interface, 0, 0⟩ value cmd_data) := by
  rw [lcd_send_congr rw lcd ⟨0, 0, lcd.interface, 0, 0⟩ rfl, lcd_send_eq]

theorem emits_map_run {α : Type} (b : List Event) (f : Unit → α) (env : Env) :
    (f <$> emits b) env = .ok (f (), ⟨env.trace ++ b, env.reads⟩) := rfl

theorem emits_append_map {α : Type} (a b : List Event) (f : Unit → α) :
    (emits a >>= fun _ => f <$> emits b) = f <$> emits (a ++ b) := by
  funext env
  simp [emits_bind_run, emits_map_run]

theorem lcd_create_claimed (rw : Bool) {N : Nat} (r : Registry N) (config : Int)
    (control_pins data_pins : Nat) (slot : Fin N)
    (hslot : (lcd_instantiate r).1 = some slot) (hc : control_pins ≠ 0) (hd : data_pins ≠ 0) :
    lcd_create rw r config control_pins data_pins =
      (do initBus rw (initDevice config control_pins data_pins) config
          pure (some slot, { (lcd_instantiate r).2 with
            g_lcd := Function.update (lcd_instantiate r).2.g_lcd slot
              (initDevice config control_pins data_pins) })) := by
  unfold lcd_create
  rcases hr : lcd_instantiate r with ⟨lcd, r1⟩
  simp only [hr] at hslot ⊢
  subst hslot
  simp only [hc, hd, or_self, if_false]
  have h12 : bor LCD_DISPLAY_CONTROL lcd_state_t.LCD_ON.val = 0x0C := by decide
  have h6 : bor LCD_ENTRY_MODE_SET lcd_direction_t.LCD_LEFT_TO_RIGHT.val = 0x06 := by decide
  by_cases h8 : band config LCD_8BIT ≠ 0 <;> cases rw <;>
  simp [initBus, initDevice, lcd_clear, sends, lcd_send_width, lcd_write_eq, GPIO_DIR, GPIO_SET,
    LCD_DELAY_us, emit_eq, emits_append, emits_append_bind, emits_append_map, forM_emits, flatMap_single, busyWait,
    h8, h12, h6, GPIO_OUTPUT, LCD_WRITE, LCD_CLEAR_DISPLAY, LCD_FUNCTION_SET, uint8]

/-! ## Device registry -/

theorem lcd_create_none (rw : Bool) {N : Nat} (r : Registry N) (config : Int)
    (control_pins data_pins : Nat)
    (h : (lcd_instantiate r).1 = none ∨ control_pins = 0 ∨ data_pins = 0) :
    lcd_create rw r config control_pins data_pins = pure (none, (lcd_instantiate r).2) := by
  unfold lcd_create
  rcases hr : lcd_instantiate r with ⟨lcd, r1⟩
  simp only [hr] at h ⊢
  cases lcd with
  | none => rfl
  | some slot =>
    have h' : control_pins = 0 ∨ data_pins = 0 := by simpa using h
    simp only [h', if_true]

theorem bind_pure_ok {α : Type} (m : M Unit) (x y : α) (env env1 : Env)
    (h : (m >>= fun _ => (pure x : M α)) env = .ok (y, env1)) :
    y = x ∧ m env = .ok ((), env1) := by
  have e : (m >>= fun _ => (pure x : M α)) env =
      (match m env with
        | .ok (_, s) => .ok (x, s)
        | .error e => .error e) := by
    show (m env >>= fun p => (pure x : M α) p.2) = _
    cases m env <;> rfl
  rw [e] at h
  cases hm : m env with
  | error e => rw [hm] at h; cases h
  | ok p =>
    rw [hm] at h
    obtain ⟨u, s⟩ := p
    simp only [Except.ok.injEq, Prod.mk.injEq] at h
    exact ⟨h.1.symm, by rw [h.2]⟩

theorem initBus_no_rw (lcd : lcd_t) (config : Int) :
    ∃ es : List Event, initBus false lcd config = emits es := by
  by_cases h : lcd.interface = 4
  · simp only [initBus, h, if_true, sends, lcd_send_eq, busyWait, Bool.false_eq_true, if_false,
      pure_bind, bind_pure, emits_append, emits_append_bind, bind_assoc]
    exact ⟨_, rfl⟩
  · simp only [initBus, h, if_false, sends, lcd_send_eq, busyWait, Bool.false_eq_true,
      pure_bind, bind_pure, emits_append, emits_append_bind, bind_assoc]
    exact ⟨_, rfl⟩

/-- What a call of `lcd_create` that returns has done to the registry. -/
theorem lcd_create_ok {N : Nat} (rw : Bool) (r r1 : Registry N) (config : Int)
    (control_pins data_pins : Nat) (env env1 : Env) (lcd : Option (Fin N))
    (h : lcd_create rw r config control_pins data_pins env = .ok ((lcd, r1), env1)) :
    (lcd = none ∧ r1 = (lcd_instantiate r).2) ∨
    (∃ slot, (lcd_instantiate r).1 = some slot ∧ control_pins ≠ 0 ∧ lcd = some slot ∧
      r1 = { (lcd_instantiate r).2 with
        g_lcd := Function.update (lcd_instantiate r).2.g_lcd slot
          (initDevice config control_pins data_pins) }) := by
  by_cases hn : (lcd_instantiate r).1 = none ∨ control_pins = 0 ∨ data_pins = 0
  · rw [lcd_create_none rw r config control_pins data_pins hn] at h
    left
    have h' : (.ok ((none, (lcd_instantiate r).2), env) : Except Fault _) = .ok ((lcd, r1), env1) := h
    simp only [Except.ok.injEq, Prod.mk.injEq] at h'
    exact ⟨h'.1.1.symm, h'.1.2.symm⟩
  · push_neg at hn
    obtain ⟨slot, hslot⟩ := Option.ne_none_iff_exists'.mp hn.1
    rw [lcd_create_claimed rw r config control_pins data_pins slot hslot hn.2.1 hn.2.2] at h
    have := (bind_pure_ok _ _ _ _ _ h).1
    right
    simp only [Prod.mk.injEq] at this
    exact ⟨slot, hslot, hn.2.1, this.1, this.2⟩

theorem instantiate_counter {N : Nat} (r : Registry N) (h : r.counter < N) :
    lcd_instantiate r = (some ⟨r.counter, h⟩, { r with counter := r.counter + 1 }) := by
  simp [lcd_instantiate, h]

theorem instantiate_scan {N : Nat} (r : Registry N) (h : ¬ r.counter < N) :
    lcd_instantiate r =
      ((List.finRange N).find? fun i => (r.g_lcd i).control_pins == 0, r) := by
  simp [lcd_instantiate, h]

theorem instantiate_g_lcd {N : Nat} (r : Registry N) : (lcd_instantiate r).2.g_lcd = r.g_lcd := by
  by_cases h : r.counter < N
  · rw [instantiate_counter r h]
  · rw [instantiate_scan r h]

theorem instantiate_some_free {N : Nat} (r : Registry N) (hinv : r.Inv) (slot : Fin N)
    (h : (lcd_instantiate r).1 = some slot) : r.free slot := by
  by_cases hc : r.counter < N
  · rw [instantiate_counter r hc] at h
    simp only [Option.some.injEq] at h
    subst h
    exact hinv.2 _ (le_refl _)
  · rw [instantiate_scan r hc] at h
    have := List.find?_some h
    simpa [Registry.free] using this

theorem instantiate_none_iff {N : Nat} (r : Registry N) (hinv : r.Inv) :
    (lcd_instantiate r).1 = none ↔ r.full := by
  by_cases hc : r.counter < N
  · rw [instantiate_counter r hc]
    simp only [reduceCtorEq, false_iff]
    intro hfull
    exact hfull ⟨r.counter, hc⟩ (hinv.2 _ (le_refl _))
  · rw [instantiate_scan r hc]
    simp [Registry.full, Registry.free, List.find?_eq_none]

theorem instantiate_full {N : Nat} (r : Registry N) (hinv : r.Inv) (hfull : r.full) :
    lcd_instantiate r = (none, r) := by
  have hc : ¬ r.counter < N := fun hc => hfull ⟨r.counter, hc⟩ (hinv.2 _ (le_refl _))
  have h := (instantiate_none_iff r hinv).mpr hfull
  rw [instantiate_scan r hc] at h ⊢
  simp only at h
  rw [h]

theorem inv_init (N : Nat) : (Registry.init N).Inv :=
  ⟨Nat.zero_le _, fun _ _ => rfl⟩

theorem inv_instantiate {N : Nat} (r : Registry N) (hinv : r.Inv) : (lcd_instantiate r).2.Inv := by
  by_cases hc : r.counter < N
  · rw [instantiate_counter r hc]
    exact ⟨hc, fun slot hs => hinv.2 slot (by simp only at hs; omega)⟩
  · rw [instantiate_scan r hc]
    exact hinv

theorem inv_claim {N : Nat} (r : Registry N) (hinv : r.Inv) (slot : Fin N) (dev : lcd_t)
    (h : (lcd_instantiate r).1 = some slot) :
    Registry.Inv { (lcd_instantiate r).2 with
      g_lcd := Function.update (lcd_instantiate r).2.g_lcd slot dev } := by
  by_cases hc : r.counter < N
  · rw [instantiate_counter r hc] at h ⊢
    simp only [Option.some.injEq] at h
    subst h
    refine ⟨hc, fun s hs => ?_⟩
    simp only at hs
    have hne : s ≠ ⟨r.counter, hc⟩ := by
      intro e; rw [e] at hs; simp at hs
    simp only [Registry.free, Function.update_noteq hne]
    exact hinv.2 s (by omega)
  · rw [instantiate_scan r hc]
    refine ⟨hinv.1, fun s hs => ?_⟩
    simp only at hs
    have := s.isLt
    omega

theorem inv_destroy {N : Nat} (r : Registry N) (hinv : r.Inv) (lcd : Option (Fin N)) :
    (lcd_destroy r lcd).Inv := by
  cases lcd with
  | none => exact hinv
  | some slot =>
    refine ⟨hinv.1, fun s hs => ?_⟩
    simp only [lcd_destroy, Registry.free]
    by_cases e : s = slot
    · subst e; simp
    · rw [Function.update_noteq e]
      exact hinv.2 s hs

theorem reachable_inv {N : Nat} (rw : Bool) (r : Registry N) (h : Reachable rw r) : r.Inv := by
  induction h with
  | init => exact inv_init N
  | create _ hok ih =>
    rcases lcd_create_ok rw _ _ _ _ _ _ _ _ hok with ⟨_, e⟩ | ⟨slot, hslot, _, _, e⟩
    · rw [e]; exact inv_instantiate _ ih
    · rw [e]; exact inv_claim _ ih slot _ hslot
  | destroy lcd _ ih => exact inv_destroy _ ih lcd

theorem instantiate_after_destroy {N : Nat} (r : Registry N) (hinv : r.Inv) (hfull : r.full)
    (slot : Fin N) :
    lcd_instantiate (lcd_destroy r (some slot)) = (some slot, lcd_destroy r (some slot)) := by
  have hc : ¬ r.counter < N := fun hc => hfull ⟨r.counter, hc⟩ (hinv.2 _ (le_refl _))
  have hc' : ¬ (lcd_destroy r (some slot)).counter < N := hc
  rw [instantiate_scan _ hc']
  congr 1
  cases hf : (List.finRange N).find?
      (fun i => ((lcd_destroy r (some slot)).g_lcd i).control_pins == 0) with
  | none =>
    have := List.find?_eq_none.mp hf slot (List.mem_finRange slot)
    simp [lcd_destroy] at this
  | some y =>
    have hy := List.find?_some hf
    by_cases e : y = slot
    · rw [e]
    · exfalso
      simp only [lcd_destroy, Function.update_noteq e, beq_iff_eq] at hy
      exact hfull y hy

theorem create_claimed_no_rw {N : Nat} (r : Registry N) (config : Int)
    (control_pins data_pins : Nat) (slot : Fin N)
    (hslot : (lcd_instantiate r).1 = some slot) (hc : control_pins ≠ 0) (hd : data_pins ≠ 0)
    (env : Env) :
    ∃ env1, lcd_create false r config control_pins data_pins env =
      .ok ((some slot, { (lcd_instantiate r).2 with
        g_lcd := Function.update (lcd_instantiate r).2.g_lcd slot
          (initDevice config control_pins data_pins) }), env1) := by
  rw [lcd_create_claimed false r config control_pins data_pins slot hslot hc hd]
  obtain ⟨es, h⟩ := initBus_no_rw (initDevice config control_pins data_pins) config
  rw [h]
  exact ⟨_, rfl⟩

theorem fullRegistry_reachable : Reachable false fullRegistry := by
  obtain ⟨env1, h⟩ := create_claimed_no_rw (Registry.init 1) 0 1 1 0 rfl (by decide) (by decide)
    ⟨[], []⟩
  exact Reachable.create Reachable.init h

theorem fullRegistry_full : fullRegistry.full := by
  intro slot
  have : slot = 0 := Subsingleton.elim _ _
  subst this
  simp [Registry.free, fullRegistry, initDevice]

/-- C7: in a registry state reached by calls of `lcd_create` and `lcd_destroy`
in which no slot is free, `lcd_create` returns the null handle whatever its
arguments, non-null pin lists included, and leaves the whole registry (every
field of every slot, and the counter) and the trace as they were. -/
theorem lcd_create_pool_full {N : Nat} (rw : Bool) (r : Registry N) (config : Int)
    (control_pins data_pins : Nat) (env : Env) (hr : Reachable rw r) (hfull : r.full) :
    lcd_create rw r config control_pins data_pins env = .ok ((none, r), env) := by
  have hinv := reachable_inv rw r hr
  have hi := instantiate_full r hinv hfull
  rw [lcd_create_none rw r config control_pins data_pins (by rw [hi]; exact Or.inl rfl), hi]
  rfl

/-- Witness of C7: the pool of one slot, full after one create. -/
theorem lcd_create_pool_full_witness :
    (Reachable false fullRegistry ∧ fullRegistry.full) ∧
    lcd_create false fullRegistry (LCD_4BIT) 1 1 ⟨[], []⟩ = .ok ((none, fullRegistry), ⟨[], []⟩) :=
  ⟨⟨fullRegistry_reachable, fullRegistry_full⟩,
    lcd_create_pool_full false fullRegistry LCD_4BIT 1 1 ⟨[], []⟩ fullRegistry_reachable
      fullRegistry_full⟩

/-- C8: in a reachable registry state in which no slot is free, after
`lcd_destroy` of a slot, `lcd_create` with non-null pin lists runs the
initialisation and returns the handle of that very slot, which then holds the
newly initialised device; without `LCD_RW_SUPPORT` the call always returns. -/
theorem lcd_create_after_destroy {N : Nat} (rw : Bool) (r : Registry N) (slot : Fin N)
    (config : Int) (control_pins data_pins : Nat) (hr : Reachable rw r) (hfull : r.full)
    (hc : control_pins ≠ 0) (hd : data_pins ≠ 0) :
    lcd_create rw (lcd_destroy r (some slot)) config control_pins data_pins =
        (do initBus rw (initDevice config control_pins data_pins) config
            pure (some slot, { lcd_destroy r (some slot) with
              g_lcd := Function.update (lcd_destroy r (some slot)).g_lcd slot
                (initDevice config control_pins data_pins) })) ∧
      (rw = false → ∀ env : Env, ∃ env1,
        lcd_create rw (lcd_destroy r (some slot)) config control_pins data_pins env =
          .ok ((some slot, { lcd_destroy r (some slot) with
            g_lcd := Function.update (lcd_destroy r (some slot)).g_lcd slot
              (initDevice config control_pins data_pins) }), env1)) := by
  have hinv := reachable_inv rw r hr
  have hi := instantiate_after_destroy r hinv hfull slot
  constructor
  · have h := lcd_create_claimed rw (lcd_destroy r (some slot)) config control_pins data_pins slot
      (by rw [hi]) hc hd
    rw [hi] at h
    exact h
  · intro hrw env
    subst hrw
    have h := create_claimed_no_rw (lcd_destroy r (some slot)) config control_pins data_pins slot
      (by rw [hi]) hc hd env
    rw [hi] at h
    exact h

/-- Witness of C8 on the full pool of one slot. -/
theorem lcd_create_after_destroy_witness :
    (Reachable false fullRegistry ∧ fullRegistry.full ∧ (1 : Nat) ≠ 0 ∧ (1 : Nat) ≠ 0) ∧
    ∀ env : Env, ∃ env1,
      lcd_create false (lcd_destroy fullRegistry (some 0)) LCD_8BIT 1 1 env =
        .ok ((some 0, { lcd_destroy fullRegistry (some 0) with
          g_lcd := Function.update (lcd_destroy fullRegistry (some 0)).g_lcd 0
            (initDevice LCD_8BIT 1 1) }), env1) :=
  ⟨⟨fullRegistry_reachable, fullRegistry_full, by decide, by decide⟩,
    (lcd_create_after_destroy false fullRegistry 0 LCD_8BIT 1 1 fullRegistry_reachable
      fullRegistry_full (by decide) (by decide)).2 rfl⟩

theorem full_iff_freeCount {N : Nat} (r : Registry N) : r.full ↔ r.freeCount = 0 := by
  simp [Registry.full, Registry.free, Registry.freeCount, Finset.filter_eq_empty_iff]

theorem freeCount_instantiate {N : Nat} (r : Registry N) :
    (lcd_instantiate r).2.freeCount = r.freeCount := by
  simp [Registry.freeCount, instantiate_g_lcd]

theorem freeCount_claim {N : Nat} (r : Registry N) (slot : Fin N) (dev : lcd_t)
    (hfree : r.free slot) (hdev : dev.control_pins ≠ 0) :
    Registry.freeCount { (lcd_instantiate r).2 with
      g_lcd := Function.update (lcd_instantiate r).2.g_lcd slot dev } + 1 = r.freeCount := by
  simp only [Registry.freeCount, instantiate_g_lcd]
  have e : (Finset.univ.filter fun s : Fin N =>
        (Function.update r.g_lcd slot dev s).control_pins = 0) =
      (Finset.univ.filter fun s : Fin N => (r.g_lcd s).control_pins = 0).erase slot := by
    ext s
    by_cases hs : s = slot
    · subst hs; simp [hdev]
    · simp [Function.update_noteq hs, hs]
  rw [e, Finset.card_erase_add_one]
  simpa [Registry.free] using hfree

theorem createCount_claimed (rw : Bool) {N : Nat} (r : Registry N) (c : Int × Nat × Nat)
    (rest : List (Int × Nat × Nat)) (slot : Fin N)
    (hslot : (lcd_instantiate r).1 = some slot) (hc : c.2.1 ≠ 0) (hd : c.2.2 ≠ 0) :
    createCount rw (c :: rest) r =
      (do initBus rw (initDevice c.1 c.2.1 c.2.2) c.1
          let k ← createCount rw rest { (lcd_instantiate r).2 with
            g_lcd := Function.update (lcd_instantiate r).2.g_lcd slot
              (initDevice c.1 c.2.1 c.2.2) }
          pure (k + 1)) := by
  rw [createCount, lcd_create_claimed rw r c.1 c.2.1 c.2.2 slot hslot hc hd]
  simp

theorem createCount_full (rw : Bool) {N : Nat} (r : Registry N) (c : Int × Nat × Nat)
    (rest : List (Int × Nat × Nat)) (hinv : r.Inv) (hfull : r.full) :
    createCount rw (c :: rest) r = createCount rw rest r := by
  have hi := instantiate_full r hinv hfull
  rw [createCount, lcd_create_none rw r c.1 c.2.1 c.2.2 (by rw [hi]; exact Or.inl rfl), hi]
  simp

/-- Consecutive creates with non-null pin lists behave alike on two registries
that satisfy the invariant and have the same number of free slots. -/
theorem createCount_congr (rw : Bool) {N : Nat} (calls : List (Int × Nat × Nat))
    (hcalls : ∀ c ∈ calls, c.2.1 ≠ 0 ∧ c.2.2 ≠ 0) :
    ∀ ra rb : Registry N, ra.Inv → rb.Inv → ra.freeCount = rb.freeCount →
      createCount rw calls ra = createCount rw calls rb := by
  induction calls with
  | nil => intro _ _ _ _ _; rfl
  | cons c rest ih =>
    intro ra rb ha hb hcount
    have hc := hcalls c (by simp)
    have hrest : ∀ d ∈ rest, d.2.1 ≠ 0 ∧ d.2.2 ≠ 0 := fun d hd => hcalls d (by simp [hd])
    by_cases hfull : ra.full
    · have hfullb : rb.full := by
        rw [full_iff_freeCount] at hfull ⊢; omega
      rw [createCount_full rw ra c rest ha hfull, createCount_full rw rb c rest hb hfullb]
      exact ih hrest ra rb ha hb hcount
    · have hfullb : ¬ rb.full := by
        rw [full_iff_freeCount] at hfull ⊢; omega
      obtain ⟨sa, hsa⟩ := Option.ne_none_iff_exists'.mp
        (fun h => hfull ((instantiate_none_iff ra ha).mp h))
      obtain ⟨sb, hsb⟩ := Option.ne_none_iff_exists'.mp
        (fun h => hfullb ((instantiate_none_iff rb hb).mp h))
      rw [createCount_claimed rw ra c rest sa hsa hc.1 hc.2,
        createCount_claimed rw rb c rest sb hsb hc.1 hc.2]
      have hdev : (initDevice c.1 c.2.1 c.2.2).control_pins ≠ 0 := hc.1
      have ea := freeCount_claim ra sa _ (instantiate_some_free ra ha sa hsa) hdev
      have eb := freeCount_claim rb sb _ (instantiate_some_free rb hb sb hsb) hdev
      have e := ih hrest _ _ (inv_claim ra ha sa (initDevice c.1 c.2.1 c.2.2) hsa)
        (inv_claim rb hb sb (initDevice c.1 c.2.1 c.2.2) hsb) (by omega)
      rw [e]

/-- C9: in a reachable registry state, `lcd_create` with a null control-pin
list or a null data-pin list returns the null handle, records no call at all,
and leaves every field of every slot as it was, so every free slot stays free;
and every later sequence of `lcd_create` calls with non-null pin lists runs
exactly as if the failed call had not been made: the same number of them
return a non-null handle, with the same calls recorded. -/
theorem lcd_create_null_pins {N : Nat} (rw : Bool) (r : Registry N) (config : Int)
    (control_pins data_pins : Nat) (env : Env) (hr : Reachable rw r)
    (hnull : control_pins = 0 ∨ data_pins = 0) :
    ∃ r1 : Registry N,
      lcd_create rw r config control_pins data_pins env = .ok ((none, r1), env) ∧
      r1.g_lcd = r.g_lcd ∧
      (∀ slot : Fin N, r.free slot → r1.free slot) ∧
      ∀ calls : List (Int × Nat × Nat), (∀ c ∈ calls, c.2.1 ≠ 0 ∧ c.2.2 ≠ 0) →
        createCount rw calls r1 = createCount rw calls r := by
  have hinv := reachable_inv rw r hr
  refine ⟨(lcd_instantiate r).2, ?_, instantiate_g_lcd r, ?_, ?_⟩
  · rw [lcd_create_none rw r config control_pins data_pins (Or.inr hnull)]
    rfl
  · intro slot h
    simpa [Registry.free, instantiate_g_lcd] using h
  · intro calls hcalls
    exact createCount_congr rw calls hcalls _ _ (inv_instantiate r hinv) hinv
      (freeCount_instantiate r)

/-- Witness of C9 on the empty pool of one slot, with a null data-pin list. -/
theorem lcd_create_null_pins_witness :
    (Reachable false (Registry.init 1) ∧ ((1 : Nat) = 0 ∨ (0 : Nat) = 0)) ∧
    ∃ r1 : Registry 1,
      lcd_create false (Registry.init 1) LCD_4BIT 1 0 ⟨[], []⟩ = .ok ((none, r1), ⟨[], []⟩) ∧
      r1.g_lcd = (Registry.init 1).g_lcd ∧
      (∀ slot : Fin 1, (Registry.init 1).free slot → r1.free slot) ∧
      ∀ calls : List (Int × Nat × Nat), (∀ c ∈ calls, c.2.1 ≠ 0 ∧ c.2.2 ≠ 0) →
        createCount false calls r1 = createCount false calls (Registry.init 1) :=
  ⟨⟨Reachable.init, Or.inr rfl⟩,
    lcd_create_null_pins false (Registry.init 1) LCD_4BIT 1 0 ⟨[], []⟩ Reachable.init
      (Or.inr rfl)⟩

/-! ## `lcd_busy` -/

theorem GPIO_GET_bind_run {α : Type} (line : Line) (k : Int → M α) (tr : List Event) (b : Int)
    (rs : List Int) :
    (GPIO_GET line >>= k) ⟨tr, b :: rs⟩ = k b ⟨tr ++ [.get line b], rs⟩ := rfl

theorem GPIO_GET_bind_blocked {α : Type} (line : Line) (k : Int → M α) (tr : List Event) :
    (GPIO_GET line >>= k) ⟨tr, []⟩ = .error Fault.blocked := rfl

/-- The calls of one iteration of the loop of `lcd_busy` that samples `b`. -/
theorem lcd_busy_loop_step (lcd : lcd_t) (d7 : Int) (fuel : Nat) (tr : List Event) (b : Int)
    (rs : List Int) :
    lcd_busy_loop lcd d7 (fuel + 1) ⟨tr, b :: rs⟩ =
      (if b ≠ 0 then lcd_busy_loop lcd d7 fuel else pure ())
        ⟨tr ++ pollEvents lcd d7 b, rs⟩ := by
  by_cases h4 : lcd.interface = 4 <;>
  simp only [lcd_busy_loop, GPIO_SET, LCD_DELAY_us, emit_eq, lcd_enable_eq, emits_bind_run,
    GPIO_GET_bind_run, bind_assoc, h4, if_true, if_false, pure_bind, pollEvents,
    List.append_assoc, List.singleton_append, List.cons_append, List.nil_append, List.append_nil]

theorem lcd_busy_loop_run (lcd : lcd_t) (d7 : Int) (rest : List Int) :
    ∀ (busy : List Int) (fuel : Nat) (tr : List Event), (∀ b ∈ busy, b ≠ 0) →
      busy.length < fuel →
      lcd_busy_loop lcd d7 fuel ⟨tr, busy ++ 0 :: rest⟩ =
        .ok ((), ⟨tr ++ (busy ++ [0]).flatMap (pollEvents lcd d7), rest⟩) := by
  intro busy
  induction busy with
  | nil =>
    intro fuel tr _ hf
    obtain ⟨n, rfl⟩ : ∃ n, fuel = n + 1 := ⟨fuel - 1, by simp at hf; omega⟩
    rw [List.nil_append, lcd_busy_loop_step]
    simp
    rfl
  | cons b busy ih =>
    intro fuel tr hb hf
    obtain ⟨n, rfl⟩ : ∃ n, fuel = n + 1 := ⟨fuel - 1, by simp at hf; omega⟩
    have hb0 : b ≠ 0 := hb b (by simp)
    rw [List.cons_append, lcd_busy_loop_step]
    simp only [hb0, ne_eq, not_false_eq_true, if_true]
    rw [ih n _ (fun c hc => hb c (by simp [hc])) (by simp at hf; omega)]
    simp [List.flatMap_cons]

theorem lcd_busy_loop_blocked (lcd : lcd_t) (d7 : Int) :
    ∀ (reads : List Int) (fuel : Nat) (tr : List Event), (∀ b ∈ reads, b ≠ 0) →
      lcd_busy_loop lcd d7 fuel ⟨tr, reads⟩ = .error Fault.blocked := by
  intro reads
  induction reads with
  | nil =>
    intro fuel tr _
    cases fuel with
    | zero => rfl
    | succ n =>
      simp only [lcd_busy_loop, GPIO_SET, LCD_DELAY_us, emit_eq, emits_bind_run,
        GPIO_GET_bind_blocked, bind_assoc]
  | cons b reads ih =>
    intro fuel tr hb
    cases fuel with
    | zero => rfl
    | succ n =>
      have hb0 : b ≠ 0 := hb b (by simp)
      rw [lcd_busy_loop_step]
      simp only [hb0, ne_eq, not_false_eq_true, if_true]
      exact ih n _ (fun c hc => hb c (by simp [hc]))

theorem get_bind_run {α : Type} (k : Env → M α) (env : Env) :
    ((get : M Env) >>= k) env = k env env := rfl

theorem bind_run_ok {α β : Type} (m : M α) (k : α → M β) (env env1 : Env) (a : α)
    (h : m env = .ok (a, env1)) : (m >>= k) env = k a env1 := by
  show (m env >>= fun p => k p.1 p.2) = _
  rw [h]
  rfl

theorem bind_run_error {α β : Type} (m : M α) (k : α → M β) (env : Env) (f : Fault)
    (h : m env = .error f) : (m >>= k) env = .error f := by
  show (m env >>= fun p => k p.1 p.2) = _
  rw [h]
  rfl

/-- A run of `lcd_busy` over reads whose first zero follows the non-zero reads
`busy`. -/
theorem lcd_busy_run (lcd : lcd_t) (tr : List Event) (busy rest : List Int)
    (hbusy : ∀ b ∈ busy, b ≠ 0) :
    lcd_busy lcd ⟨tr, busy ++ 0 :: rest⟩ =
      .ok ((), ⟨tr ++ ([.set .RS 0, .set .RW 1, .dir (.DATA (lcd.interface - 1)) 0] ++
        (busy ++ [0]).flatMap (pollEvents lcd (lcd.interface - 1)) ++
        [.dir (.DATA (lcd.interface - 1)) 1, .set .RW 0]), rest⟩) := by
  simp only [lcd_busy, GPIO_SET, GPIO_DIR, emit_eq, emits_bind_run, bind_assoc, get_bind_run]
  rw [bind_run_ok _ _ _ _ _ (lcd_busy_loop_run lcd (lcd.interface - 1) rest busy _ _ hbusy
    (by simp; omega))]
  simp [emits_bind_run, emits_run, LCD_CMD, LCD_READ, LCD_WRITE, GPIO_INPUT, GPIO_OUTPUT]

theorem pollEvents_counts (lcd : lcd_t) (d7 : Int) (l : List Int) :
    (l.flatMap (pollEvents lcd d7)).countP
        (fun e => match e with
          | .get _ _ => true
          | _ => false) = l.length ∧
      (l.flatMap (pollEvents lcd d7)).count (.set .EN 1) =
        (if lcd.interface = 4 then 2 else 1) * l.length := by
  induction l with
  | nil => simp
  | cons b l ih =>
    by_cases h4 : lcd.interface = 4
    · simp only [h4, if_true] at ih ⊢
      simp [List.flatMap_cons, pollEvents, h4, ih.1, ih.2, List.countP_cons, List.count_cons]
      omega
    · simp only [h4, if_false] at ih ⊢
      simp [List.flatMap_cons, pollEvents, h4, ih.1, ih.2, List.countP_cons, List.count_cons]

/-- C19: with reads of the busy flag whose first zero comes after the `k`
non-zero reads `busy`, `lcd_busy` returns, having consumed exactly these
`k + 1` reads and recorded exactly these calls: RS set to `LCD_CMD`, RW set to
`LCD_READ`, the most significant data line (index `interface - 1`) made an
input; then, for each of the `k + 1` reads in turn, EN high, 1 us, the sample of
that line, EN low, followed on a 4-bit interface by one more enable pulse; at
last that line made an output again and RW set to `LCD_WRITE`.  So the line is
sampled `k + 1` times, with `2 (k + 1)` enable pulses on a 4-bit interface and
`k + 1` otherwise. -/
theorem lcd_busy_polls (lcd : lcd_t) (tr : List Event) (busy rest : List Int)
    (hbusy : ∀ b ∈ busy, b ≠ 0) :
    ∃ polls : List Event,
      polls = (busy ++ [0]).flatMap (fun b =>
        [Event.set .EN 1, .delay 1, .get (.DATA (lcd.interface - 1)) b, .set .EN 0] ++
          (if lcd.interface = 4 then [Event.set .EN 1, .delay 1, .set .EN 0] else [])) ∧
      lcd_busy lcd ⟨tr, busy ++ 0 :: rest⟩ =
        .ok ((), ⟨tr ++ ([.set .RS 0, .set .RW 1, .dir (.DATA (lcd.interface - 1)) 0] ++ polls ++
          [.dir (.DATA (lcd.interface - 1)) 1, .set .RW 0]), rest⟩) ∧
      polls.countP (fun e => match e with
        | .get _ _ => true
        | _ => false) = busy.length + 1 ∧
      polls.count (.set .EN 1) = (if lcd.interface = 4 then 2 else 1) * (busy.length + 1) := by
  refine ⟨(busy ++ [0]).flatMap (pollEvents lcd (lcd.interface - 1)), rfl,
    lcd_busy_run lcd tr busy rest hbusy, ?_, ?_⟩
  · rw [(pollEvents_counts lcd _ _).1]; simp
  · rw [(pollEvents_counts lcd _ _).2]; simp

/-- Witness of C19 on a 4-bit interface with the reads 1, 1, 0: three samples,
six enable pulses. -/
theorem lcd_busy_polls_witness :
    (∀ b ∈ [(1 : Int), 1], b ≠ 0) ∧
    lcd_busy ⟨1, 1, 4, 12, 6⟩ ⟨[], [1, 1, 0]⟩ =
      .ok ((), ⟨[.set .RS 0, .set .RW 1, .dir (.DATA 3) 0,
        .set .EN 1, .delay 1, .get (.DATA 3) 1, .set .EN 0, .set .EN 1, .delay 1, .set .EN 0,
        .set .EN 1, .delay 1, .get (.DATA 3) 1, .set .EN 0, .set .EN 1, .delay 1, .set .EN 0,
        .set .EN 1, .delay 1, .get (.DATA 3) 0, .set .EN 0, .set .EN 1, .delay 1, .set .EN 0,
        .dir (.DATA 3) 1, .set .RW 0], []⟩) := by
  refine ⟨by decide, ?_⟩
  obtain ⟨polls, hp, hrun, _, _⟩ := lcd_busy_polls ⟨1, 1, 4, 12, 6⟩ [] [1, 1] [] (by decide)
  rw [show ([1, 1, 0] : List Int) = [1, 1] ++ 0 :: [] from rfl, hrun, hp]
  simp

/-! ## `lcd_clear`, `lcd_home`, `lcd_write` -/

theorem bind_ok_inv {α β : Type} (m : M α) (k : α → M β) (env env1 : Env) (b : β)
    (h : (m >>= k) env = .ok (b, env1)) :
    ∃ a mid, m env = .ok (a, mid) ∧ k a mid = .ok (b, env1) := by
  cases hm : m env with
  | error f => rw [bind_run_error m k env f hm] at h; cases h
  | ok p =>
    obtain ⟨a, mid⟩ := p
    rw [bind_run_ok m k env mid a hm] at h
    exact ⟨a, mid, rfl, h⟩

/-- A send followed by a delay: what a run that returns has recorded. -/
theorem send_delay_ok (rw : Bool) (lcd x y : lcd_t) (value cmd_data : Int) (us : Nat)
    (env env1 : Env)
    (h : (do lcd_send rw lcd value cmd_data; LCD_DELAY_us us; pure x : M lcd_t) env =
      .ok (y, env1)) :
    y = x ∧ ∃ mid : Env, busyWait rw lcd env = .ok ((), mid) ∧
      env1 = ⟨mid.trace ++ sendEvents rw lcd value cmd_data ++ [.delay us], mid.reads⟩ := by
  rw [lcd_send_eq] at h
  simp only [bind_assoc, LCD_DELAY_us, emit_eq] at h
  obtain ⟨_, mid, hmid, hk⟩ := bind_ok_inv _ _ _ _ _ h
  simp only [emits_bind_run] at hk
  have hk' : (.ok (x, ⟨mid.trace ++ sendEvents rw lcd value cmd_data ++ [.delay us], mid.reads⟩) :
      Except Fault (lcd_t × Env)) = .ok (y, env1) := hk
  simp only [Except.ok.injEq, Prod.mk.injEq] at hk'
  exact ⟨hk'.1.symm, mid, hmid, hk'.2.symm⟩

/-- C16: in both builds `lcd_clear` is the sending of the one byte `0x01` and
`lcd_home` of the one byte `0x02`, with kind `LCD_CMD`, followed by a delay of
2000 us, and both return the device record, with its control and mode
registers, as it was.  In every run that returns, the calls recorded after the
wait for the busy flag are those of the send and then, last of all, the delay
of 2000 us.  Without `LCD_RW_SUPPORT` the calls always return. -/
theorem lcd_clear_home_settle (rw : Bool) (lcd : lcd_t) :
    lcd_clear rw lcd =
        (do sends rw lcd [(0x01, LCD_CMD)]
            emits [.delay 2000]
            pure lcd) ∧
      lcd_home rw lcd =
        (do sends rw lcd [(0x02, LCD_CMD)]
            emits [.delay 2000]
            pure lcd) ∧
      (∀ (env env1 : Env) (lcd1 : lcd_t), lcd_clear rw lcd env = .ok (lcd1, env1) →
        lcd1 = lcd ∧ ∃ mid : Env, busyWait rw lcd env = .ok ((), mid) ∧
          env1 = ⟨mid.trace ++ sendEvents rw lcd 0x01 LCD_CMD ++ [.delay 2000], mid.reads⟩) ∧
      (∀ (env env1 : Env) (lcd1 : lcd_t), lcd_home rw lcd env = .ok (lcd1, env1) →
        lcd1 = lcd ∧ ∃ mid : Env, busyWait rw lcd env = .ok ((), mid) ∧
          env1 = ⟨mid.trace ++ sendEvents rw lcd 0x02 LCD_CMD ++ [.delay 2000], mid.reads⟩) ∧
      (∀ env : Env, lcd_clear false lcd env =
        .ok (lcd, ⟨env.trace ++ sendEvents false lcd 0x01 LCD_CMD ++ [.delay 2000], env.reads⟩)) ∧
      (∀ env : Env, lcd_home false lcd env =
        .ok (lcd, ⟨env.trace ++ sendEvents false lcd 0x02 LCD_CMD ++ [.delay 2000], env.reads⟩)) := by
  refine ⟨?_, ?_, ?_, ?_, ?_, ?_⟩
  · simp [lcd_clear, sends, LCD_DELAY_us, emit_eq, LCD_CLEAR_DISPLAY]
  · simp [lcd_home, sends, LCD_DELAY_us, emit_eq, LCD_RETURN_HOME]
  · intro env env1 lcd1 h
    exact send_delay_ok rw lcd lcd lcd1 _ _ _ env env1 h
  · intro env env1 lcd1 h
    exact send_delay_ok rw lcd lcd lcd1 _ _ _ env env1 h
  · intro env
    simp only [lcd_clear, lcd_send_eq, busyWait, LCD_DELAY_us, emit_eq, LCD_CLEAR_DISPLAY]
    simp [emits_bind_run, emits_map_run]
  · intro env
    simp only [lcd_home, lcd_send_eq, busyWait, LCD_DELAY_us, emit_eq, LCD_RETURN_HOME]
    simp [emits_bind_run, emits_map_run]

/-- Witness of C16: a run of `lcd_clear` with `LCD_RW_SUPPORT` on an 8-bit
interface, the busy flag read once as clear. -/
theorem lcd_clear_home_settle_witness :
    ∃ env1 : Env, lcd_clear true ⟨1, 1, 8, 12, 6⟩ ⟨[], [0]⟩ = .ok (⟨1, 1, 8, 12, 6⟩, env1) ∧
      ∃ mid : Env, busyWait true ⟨1, 1, 8, 12, 6⟩ ⟨[], [0]⟩ = .ok ((), mid) ∧
        env1 = ⟨mid.trace ++ sendEvents true ⟨1, 1, 8, 12, 6⟩ 0x01 LCD_CMD ++ [.delay 2000],
          mid.reads⟩ := by
  have hrun : ∃ env1 : Env,
      lcd_clear true ⟨1, 1, 8, 12, 6⟩ ⟨[], [0]⟩ = .ok (⟨1, 1, 8, 12, 6⟩, env1) := ⟨_, rfl⟩
  obtain ⟨env1, h⟩ := hrun
  exact ⟨env1, h, ((lcd_clear_home_settle true ⟨1, 1, 8, 12, 6⟩).2.2.1 _ _ _ h).2⟩

theorem bit_of_low (a b i : Nat) (w : Nat) (hi : i < w) (h : a % 2 ^ w = b % 2 ^ w) :
    a >>> i &&& 1 = b >>> i &&& 1 := by
  have ha := Nat.testBit_mod_two_pow a w i
  have hb := Nat.testBit_mod_two_pow b w i
  simp only [hi, decide_True, Bool.true_and] at ha hb
  have e : a.testBit i = b.testBit i := by rw [← ha, ← hb, h]
  simp only [Nat.testBit, Nat.one_and_eq_mod_two, Nat.and_one_is_mod] at e ⊢
  have h1 : a >>> i % 2 < 2 := Nat.mod_lt _ (by norm_num)
  have h2 : b >>> i % 2 < 2 := Nat.mod_lt _ (by norm_num)
  by_cases ca : a >>> i % 2 = 0 <;> by_cases cb : b >>> i % 2 = 0 <;> simp_all

theorem writeEvents_low (rw : Bool) (w a b : Nat) (h : a % 2 ^ w = b % 2 ^ w) :
    writeEvents rw w a = writeEvents rw w b := by
  unfold writeEvents
  congr 2
  apply List.map_congr_left
  intro i hi
  rw [bit_of_low a b i w (List.mem_range.mp hi) h]

/-- C17: for a byte `v`, `lcd_write` on a 4-bit interface sets data lines 0, 1,
2, 3, in this order, to bits 0..3 of `v`, and on an 8-bit interface data lines
0..7 to bits 0..7 of `v`; no other data line is touched; then comes exactly one
enable pulse (EN high, 1 us, EN low), followed by a delay of 50 us exactly when
`LCD_RW_SUPPORT` is not defined.  An argument with the same low `w` bits makes
the same calls, so the bits of `v` from position `w` on reach no pin. -/
theorem lcd_write_lines (rw : Bool) (lcd : lcd_t) (v : Nat) (hv : v < 256) :
    (lcd.interface = 4 →
      lcd_write rw lcd v =
          emits ([.set (.DATA 0) (v >>> 0 &&& 1), .set (.DATA 1) (v >>> 1 &&& 1),
            .set (.DATA 2) (v >>> 2 &&& 1), .set (.DATA 3) (v >>> 3 &&& 1),
            .set .EN 1, .delay 1, .set .EN 0] ++ (if rw then [] else [.delay 50])) ∧
        ∀ x : Int, x % 16 = (v : Int) % 16 → lcd_write rw lcd x = lcd_write rw lcd v) ∧
    (lcd.interface = 8 →
      lcd_write rw lcd v =
          emits ([.set (.DATA 0) (v >>> 0 &&& 1), .set (.DATA 1) (v >>> 1 &&& 1),
            .set (.DATA 2) (v >>> 2 &&& 1), .set (.DATA 3) (v >>> 3 &&& 1),
            .set (.DATA 4) (v >>> 4 &&& 1), .set (.DATA 5) (v >>> 5 &&& 1),
            .set (.DATA 6) (v >>> 6 &&& 1), .set (.DATA 7) (v >>> 7 &&& 1),
            .set .EN 1, .delay 1, .set .EN 0] ++ (if rw then [] else [.delay 50])) ∧
        ∀ x : Int, x % 256 = (v : Int) % 256 → lcd_write rw lcd x = lcd_write rw lcd v) := by
  have hbyte : uint8 (v : Int) = v := uint8_small v hv
  constructor
  · intro h4
    constructor
    · rw [lcd_write_eq, h4, hbyte]
      simp [writeEvents, settle, List.range_succ]
    · intro x hx
      rw [lcd_write_eq, lcd_write_eq, h4]
      have e : uint8 x % 2 ^ 4 = uint8 (v : Int) % 2 ^ 4 := by unfold uint8; omega
      exact congrArg emits (writeEvents_low rw 4 _ _ e)
  · intro h8
    constructor
    · rw [lcd_write_eq, h8, hbyte]
      simp [writeEvents, settle, List.range_succ]
    · intro x hx
      rw [lcd_write_eq, lcd_write_eq, h8]
      have e : uint8 x % 2 ^ 8 = uint8 (v : Int) % 2 ^ 8 := by unfold uint8; omega
      exact congrArg emits (writeEvents_low rw 8 _ _ e)

/-- Witness of C17: the nibble `0x3` written on a 4-bit interface; `0xF3` makes
the same calls. -/
theorem lcd_write_lines_witness :
    ((0x03 : Nat) < 256 ∧ (⟨1, 1, 4, 12, 6⟩ : lcd_t).interface = 4) ∧
    lcd_write false ⟨1, 1, 4, 12, 6⟩ (0x03 : Nat) =
      emits [.set (.DATA 0) 1, .set (.DATA 1) 1, .set (.DATA 2) 0, .set (.DATA 3) 0,
        .set .EN 1, .delay 1, .set .EN 0, .delay 50] ∧
    lcd_write false ⟨1, 1, 4, 12, 6⟩ 0xF3 = lcd_write false ⟨1, 1, 4, 12, 6⟩ (0x03 : Nat) := by
  have h := (lcd_write_lines false ⟨1, 1, 4, 12, 6⟩ 0x03 (by decide)).1 rfl
  refine ⟨⟨by decide, rfl⟩, ?_, h.2 0xF3 (by decide)⟩
  rw [h.1]
  simp

/-! ## The buffer of `lcd_print_int` -/

theorem fill_range (m : Int) (hm : m < 2147483648) :
    ∃ (i : Nat) (buffer : List Int),
      lcd_print_int_fill m 0 (List.replicate 12 0) = .ok (i, buffer) ∧ i ≤ 10 ∧
        buffer.length = 12 := by
  by_cases hpos : 0 < m
  · obtain ⟨n, rfl⟩ : ∃ n : Nat, m = (n : Int) := ⟨m.toNat, by omega⟩
    have hlen := digits_length_int n (by omega)
    obtain ⟨buf', e1, e2, _⟩ := fill_digits n 0 (List.replicate 12 0) (by simp; omega)
    exact ⟨_, buf', e1, by omega, by simpa using e2⟩
  · exact ⟨0, _, fill_nonpos m hpos 0 _, by omega, by simp⟩

theorem int32_neg_min : int32 (-(-2147483648)) = -2147483648 := by decide

theorem lcd_print_int_min (rw : Bool) (lcd : lcd_t) :
    lcd_print_int rw lcd (-2147483648) =
      (do sends rw lcd [((Char.toNat '-' : Int), LCD_DATA)]
          pure lcd) := by
  have hneg : ((-2147483648 : Int) < 0) := by decide
  unfold lcd_print_int
  simp only [hneg, if_true, bind_assoc, pure_bind, int32_neg_min,
    fill_nonpos (-2147483648) (by decide), lcd_print_int_drain, sends]

theorem exists_first_zero (reads : List Int) (h : (0 : Int) ∈ reads) :
    ∃ busy rest, reads = busy ++ 0 :: rest ∧ ∀ b ∈ busy, b ≠ 0 := by
  induction reads with
  | nil => simp at h
  | cons a reads ih =>
    by_cases ha : a = 0
    · exact ⟨[], reads, by simp [ha], by simp⟩
    · have h' : (0 : Int) ∈ reads := by
        rcases List.mem_cons.mp h with e | e
        · exact absurd e.symm ha
        · exact e
      obtain ⟨busy, rest, e, hb⟩ := ih h'
      refine ⟨a :: busy, rest, by simp [e], ?_⟩
      intro b hbm
      rcases List.mem_cons.mp hbm with e' | e'
      · rw [e']; exact ha
      · exact hb b e'

/-- The wait for the busy flag returns or stays blocked. -/
theorem lcd_busy_cases (lcd : lcd_t) (env : Env) :
    lcd_busy lcd env = .error Fault.blocked ∨ ∃ env1, lcd_busy lcd env = .ok ((), env1) := by
  obtain ⟨tr, reads⟩ := env
  by_cases h : (0 : Int) ∈ reads
  · obtain ⟨busy, rest, e, hb⟩ := exists_first_zero reads h
    right
    rw [e]
    exact ⟨_, lcd_busy_run lcd tr busy rest hb⟩
  · left
    have hb : ∀ b ∈ reads, b ≠ 0 := fun b hbm e => h (e ▸ hbm)
    simp only [lcd_busy, GPIO_SET, GPIO_DIR, emit_eq, emits_bind_run, bind_assoc, get_bind_run]
    exact bind_run_error _ _ _ _ (lcd_busy_loop_blocked lcd _ reads _ _ hb)

theorem sends_cases (rw : Bool) (lcd : lcd_t) (bs : List (Int × Int)) :
    ∀ env : Env, sends rw lcd bs env = .error Fault.blocked ∨
      ∃ env1, sends rw lcd bs env = .ok ((), env1) := by
  induction bs with
  | nil => intro env; exact Or.inr ⟨env, rfl⟩
  | cons b bs ih =>
    intro env
    rw [sends, lcd_send_eq, bind_assoc]
    have hwait : busyWait rw lcd env = .error Fault.blocked ∨
        ∃ env1, busyWait rw lcd env = .ok ((), env1) := by
      cases rw with
      | false => exact Or.inr ⟨env, rfl⟩
      | true => exact lcd_busy_cases lcd env
    rcases hwait with hw | ⟨mid, hw⟩
    · exact Or.inl (bind_run_error _ _ _ _ hw)
    · rw [bind_run_ok _ _ _ _ _ hw, emits_bind_run]
      exact ih _

theorem sends_pure_not_bounds {α : Type} (rw : Bool) (lcd : lcd_t) (bs : List (Int × Int))
    (x : α) (env : Env) :
    (do sends rw lcd bs; pure x : M α) env ≠ .error Fault.bounds := by
  rcases sends_cases rw lcd bs env with h | ⟨env1, h⟩
  · rw [bind_run_error _ _ _ _ h]; simp
  · rw [bind_run_ok _ _ _ _ _ h]
    intro e
    cases e

/-- C18: for every `num` of the 32-bit `int` range, the digit loop of
`lcd_print_int` returns with at most 10 entries written into the buffer of 12,
at the indices `0 .. i - 1`; the indices read afterwards are the same ones, all
inside the buffer; and `lcd_print_int` never ends in an access outside an
array. -/
theorem lcd_print_int_buffer (rw : Bool) (lcd : lcd_t) (num : Int)
    (hlo : -2147483648 ≤ num) (hhi : num < 2147483648) :
    ∃ (i : Nat) (buffer : List Int),
      lcd_print_int_fill (if num < 0 then int32 (-num) else num) 0 (List.replicate 12 0) =
        .ok (i, buffer) ∧
      i ≤ 10 ∧ buffer.length = 12 ∧
      (∀ j : Nat, j < i → j < 12 ∧ ∃ c, buffer[j]? = some c) ∧
      ∀ env : Env, lcd_print_int rw lcd num env ≠ .error Fault.bounds := by
  have hm : (if num < 0 then int32 (-num) else num) < 2147483648 := by
    split
    · have := s32_range (u32 (-num))
      unfold int32
      omega
    · exact hhi
  obtain ⟨i, buffer, e, hi, hlen⟩ := fill_range _ hm
  refine ⟨i, buffer, e, hi, hlen, ?_, ?_⟩
  · intro j hj
    have hj' : j < buffer.length := by omega
    exact ⟨by omega, buffer[j], List.getElem?_eq_getElem hj'⟩
  · intro env
    by_cases hmin : num = -2147483648
    · rw [hmin, lcd_print_int_min]
      exact sends_pure_not_bounds rw lcd _ lcd env
    · rw [lcd_print_int_sends rw lcd num (by omega) hhi]
      exact sends_pure_not_bounds rw lcd _ lcd env

/-- Witness of C18 at the largest `int`, which has ten digits. -/
theorem lcd_print_int_buffer_witness :
    ((-2147483648 : Int) ≤ 2147483647 ∧ (2147483647 : Int) < 2147483648) ∧
    ∃ (i : Nat) (buffer : List Int),
      lcd_print_int_fill (if (2147483647 : Int) < 0 then int32 (-2147483647) else 2147483647) 0
        (List.replicate 12 0) = .ok (i, buffer) ∧
      i ≤ 10 ∧ buffer.length = 12 ∧
      (∀ j : Nat, j < i → j < 12 ∧ ∃ c, buffer[j]? = some c) ∧
      ∀ env : Env, lcd_print_int false ⟨1, 1, 4, 12, 6⟩ 2147483647 env ≠ .error Fault.bounds :=
  ⟨by decide, lcd_print_int_buffer false ⟨1, 1, 4, 12, 6⟩ 2147483647 (by decide) (by decide)⟩

/-! ## The initialisation sequence of `lcd_create` -/

theorem initBus_phases (rw : Bool) (lcd : lcd_t) (config : Int) :
    initBus rw lcd config =
      (do resetBus rw lcd config
          sends rw lcd [(bor config 0x20, LCD_CMD), (0x0C, LCD_CMD), (0x01, LCD_CMD)]
          emits [.delay 2000]
          sends rw lcd [(0x06, LCD_CMD)]) := by
  by_cases h4 : lcd.interface = 4 <;>
  simp only [initBus, resetBus, h4, if_true, if_false, bind_assoc]

/-- What a call of `lcd_create` that returns a handle has claimed and written. -/
theorem lcd_create_some {N : Nat} (rw : Bool) (r r1 : Registry N) (config : Int)
    (control_pins data_pins : Nat) (env env1 : Env) (slot : Fin N)
    (h : lcd_create rw r config control_pins data_pins env = .ok ((some slot, r1), env1)) :
    (lcd_instantiate r).1 = some slot ∧ control_pins ≠ 0 ∧ data_pins ≠ 0 ∧
      r1 = { (lcd_instantiate r).2 with
        g_lcd := Function.update (lcd_instantiate r).2.g_lcd slot
          (initDevice config control_pins data_pins) } := by
  by_cases hn : (lcd_instantiate r).1 = none ∨ control_pins = 0 ∨ data_pins = 0
  · rw [lcd_create_none rw r config control_pins data_pins hn] at h
    have h' : (.ok ((none, (lcd_instantiate r).2), env) : Except Fault _) =
        .ok ((some slot, r1), env1) := h
    simp at h'
  · push_neg at hn
    obtain ⟨s, hs⟩ := Option.ne_none_iff_exists'.mp hn.1
    rw [lcd_create_claimed rw r config control_pins data_pins s hs hn.2.1 hn.2.2] at h
    have := (bind_pure_ok _ _ _ _ _ h).1
    simp only [Prod.mk.injEq, Option.some.injEq] at this
    obtain ⟨e1, e2⟩ := this
    subst e1
    exact ⟨hs, hn.2.1, hn.2.2, e2⟩

/-- A call of `lcd_create` that returns a handle is the reset phase, the four
command bytes with the settle delay of the clear, and the return of the handle
with the registry it leaves. -/
theorem lcd_create_phases {N : Nat} (rw : Bool) (r r1 : Registry N) (config : Int)
    (control_pins data_pins : Nat) (env env1 : Env) (slot : Fin N)
    (h : lcd_create rw r config control_pins data_pins env = .ok ((some slot, r1), env1)) :
    lcd_create rw r config control_pins data_pins =
      (do resetBus rw (initDevice config control_pins data_pins) config
          sends rw (initDevice config control_pins data_pins)
            [(bor config 0x20, LCD_CMD), (0x0C, LCD_CMD), (0x01, LCD_CMD)]
          emits [.delay 2000]
          sends rw (initDevice config control_pins data_pins) [(0x06, LCD_CMD)]
          pure (some slot, r1)) := by
  obtain ⟨hs, hc, hd, e⟩ := lcd_create_some rw r r1 config control_pins data_pins env env1 slot h
  rw [lcd_create_claimed rw r config control_pins data_pins slot hs hc hd, initBus_phases, ← e]
  simp only [bind_assoc]

theorem band_8bit (config : Int) :
    band config LCD_8BIT ≠ 0 ↔ (u32 config).testBit 4 = true := by
  have h16 : u32 LCD_8BIT = 2 ^ 4 := by decide
  rw [band, h16, Nat.and_two_pow]
  cases (u32 config).testBit 4 <;> simp <;> decide

/-- C14: a call of `lcd_create` that returns a handle, whatever `config` and
whatever the claimed slot held before, sends after the reset phase exactly the
bytes `config | 0x20`, `0x0C`, `0x01` (followed by the settle delay of the
clear) and `0x06`, in this order and all with kind `LCD_CMD`; the slot then holds
the two pin pointers, `interface` 8 if bit `0x10` of `config` is set and 4
otherwise, `control = 0x0C` and `mode = 0x06`; the other slots are as they
were. -/
theorem lcd_create_commands {N : Nat} (rw : Bool) (r r1 : Registry N) (config : Int)
    (control_pins data_pins : Nat) (env env1 : Env) (slot : Fin N)
    (h : lcd_create rw r config control_pins data_pins env = .ok ((some slot, r1), env1)) :
    lcd_create rw r config control_pins data_pins =
        (do resetBus rw (r1.g_lcd slot) config
            sends rw (r1.g_lcd slot)
              [(bor config 0x20, LCD_CMD), (0x0C, LCD_CMD), (0x01, LCD_CMD)]
            emits [.delay 2000]
            sends rw (r1.g_lcd slot) [(0x06, LCD_CMD)]
            pure (some slot, r1)) ∧
      r1.g_lcd slot =
        { control_pins := control_pins, data_pins := data_pins,
          interface := if (u32 config).testBit 4 then 8 else 4,
          control := 0x0C, mode := 0x06 } ∧
      ∀ other : Fin N, other ≠ slot → r1.g_lcd other = r.g_lcd other := by
  have hp := lcd_create_phases rw r r1 config control_pins data_pins env env1 slot h
  obtain ⟨_, _, _, e⟩ := lcd_create_some rw r r1 config control_pins data_pins env env1 slot h
  have hslot : r1.g_lcd slot = initDevice config control_pins data_pins := by
    rw [e]; simp
  refine ⟨by rw [hslot]; exact hp, ?_, ?_⟩
  · rw [hslot, initDevice]
    by_cases hb : band config LCD_8BIT ≠ 0
    · simp [hb, (band_8bit config).mp hb]
    · have : (u32 config).testBit 4 = false := by
        cases hbit : (u32 config).testBit 4
        · rfl
        · exact absurd ((band_8bit config).mpr hbit) hb
      simp [hb, this]
  · intro other hne
    rw [e]
    simp [Function.update_noteq hne, instantiate_g_lcd]

/-- Witness of C14: the first create on the pool of one slot, 8-bit, two
lines. -/
theorem lcd_create_commands_witness :
    ∃ env1 : Env,
      lcd_create false (Registry.init 1) (bor LCD_8BIT LCD_2LINE) 1 1 ⟨[], []⟩ =
        .ok ((some 0, Registry.mk (Function.update (Registry.init 1).g_lcd 0
          (initDevice (bor LCD_8BIT LCD_2LINE) 1 1)) 1), env1) ∧
      (Registry.mk (Function.update (Registry.init 1).g_lcd 0
          (initDevice (bor LCD_8BIT LCD_2LINE) 1 1)) 1).g_lcd 0 =
        { control_pins := 1, data_pins := 1,
          interface := if (u32 (bor LCD_8BIT LCD_2LINE)).testBit 4 then 8 else 4,
          control := 0x0C, mode := 0x06 } := by
  obtain ⟨env1, h⟩ := create_claimed_no_rw (Registry.init 1) (bor LCD_8BIT LCD_2LINE) 1 1 0 rfl
    (by decide) (by decide) ⟨[], []⟩
  exact ⟨env1, h, (lcd_create_commands false _ _ _ 1 1 _ env1 0 h).2.1⟩

theorem initDevice_interface_4 (config : Int) (control_pins data_pins : Nat)
    (h4 : band config LCD_8BIT = 0) : (initDevice config control_pins data_pins).interface = 4 := by
  simp [initDevice, h4]

theorem initDevice_interface_8 (config : Int) (control_pins data_pins : Nat)
    (h8 : band config LCD_8BIT ≠ 0) : (initDevice config control_pins data_pins).interface = 8 := by
  simp [initDevice, h8]

/-- C12: for a `config` without the `LCD_8BIT` bit, a call of `lcd_create` that
returns a handle records first the directions of the pins (and RW low where RW
is wired), then the delay of 50000 us, before any data line is set or EN is
pulsed; then RS low and EN low; then exactly four bus writes of one nibble, each
with a single enable pulse, of the values `0x3`, `0x3`, `0x3`, `0x2`, with
delays of 4500 us, 150 us and 150 us after the first, second and third; only
then are the command bytes sent. -/
theorem lcd_create_reset_4bit {N : Nat} (rw : Bool) (r r1 : Registry N) (config : Int)
    (control_pins data_pins : Nat) (env env1 : Env) (slot : Fin N)
    (h4 : band config LCD_8BIT = 0)
    (h : lcd_create rw r config control_pins data_pins env = .ok ((some slot, r1), env1)) :
    lcd_create rw r config control_pins data_pins =
      (do emits ([.dir .RS 1, .dir .EN 1] ++ (if rw then [.dir .RW 1, .set .RW 0] else []) ++
            [.dir (.DATA 0) 1, .dir (.DATA 1) 1, .dir (.DATA 2) 1, .dir (.DATA 3) 1,
            .delay 50000, .set .RS 0, .set .EN 0,
            .set (.DATA 0) 1, .set (.DATA 1) 1, .set (.DATA 2) 0, .set (.DATA 3) 0,
            .set .EN 1, .delay 1, .set .EN 0] ++ (if rw then [] else [.delay 50]) ++
            [.delay 4500,
            .set (.DATA 0) 1, .set (.DATA 1) 1, .set (.DATA 2) 0, .set (.DATA 3) 0,
            .set .EN 1, .delay 1, .set .EN 0] ++ (if rw then [] else [.delay 50]) ++
            [.delay 150,
            .set (.DATA 0) 1, .set (.DATA 1) 1, .set (.DATA 2) 0, .set (.DATA 3) 0,
            .set .EN 1, .delay 1, .set .EN 0] ++ (if rw then [] else [.delay 50]) ++
            [.delay 150,
            .set (.DATA 0) 0, .set (.DATA 1) 1, .set (.DATA 2) 0, .set (.DATA 3) 0,
            .set .EN 1, .delay 1, .set .EN 0] ++ (if rw then [] else [.delay 50]))
          sends rw (initDevice config control_pins data_pins)
            [(bor config 0x20, LCD_CMD), (0x0C, LCD_CMD), (0x01, LCD_CMD)]
          emits [.delay 2000]
          sends rw (initDevice config control_pins data_pins) [(0x06, LCD_CMD)]
          pure (some slot, r1)) := by
  rw [lcd_create_phases rw r r1 config control_pins data_pins env env1 slot h]
  have hi := initDevice_interface_4 config control_pins data_pins h4
  have hreset : resetBus rw (initDevice config control_pins data_pins) config =
      emits ([.dir .RS 1, .dir .EN 1] ++ (if rw then [.dir .RW 1, .set .RW 0] else []) ++
            [.dir (.DATA 0) 1, .dir (.DATA 1) 1, .dir (.DATA 2) 1, .dir (.DATA 3) 1,
            .delay 50000, .set .RS 0, .set .EN 0,
            .set (.DATA 0) 1, .set (.DATA 1) 1, .set (.DATA 2) 0, .set (.DATA 3) 0,
            .set .EN 1, .delay 1, .set .EN 0] ++ (if rw then [] else [.delay 50]) ++
            [.delay 4500,
            .set (.DATA 0) 1, .set (.DATA 1) 1, .set (.DATA 2) 0, .set (.DATA 3) 0,
            .set .EN 1, .delay 1, .set .EN 0] ++ (if rw then [] else [.delay 50]) ++
            [.delay 150,
            .set (.DATA 0) 1, .set (.DATA 1) 1, .set (.DATA 2) 0, .set (.DATA 3) 0,
            .set .EN 1, .delay 1, .set .EN 0] ++ (if rw then [] else [.delay 50]) ++
            [.delay 150,
            .set (.DATA 0) 0, .set (.DATA 1) 1, .set (.DATA 2) 0, .set (.DATA 3) 0,
            .set .EN 1, .delay 1, .set .EN 0] ++ (if rw then [] else [.delay 50])) := by
    cases rw <;>
    simp [resetBus, hi, emits_append, writeEvents, settle, List.range_succ]
  rw [hreset]

/-- Witness of C12: the first create on the pool of one slot, 4-bit, without
`LCD_RW_SUPPORT`. -/
theorem lcd_create_reset_4bit_witness :
    band LCD_4BIT LCD_8BIT = 0 ∧
    ∃ env1 : Env,
      lcd_create false (Registry.init 1) LCD_4BIT 1 1 ⟨[], []⟩ =
        .ok ((some 0, fullRegistry), env1) ∧
      lcd_create false (Registry.init 1) LCD_4BIT 1 1 =
        (do emits ([.dir .RS 1, .dir .EN 1] ++
              (if false then [.dir .RW 1, .set .RW 0] else []) ++
              [.dir (.DATA 0) 1, .dir (.DATA 1) 1, .dir (.DATA 2) 1, .dir (.DATA 3) 1,
              .delay 50000, .set .RS 0, .set .EN 0,
              .set (.DATA 0) 1, .set (.DATA 1) 1, .set (.DATA 2) 0, .set (.DATA 3) 0,
              .set .EN 1, .delay 1, .set .EN 0] ++ (if false then [] else [.delay 50]) ++
              [.delay 4500,
              .set (.DATA 0) 1, .set (.DATA 1) 1, .set (.DATA 2) 0, .set (.DATA 3) 0,
              .set .EN 1, .delay 1, .set .EN 0] ++ (if false then [] else [.delay 50]) ++
              [.delay 150,
              .set (.DATA 0) 1, .set (.DATA 1) 1, .set (.DATA 2) 0, .set (.DATA 3) 0,
              .set .EN 1, .delay 1, .set .EN 0] ++ (if false then [] else [.delay 50]) ++
              [.delay 150,
              .set (.DATA 0) 0, .set (.DATA 1) 1, .set (.DATA 2) 0, .set (.DATA 3) 0,
              .set .EN 1, .delay 1, .set .EN 0] ++ (if false then [] else [.delay 50]))
            sends false (initDevice LCD_4BIT 1 1)
              [(bor LCD_4BIT 0x20, LCD_CMD), (0x0C, LCD_CMD), (0x01, LCD_CMD)]
            emits [.delay 2000]
            sends false (initDevice LCD_4BIT 1 1) [(0x06, LCD_CMD)]
            pure (some 0, fullRegistry)) := by
  refine ⟨by decide, ?_⟩
  obtain ⟨env1, h⟩ := create_claimed_no_rw (Registry.init 1) LCD_4BIT 1 1 0 rfl
    (by decide) (by decide) ⟨[], []⟩
  exact ⟨env1, h, lcd_create_reset_4bit false _ _ _ 1 1 _ env1 0 (by decide) h⟩

set_option maxRecDepth 100000 in
theorem create8Trace_delays :
    create8Trace.count (.delay 150) = 1 ∧ create8Trace.count (.delay 4500) = 1 := by
  decide

set_option maxRecDepth 100000 in
theorem create8_run :
    lcd_create false (Registry.init 1) LCD_8BIT 1 1 ⟨[], []⟩ =
      .ok ((some 0, Registry.mk (Function.update (Registry.init 1).g_lcd 0
        (initDevice LCD_8BIT 1 1)) 1), ⟨create8Trace, []⟩) := by
  rfl

/-- C13 as stated fails: the first create on the pool of one slot with
`config = LCD_8BIT`, without `LCD_RW_SUPPORT`, records exactly `create8Trace`,
in which the third send of `config` is followed at once by the send of the
function-set command `config | 0x20`: the trace holds one delay of 150 us, the
one after the second send, and none after the third. -/
theorem lcd_create_8bit_third_delay_absent :
    lcd_create false (Registry.init 1) LCD_8BIT 1 1 ⟨[], []⟩ =
        .ok ((some 0, Registry.mk (Function.update (Registry.init 1).g_lcd 0
          (initDevice LCD_8BIT 1 1)) 1), ⟨create8Trace, []⟩) ∧
      create8Trace.count (.delay 150) = 1 := by
  exact ⟨create8_run, create8Trace_delays.1⟩

theorem sendEvents_8bit (rw : Bool) (lcd : lcd_t) (h8 : lcd.interface = 8) (value cmd_data : Int) :
    sendEvents rw lcd value cmd_data =
      [.set .RS (uint8 cmd_data),
        .set (.DATA 0) (uint8 value >>> 0 &&& 1), .set (.DATA 1) (uint8 value >>> 1 &&& 1),
        .set (.DATA 2) (uint8 value >>> 2 &&& 1), .set (.DATA 3) (uint8 value >>> 3 &&& 1),
        .set (.DATA 4) (uint8 value >>> 4 &&& 1), .set (.DATA 5) (uint8 value >>> 5 &&& 1),
        .set (.DATA 6) (uint8 value >>> 6 &&& 1), .set (.DATA 7) (uint8 value >>> 7 &&& 1),
        .set .EN 1, .delay 1, .set .EN 0] ++ (if rw then [] else [.delay 50]) := by
  simp [sendEvents, writeEvents, settle, h8, List.range_succ]

/-- C13, amended: for a `config` with the `LCD_8BIT` bit, a call of `lcd_create`
that returns a handle records the directions of the pins (and RW low where RW
is wired), the delay of 50000 us, RS low and EN low, and then sends the byte
`config` with kind `LCD_CMD` exactly three times, with a delay of 4500 us after
the first send and of 150 us after the second; the third send is followed
directly by the send of the function-set command `config | 0x20`, with no
nibble step and no further delay in between.  Each of these sends, once the
busy flag is clear, is a single bus write on the eight data lines with one
enable pulse. -/
theorem lcd_create_reset_8bit {N : Nat} (rw : Bool) (r r1 : Registry N) (config : Int)
    (control_pins data_pins : Nat) (env env1 : Env) (slot : Fin N)
    (h8 : band config LCD_8BIT ≠ 0)
    (h : lcd_create rw r config control_pins data_pins env = .ok ((some slot, r1), env1)) :
    lcd_create rw r config control_pins data_pins =
        (do emits ([.dir .RS 1, .dir .EN 1] ++ (if rw then [.dir .RW 1, .set .RW 0] else []) ++
              [.dir (.DATA 0) 1, .dir (.DATA 1) 1, .dir (.DATA 2) 1, .dir (.DATA 3) 1,
              .dir (.DATA 4) 1, .dir (.DATA 5) 1, .dir (.DATA 6) 1, .dir (.DATA 7) 1,
              .delay 50000, .set .RS 0, .set .EN 0])
            sends rw (initDevice config control_pins data_pins) [(config, LCD_CMD)]
            emits [.delay 4500]
            sends rw (initDevice config control_pins data_pins) [(config, LCD_CMD)]
            emits [.delay 150]
            sends rw (initDevice config control_pins data_pins)
              [(config, LCD_CMD), (bor config 0x20, LCD_CMD), (0x0C, LCD_CMD), (0x01, LCD_CMD)]
            emits [.delay 2000]
            sends rw (initDevice config control_pins data_pins) [(0x06, LCD_CMD)]
            pure (some slot, r1)) ∧
      sendEvents rw (initDevice config control_pins data_pins) config LCD_CMD =
        [.set .RS 0,
          .set (.DATA 0) (uint8 config >>> 0 &&& 1), .set (.DATA 1) (uint8 config >>> 1 &&& 1),
          .set (.DATA 2) (uint8 config >>> 2 &&& 1), .set (.DATA 3) (uint8 config >>> 3 &&& 1),
          .set (.DATA 4) (uint8 config >>> 4 &&& 1), .set (.DATA 5) (uint8 config >>> 5 &&& 1),
          .set (.DATA 6) (uint8 config >>> 6 &&& 1), .set (.DATA 7) (uint8 config >>> 7 &&& 1),
          .set .EN 1, .delay 1, .set .EN 0] ++ (if rw then [] else [.delay 50]) := by
  have hi := initDevice_interface_8 config control_pins data_pins h8
  constructor
  · rw [lcd_create_phases rw r r1 config control_pins data_pins env env1 slot h]
    cases rw <;>
    simp [resetBus, hi, sends, List.range_succ, bind_assoc]
  · rw [sendEvents_8bit rw _ hi]
    rfl

/-- Witness of C13, amended: the first create on the pool of one slot with
`config = LCD_8BIT`. -/
theorem lcd_create_reset_8bit_witness :
    band LCD_8BIT LCD_8BIT ≠ 0 ∧
    lcd_create false (Registry.init 1) LCD_8BIT 1 1 ⟨[], []⟩ =
      .ok ((some 0, Registry.mk (Function.update (Registry.init 1).g_lcd 0
        (initDevice LCD_8BIT 1 1)) 1), ⟨create8Trace, []⟩) ∧
    lcd_create false (Registry.init 1) LCD_8BIT 1 1 =
      (do emits ([.dir .RS 1, .dir .EN 1] ++ (if false then [.dir .RW 1, .set .RW 0] else []) ++
            [.dir (.DATA 0) 1, .dir (.DATA 1) 1, .dir (.DATA 2) 1, .dir (.DATA 3) 1,
            .dir (.DATA 4) 1, .dir (.DATA 5) 1, .dir (.DATA 6) 1, .dir (.DATA 7) 1,
            .delay 50000, .set .RS 0, .set .EN 0])
          sends false (initDevice LCD_8BIT 1 1) [(LCD_8BIT, LCD_CMD)]
          emits [.delay 4500]
          sends false (initDevice LCD_8BIT 1 1) [(LCD_8BIT, LCD_CMD)]
          emits [.delay 150]
          sends false (initDevice LCD_8BIT 1 1)
            [(LCD_8BIT, LCD_CMD), (bor LCD_8BIT 0x20, LCD_CMD), (0x0C, LCD_CMD), (0x01, LCD_CMD)]
          emits [.delay 2000]
          sends false (initDevice LCD_8BIT 1 1) [(0x06, LCD_CMD)]
          pure (some 0, Registry.mk (Function.update (Registry.init 1).g_lcd 0
            (initDevice LCD_8BIT 1 1)) 1)) :=
  ⟨by decide, create8_run,
    (lcd_create_reset_8bit false (Registry.init 1) _ LCD_8BIT 1 1 ⟨[], []⟩ ⟨create8Trace, []⟩ 0
      (by decide) create8_run).1⟩

/-! ## The scenario of the specification -/

theorem scenario_sends (rw : Bool) (N : Nat) (pins : Nat) (hN : 0 < N) (hpins : pins ≠ 0) :
    scenario rw N pins =
      (do resetBus rw ⟨pins, pins, 4, 0x0C, 0x06⟩ 0x08
          sends rw ⟨pins, pins, 4, 0x0C, 0x06⟩ [(0x28, LCD_CMD), (0x0C, LCD_CMD), (0x01, LCD_CMD)]
          emits [.delay 2000]
          sends rw ⟨pins, pins, 4, 0x0C, 0x06⟩ [(0x06, LCD_CMD), (0x01, LCD_CMD)]
          emits [.delay 2000]
          sends rw ⟨pins, pins, 4, 0x0C, 0x06⟩ [(0xC3, LCD_CMD), (0x68, LCD_DATA), (0x69, LCD_DATA)]
          pure (some ⟨pins, pins, 4, 0x0C, 0x06⟩)) := by
  have hcfg : bor (bor LCD_4BIT LCD_2LINE) LCD_5x8 = 0x08 := by decide
  have hfs : bor 0x08 0x20 = 0x28 := by decide
  have hdev : initDevice 0x08 pins pins = ⟨pins, pins, 4, 0x0C, 0x06⟩ := by
    have : band 0x08 LCD_8BIT = 0 := by decide
    simp [initDevice, this]
  have hslot : (lcd_instantiate (Registry.init N)).1 = some ⟨0, hN⟩ := by
    rw [instantiate_counter (Registry.init N) hN]
    rfl
  have haddr : uint8 (bor LCD_SET_DDRAM_ADDR 67) = 0xC3 := by decide
  unfold scenario
  rw [hcfg, lcd_create_claimed rw (Registry.init N) 0x08 pins pins ⟨0, hN⟩ hslot hpins hpins,
    initBus_phases, hdev, hfs]
  simp [lcd_clear, lcd_cursor_set, lines_offset, lcd_print_str, lcd_print_str_loop, sends,
    LCD_DELAY_us, emit_eq, haddr, LCD_CLEAR_DISPLAY, bind_assoc]

theorem nibblePair_eq (rw : Bool) (lcd : lcd_t) (h4 : lcd.interface = 4) (value kind : Int) :
    sendEvents rw lcd value kind =
      nibblePair rw (uint8 kind) (uint8 value >>> 4) (uint8 value &&& 15) := by
  have hlow : writeEvents rw 4 (uint8 value) = writeEvents rw 4 (uint8 value &&& 15) := by
    apply writeEvents_low
    have : (15 : Nat) = 2 ^ 4 - 1 := by norm_num
    rw [this, Nat.and_pow_two_sub_one_eq_mod]
    simp
  simp only [sendEvents, nibblePair, h4, if_true, ← hlow]
  rfl

/-- C11: on an empty registry with room for a device, the scenario (create a
4-bit, 2-line, 5x8 device, clear, cursor to line 1 column 3, print `"hi"`) is
the reset phase of the 4-bit interface, which ends with the raw nibbles `0x3`,
`0x3`, `0x3`, `0x2`, followed by the sending of exactly these bytes in this
order: `0x28`, `0x0C`, `0x01`, `0x06` as commands (initialisation), `0x01` as a
command (clear), `0xC3` as a command (cursor), and `h` (`0x68`), `i` (`0x69`) as
data, with the settle delay of 2000 us after each `0x01`.  Without
`LCD_RW_SUPPORT` the trace is given in full: every byte goes out as its high
nibble and then its low nibble. -/
theorem scenario_bytes (rw : Bool) (N : Nat) (pins : Nat) (hN : 0 < N) (hpins : pins ≠ 0) :
    scenario rw N pins =
        (do emits ([.dir .RS 1, .dir .EN 1] ++ (if rw then [.dir .RW 1, .set .RW 0] else []) ++
              [.dir (.DATA 0) 1, .dir (.DATA 1) 1, .dir (.DATA 2) 1, .dir (.DATA 3) 1,
              .delay 50000, .set .RS 0, .set .EN 0] ++
              writeEvents rw 4 0x3 ++ [.delay 4500] ++ writeEvents rw 4 0x3 ++ [.delay 150] ++
              writeEvents rw 4 0x3 ++ [.delay 150] ++ writeEvents rw 4 0x2)
            sends rw ⟨pins, pins, 4, 0x0C, 0x06⟩
              [(0x28, LCD_CMD), (0x0C, LCD_CMD), (0x01, LCD_CMD)]
            emits [.delay 2000]
            sends rw ⟨pins, pins, 4, 0x0C, 0x06⟩ [(0x06, LCD_CMD), (0x01, LCD_CMD)]
            emits [.delay 2000]
            sends rw ⟨pins, pins, 4, 0x0C, 0x06⟩
              [(0xC3, LCD_CMD), (0x68, LCD_DATA), (0x69, LCD_DATA)]
            pure (some ⟨pins, pins, 4, 0x0C, 0x06⟩)) ∧
      ∀ env : Env, scenario false N pins env =
        .ok (some ⟨pins, pins, 4, 0x0C, 0x06⟩,
          ⟨env.trace ++ ([.dir .RS 1, .dir .EN 1,
              .dir (.DATA 0) 1, .dir (.DATA 1) 1, .dir (.DATA 2) 1, .dir (.DATA 3) 1,
              .delay 50000, .set .RS 0, .set .EN 0] ++
              writeEvents false 4 0x3 ++ [.delay 4500] ++ writeEvents false 4 0x3 ++
              [.delay 150] ++ writeEvents false 4 0x3 ++ [.delay 150] ++ writeEvents false 4 0x2 ++
              nibblePair false 0 0x2 0x8 ++ nibblePair false 0 0x0 0xC ++
              nibblePair false 0 0x0 0x1 ++ [.delay 2000] ++
              nibblePair false 0 0x0 0x6 ++
              nibblePair false 0 0x0 0x1 ++ [.delay 2000] ++
              nibblePair false 0 0xC 0x3 ++
              nibblePair false 1 0x6 0x8 ++ nibblePair false 1 0x6 0x9), env.reads⟩) := by
  have hreset : ∀ rw : Bool, resetBus rw ⟨pins, pins, 4, 0x0C, 0x06⟩ 0x08 =
      emits ([.dir .RS 1, .dir .EN 1] ++ (if rw then [.dir .RW 1, .set .RW 0] else []) ++
        [.dir (.DATA 0) 1, .dir (.DATA 1) 1, .dir (.DATA 2) 1, .dir (.DATA 3) 1,
        .delay 50000, .set .RS 0, .set .EN 0] ++
        writeEvents rw 4 0x3 ++ [.delay 4500] ++ writeEvents rw 4 0x3 ++ [.delay 150] ++
        writeEvents rw 4 0x3 ++ [.delay 150] ++ writeEvents rw 4 0x2) := by
    intro rw
    cases rw <;> simp [resetBus, emits_append, List.range_succ]
  constructor
  · rw [scenario_sends rw N pins hN hpins, hreset]
  · intro env
    rw [scenario_sends false N pins hN hpins, hreset]
    simp only [sends_no_rw, nibblePair_eq false ⟨pins, pins, 4, 0x0C, 0x06⟩ rfl, bind_assoc,
      emits_append_bind, emits_bind_run, List.flatMap_cons, List.flatMap_nil]
    have e0 : uint8 LCD_CMD = 0 := by decide
    have e1 : uint8 LCD_DATA = 1 := by decide
    have v1 : uint8 40 >>> 4 = 2 ∧ uint8 40 &&& 15 = 8 := by decide
    have v2 : uint8 12 >>> 4 = 0 ∧ uint8 12 &&& 15 = 12 := by decide
    have v3 : uint8 1 >>> 4 = 0 ∧ uint8 1 &&& 15 = 1 := by decide
    have v4 : uint8 6 >>> 4 = 0 ∧ uint8 6 &&& 15 = 6 := by decide
    have v5 : uint8 195 >>> 4 = 12 ∧ uint8 195 &&& 15 = 3 := by decide
    have v6 : uint8 104 >>> 4 = 6 ∧ uint8 104 &&& 15 = 8 := by decide
    have v7 : uint8 105 >>> 4 = 6 ∧ uint8 105 &&& 15 = 9 := by decide
    simp only [e0, e1, v1, v2, v3, v4, v5, v6, v7, Bool.false_eq_true, if_false,
      List.append_nil, List.append_assoc, List.cons_append, List.nil_append]
    rfl

/-- Witness of C11 on a registry of one slot, the pin lists at address 1. -/
theorem scenario_bytes_witness :
    ((0 : Nat) < 1 ∧ (1 : Nat) ≠ 0) ∧
    scenario false 1 1 ⟨[], []⟩ =
      .ok (some ⟨1, 1, 4, 0x0C, 0x06⟩,
        ⟨[] ++ ([.dir .RS 1, .dir .EN 1,
            .dir (.DATA 0) 1, .dir (.DATA 1) 1, .dir (.DATA 2) 1, .dir (.DATA 3) 1,
            .delay 50000, .set .RS 0, .set .EN 0] ++
            writeEvents false 4 0x3 ++ [.delay 4500] ++ writeEvents false 4 0x3 ++
            [.delay 150] ++ writeEvents false 4 0x3 ++ [.delay 150] ++ writeEvents false 4 0x2 ++
            nibblePair false 0 0x2 0x8 ++ nibblePair false 0 0x0 0xC ++
            nibblePair false 0 0x0 0x1 ++ [.delay 2000] ++
            nibblePair false 0 0x0 0x6 ++
            nibblePair false 0 0x0 0x1 ++ [.delay 2000] ++
            nibblePair false 0 0xC 0x3 ++
            nibblePair false 1 0x6 0x8 ++ nibblePair false 1 0x6 0x9), []⟩) :=
  ⟨by decide, (scenario_bytes false 1 1 (by decide) (by decide)).2 ⟨[], []⟩⟩

/-! ## The registry invariant -/

theorem live_facts {N : Nat} (rw : Bool) (r : Registry N) (handles : List (Fin N))
    (h : Live rw r handles) :
    r.Inv ∧ handles.Nodup ∧ ∀ slot ∈ handles, ¬ r.free slot := by
  induction h with
  | init => exact ⟨inv_init N, List.nodup_nil, fun _ hm => by simp at hm⟩
  | @create r r1 handles config control_pins data_pins env env1 lcd _ hok ih =>
    obtain ⟨hinv, hnd, hlive⟩ := ih
    cases lcd with
    | none =>
      rcases lcd_create_ok rw _ _ _ _ _ _ _ _ hok with ⟨_, e⟩ | ⟨slot, _, _, e', _⟩
      · subst e
        refine ⟨inv_instantiate _ hinv, by simpa using hnd, fun s hs => ?_⟩
        have := hlive s (by simpa using hs)
        simpa [Registry.free, instantiate_g_lcd] using this
      · cases e'
    | some slot =>
      obtain ⟨hslot, hc, _, e⟩ := lcd_create_some rw _ _ _ _ _ _ _ _ hok
      have hfree := instantiate_some_free r hinv slot hslot
      have hnot : slot ∉ handles := fun hm => hlive slot hm hfree
      subst e
      refine ⟨inv_claim _ hinv slot _ hslot, ?_, fun s hs => ?_⟩
      · simpa using ⟨hnot, hnd⟩
      · simp only [Option.toList, List.singleton_append, List.mem_cons] at hs
        by_cases es : s = slot
        · subst es
          simp [Registry.free, initDevice, hc]
        · have hm : s ∈ handles := by
            rcases hs with e | e
            · exact absurd e es
            · exact e
          have := hlive s hm
          simpa [Registry.free, Function.update_noteq es, instantiate_g_lcd] using this
  | @destroy r handles lcd _ ih =>
    obtain ⟨hinv, hnd, hlive⟩ := ih
    refine ⟨inv_destroy _ hinv lcd, hnd.filter _, fun s hs => ?_⟩
    obtain ⟨hm, hne⟩ := List.mem_filter.mp hs
    have hne' : some s ≠ lcd := by simpa using hne
    cases lcd with
    | none => exact hlive s hm
    | some slot =>
      have es : s ≠ slot := fun e => hne' (by rw [e])
      have := hlive s hm
      simpa [lcd_destroy, Registry.free, Function.update_noteq es] using this

/-- C20: in every registry state reached by calls of `lcd_create` and
`lcd_destroy`, the counter is at most the capacity and every slot from the
counter on is free; a call of `lcd_create` that returns a handle returns a slot
that is free at the time of the call and is none of the live handles; the live
handles are pairwise distinct, each refers to a slot that is not free, and
there are at most `LCD_MAX_INSTANCES` of them. -/
theorem registry_invariant {N : Nat} (rw : Bool) (r : Registry N) (handles : List (Fin N))
    (h : Live rw r handles) :
    (r.counter ≤ N ∧ ∀ slot : Fin N, r.counter ≤ slot.val → (r.g_lcd slot).control_pins = 0) ∧
      (∀ (config : Int) (control_pins data_pins : Nat) (env env1 : Env) (slot : Fin N)
          (r1 : Registry N),
        lcd_create rw r config control_pins data_pins env = .ok ((some slot, r1), env1) →
          (r.g_lcd slot).control_pins = 0 ∧ slot ∉ handles) ∧
      handles.Nodup ∧
      (∀ slot ∈ handles, (r.g_lcd slot).control_pins ≠ 0) ∧
      handles.length ≤ N := by
  obtain ⟨hinv, hnd, hlive⟩ := live_facts rw r handles h
  refine ⟨hinv, ?_, hnd, hlive, ?_⟩
  · intro config control_pins data_pins env env1 slot r1 hok
    obtain ⟨hslot, _, _, _⟩ := lcd_create_some rw _ _ _ _ _ _ _ _ hok
    have hfree := instantiate_some_free r hinv slot hslot
    exact ⟨hfree, fun hm => hlive slot hm hfree⟩
  · have := hnd.length_le_card
    simpa using this

theorem fullRegistry_live : Live false fullRegistry [0] := by
  obtain ⟨env1, h⟩ := create_claimed_no_rw (Registry.init 1) 0 1 1 0 rfl (by decide) (by decide)
    ⟨[], []⟩
  exact Live.create Live.init h

/-- Witness of C20: the pool of one slot with its one live handle. -/
theorem registry_invariant_witness :
    Live false fullRegistry [0] ∧
    ((fullRegistry.counter ≤ 1 ∧
        ∀ slot : Fin 1, fullRegistry.counter ≤ slot.val →
          (fullRegistry.g_lcd slot).control_pins = 0) ∧
      (∀ (config : Int) (control_pins data_pins : Nat) (env env1 : Env) (slot : Fin 1)
          (r1 : Registry 1),
        lcd_create false fullRegistry config control_pins data_pins env =
            .ok ((some slot, r1), env1) →
          (fullRegistry.g_lcd slot).control_pins = 0 ∧ slot ∉ [(0 : Fin 1)]) ∧
      [(0 : Fin 1)].Nodup ∧
      (∀ slot ∈ [(0 : Fin 1)], (fullRegistry.g_lcd slot).control_pins ≠ 0) ∧
      [(0 : Fin 1)].length ≤ 1) :=
  ⟨fullRegistry_live, registry_invariant false fullRegistry [0] fullRegistry_live⟩

/-! ## The registers and the commands sent -/

theorem runSteps_sends (rw : Bool) (lcd : lcd_t) (bs : List (Int × Int)) :
    runSteps rw lcd (bs.map fun b => Step.send b.1 b.2) = sends rw lcd bs := by
  induction bs with
  | nil => rfl
  | cons b bs ih => simp only [List.map_cons, runSteps, sends, ih]

theorem runSteps_data (rw : Bool) (lcd : lcd_t) (cs : List Int) :
    runSteps rw lcd (cs.map fun c => Step.send c LCD_DATA) =
      sends rw lcd (cs.map fun c => (c, LCD_DATA)) := by
  rw [← runSteps_sends, List.map_map]
  rfl

theorem runSteps_data_nat (rw : Bool) (lcd : lcd_t) (cs : List Nat) :
    runSteps rw lcd (cs.map fun (c : Nat) => Step.send c LCD_DATA) =
      sends rw lcd (cs.map fun (c : Nat) => ((c : Int), LCD_DATA)) := by
  rw [← runSteps_sends, List.map_map]
  rfl

theorem terminated_split (s : List Nat) :
    ∃ rest, s ++ [0] = (s.takeWhile fun c => c ≠ 0) ++ 0 :: rest := by
  induction s with
  | nil => exact ⟨[], rfl⟩
  | cons c s ih =>
    by_cases hc : c = 0
    · exact ⟨s ++ [0], by simp [List.takeWhile, hc]⟩
    · obtain ⟨rest, e⟩ := ih
      exact ⟨rest, by simp [List.takeWhile, hc, e]⟩

theorem lcd_print_str_terminated (rw : Bool) (lcd : lcd_t) (s : List Nat) :
    lcd_print_str rw lcd (s ++ [0]) =
      (do sends rw lcd ((s.takeWhile fun c => c ≠ 0).map fun (c : Nat) => ((c : Int), LCD_DATA))
          pure lcd) := by
  obtain ⟨rest, e⟩ := terminated_split s
  rw [e, lcd_print_str, print_str_loop_sends rw lcd rest _ ?_]
  intro c hc
  have := List.mem_takeWhile_imp hc
  simpa using this

theorem lcd_print_int_printed (rw : Bool) (lcd : lcd_t) (num : Int)
    (hlo : -2147483648 ≤ num) (hhi : num < 2147483648) :
    lcd_print_int rw lcd num =
      (do sends rw lcd ((printedChars num).map fun c => (c, LCD_DATA))
          pure lcd) := by
  unfold printedChars
  by_cases hmin : num = -2147483648
  · rw [hmin, lcd_print_int_min]
    simp
  · rw [lcd_print_int_sends rw lcd num (by omega) hhi]
    simp [hmin]

theorem int32_range (x : Int) : -2147483648 ≤ int32 x ∧ int32 x < 2147483648 :=
  s32_range _

/-- Every operation is the making of its steps and the return of its record. -/
theorem op_run_effect (rw : Bool) (lcd : lcd_t) (o : Op) :
    Op.run rw lcd o =
      (do runSteps rw lcd (Op.effect lcd o).2
          pure (Op.effect lcd o).1) := by
  cases o with
  | state s =>
    simp only [Op.run, Op.effect, lcd_state, runSteps, bind_assoc, pure_bind]
    simp only [lcd_send_width]
  | clear => simp only [Op.run, Op.effect, lcd_clear, runSteps, bind_assoc, pure_bind]
  | home => simp only [Op.run, Op.effect, lcd_home, runSteps, bind_assoc, pure_bind]
  | cursor_set line col =>
    have hl : ¬ (((line.val : Nat) : Int) < 0) := by omega
    have hlook : lines_offset[(((line.val : Nat) : Int)).toNat]? =
        some (lines_offset.getD line.val 0) := by
      fin_cases line <;> rfl
    simp only [Op.run, Op.effect, lcd_cursor_set, hl, if_false, hlook, runSteps, bind_assoc,
      pure_bind]
  | cursor_state s =>
    simp only [Op.run, Op.effect, lcd_cursor_state, runSteps, bind_assoc, pure_bind]
    simp only [lcd_send_width]
  | cursor_blink s =>
    simp only [Op.run, Op.effect, lcd_cursor_blink, runSteps, bind_assoc, pure_bind]
    simp only [lcd_send_width]
  | text_direction d =>
    simp only [Op.run, Op.effect, lcd_text_direction, runSteps, bind_assoc, pure_bind]
    simp only [lcd_send_width]
  | autoscroll s =>
    simp only [Op.run, Op.effect, lcd_autoscroll, runSteps, bind_assoc, pure_bind]
    simp only [lcd_send_width]
  | scroll d => simp only [Op.run, Op.effect, lcd_scroll, runSteps, bind_assoc, pure_bind]
  | create_char index charmap =>
    simp [Op.run, Op.effect, lcd_create_char, runSteps, List.ofFn_succ, List.range_succ]
    rfl
  | print_char c => simp only [Op.run, Op.effect, lcd_print_char, runSteps, bind_assoc, pure_bind]
  | print_str s =>
    simp only [Op.run, Op.effect]
    rw [lcd_print_str_terminated, runSteps_data_nat]
  | print_int num =>
    simp only [Op.run, Op.effect]
    rw [lcd_print_int_printed rw lcd _ (int32_range num).1 (int32_range num).2, runSteps_data]

/-- A call of `lcd_create` that returns a handle is the making of the raw calls
of the reset, then of its steps. -/
theorem lcd_create_steps {N : Nat} (rw : Bool) (r r1 : Registry N) (config : Int)
    (control_pins data_pins : Nat) (env env1 : Env) (slot : Fin N)
    (h : lcd_create rw r config control_pins data_pins env = .ok ((some slot, r1), env1)) :
    lcd_create rw r config control_pins data_pins =
      (do emits (resetEvents rw (initDevice config control_pins data_pins))
          runSteps rw (initDevice config control_pins data_pins) (createSteps config)
          pure (some slot, r1)) := by
  rw [lcd_create_phases rw r r1 config control_pins data_pins env env1 slot h]
  by_cases h8 : band config LCD_8BIT ≠ 0
  · have hi := initDevice_interface_8 config control_pins data_pins h8
    have h4 : ¬ (initDevice config control_pins data_pins).interface = 4 := by rw [hi]; decide
    have hs : createSteps config =
        [.send config LCD_CMD, .delay 4500, .send config LCD_CMD, .delay 150,
          .send config LCD_CMD, .send (bor config 0x20) LCD_CMD, .send 0x0C LCD_CMD,
          .send 0x01 LCD_CMD, .delay 2000, .send 0x06 LCD_CMD] := by
      unfold createSteps
      rw [if_pos h8]
      rfl
    simp only [resetBus, resetEvents, hs, h4, if_false, runSteps, sends,
      bind_assoc, LCD_DELAY_us, emit_eq, List.append_nil, pure_bind]
  · have h0 : band config LCD_8BIT = 0 := by simpa using h8
    have hi := initDevice_interface_4 config control_pins data_pins h0
    have hs : createSteps config =
        [.send (bor config 0x20) LCD_CMD, .send 0x0C LCD_CMD,
          .send 0x01 LCD_CMD, .delay 2000, .send 0x06 LCD_CMD] := by
      unfold createSteps
      rw [if_neg h8]
      rfl
    simp only [resetBus, resetEvents, hs, hi, if_true, runSteps, sends,
      bind_assoc, LCD_DELAY_us, emit_eq, pure_bind, emits_append_bind]

theorem lcd_create_slot {N : Nat} (rw : Bool) (r r1 : Registry N) (config : Int)
    (control_pins data_pins : Nat) (env env1 : Env) (slot : Fin N)
    (h : lcd_create rw r config control_pins data_pins env = .ok ((some slot, r1), env1)) :
    r1.g_lcd slot = initDevice config control_pins data_pins := by
  obtain ⟨_, _, _, e⟩ := lcd_create_some rw r r1 config control_pins data_pins env env1 slot h
  rw [e]
  simp

theorem op_run_ok (rw : Bool) (lcd lcd1 : lcd_t) (o : Op) (env env1 : Env)
    (h : Op.run rw lcd o env = .ok (lcd1, env1)) : lcd1 = (Op.effect lcd o).1 := by
  rw [op_run_effect] at h
  obtain ⟨_, mid, _, hk⟩ := bind_ok_inv _ _ _ _ _ h
  have hk' : (.ok ((Op.effect lcd o).1, mid) : Except Fault (lcd_t × Env)) = .ok (lcd1, env1) := hk
  simp only [Except.ok.injEq, Prod.mk.injEq] at hk'
  exact hk'.1.symm

theorem uint8_s32 (n : Nat) : uint8 (s32 n) = n % 256 := by
  unfold uint8 s32
  split <;> omega

theorem u32_mod_byte (x : Int) : u32 x % 256 = uint8 x := by
  unfold u32 uint8
  omega

theorem uint8_bor (a b : Int) : uint8 (bor a b) = uint8 a ||| uint8 b := by
  rw [bor, uint8_s32, ← u32_mod_byte a, ← u32_mod_byte b]
  apply Nat.eq_of_testBit_eq
  intro j
  have e : (256 : Nat) = 2 ^ 8 := by norm_num
  simp only [e, Nat.testBit_mod_two_pow, Nat.testBit_or]
  cases decide (j < 8) <;> simp

theorem uint8_uint8 (x : Int) : uint8 ((uint8 x : Nat) : Int) = uint8 x := by
  rw [uint8_natCast, Nat.mod_eq_of_lt (uint8_lt x)]

theorem uint8_config_8bit (config : Int) (h8 : band config LCD_8BIT ≠ 0) :
    16 ≤ uint8 config := by
  have h := (band_8bit config).1 h8
  rw [← u32_mod_byte]
  have h2 : (u32 config % 2 ^ 8).testBit 4 = true := by
    rw [Nat.testBit_mod_two_pow]; simp [h]
  exact Nat.testBit_implies_ge h2

theorem commands_append (a b : List Step) : commands (a ++ b) = commands a ++ commands b := by
  simp [commands]

theorem lastCommand_append (lo hi : Nat) (a b : List Step) :
    lastCommand lo hi (a ++ b) = (lastCommand lo hi b).or (lastCommand lo hi a) := by
  simp [lastCommand, commands_append, List.getLast?_append]

theorem commands_data (cs : List Int) :
    commands (cs.map fun c => Step.send c LCD_DATA) = [] := by
  induction cs with
  | nil => rfl
  | cons c cs ih =>
    have h1 : uint8 LCD_DATA ≠ 0 := by decide
    simp only [List.map_cons, commands, List.filterMap_cons, Step.command, h1, if_false]
    exact ih

theorem commands_data_nat (cs : List Nat) :
    commands (cs.map fun (c : Nat) => Step.send c LCD_DATA) = [] := by
  have h := commands_data (cs.map fun (c : Nat) => (c : Int))
  rw [List.map_map] at h
  exact h

theorem commands_cmd (v : Int) : commands [Step.send v LCD_CMD] = [uint8 v] := by
  have h0 : uint8 LCD_CMD = 0 := by decide
  simp [commands, Step.command, h0]

theorem control_merge (c bit v : Int) (h1 : 8 ≤ c) (h2 : c ≤ 15)
    (hbit : bit = 1 ∨ bit = 2 ∨ bit = 4) (hv : v = 0 ∨ v = bit) :
    8 ≤ bor (band c (bnot bit)) v ∧ bor (band c (bnot bit)) v ≤ 15 := by
  interval_cases c <;> rcases hbit with rfl | rfl | rfl <;> rcases hv with rfl | rfl <;> decide

theorem mode_merge (m bit v : Int) (h1 : 4 ≤ m) (h2 : m ≤ 7)
    (hbit : bit = 1 ∨ bit = 2) (hv : v = 0 ∨ v = bit) :
    4 ≤ bor (band m (bnot bit)) v ∧ bor (band m (bnot bit)) v ≤ 7 := by
  interval_cases m <;> rcases hbit with rfl | rfl <;> rcases hv with rfl | rfl <;> decide
theorem uint8_toNat (x : Int) (h0 : 0 ≤ x) (h : x < 256) : uint8 x = x.toNat := by
  unfold uint8
  omega

theorem filter_cmd_in (lo hi : Nat) (v : Int) (h : lo ≤ uint8 v ∧ uint8 v ≤ hi) :
    ((commands [Step.send v LCD_CMD]).filter fun b => lo ≤ b ∧ b ≤ hi) = [uint8 v] := by
  rw [commands_cmd]
  simp [List.filter_cons, h]

theorem filter_cmd_out (lo hi : Nat) (v : Int) (h : ¬ (lo ≤ uint8 v ∧ uint8 v ≤ hi)) :
    ((commands [Step.send v LCD_CMD]).filter fun b => lo ≤ b ∧ b ≤ hi) = [] := by
  rw [commands_cmd]
  simp only [List.filter_cons, List.filter_nil]
  rw [if_neg (by simpa using h)]

theorem filter_data_nat (lo hi : Nat) (cs : List Nat) :
    ((commands (cs.map fun (c : Nat) => Step.send c LCD_DATA)).filter
      fun b => lo ≤ b ∧ b ≤ hi) = [] := by
  rw [commands_data_nat]; rfl

theorem filter_data (lo hi : Nat) (cs : List Int) :
    ((commands (cs.map fun c => Step.send c LCD_DATA)).filter
      fun b => lo ≤ b ∧ b ≤ hi) = [] := by
  rw [commands_data]; rfl

/-- The commands of `lcd_create` within `0x04..0x0F`: display control `0x0C`,
then entry mode `0x06`. -/
theorem createSteps_commands (config : Int) :
    ((commands (createSteps config)).filter fun b => 8 ≤ b ∧ b ≤ 15) = [0x0C] ∧
    ((commands (createSteps config)).filter fun b => 4 ≤ b ∧ b ≤ 7) = [0x06] := by
  have hf : 32 ≤ uint8 (bor config LCD_FUNCTION_SET) := by
    have h32 : uint8 LCD_FUNCTION_SET = 32 := by decide
    have hb : (uint8 config ||| 32).testBit 5 = true := by
      rw [Nat.testBit_or]
      have : (32 : Nat).testBit 5 = true := by decide
      simp [this]
    rw [uint8_bor, h32]
    exact Nat.testBit_implies_ge hb
  have htail : ∀ lo hi : Nat, 4 ≤ lo → hi ≤ 15 →
      ((commands [Step.send (bor config LCD_FUNCTION_SET) LCD_CMD,
        .send (bor LCD_DISPLAY_CONTROL lcd_state_t.LCD_ON.val) LCD_CMD,
        .send LCD_CLEAR_DISPLAY LCD_CMD, .delay 2000,
        .send (bor LCD_ENTRY_MODE_SET lcd_direction_t.LCD_LEFT_TO_RIGHT.val) LCD_CMD]).filter
          fun b => lo ≤ b ∧ b ≤ hi) =
        ([12, 6].filter fun b => lo ≤ b ∧ b ≤ hi) := by
    intro lo hi hlo hhi
    have e : commands [Step.send (bor config LCD_FUNCTION_SET) LCD_CMD,
        .send (bor LCD_DISPLAY_CONTROL lcd_state_t.LCD_ON.val) LCD_CMD,
        .send LCD_CLEAR_DISPLAY LCD_CMD, .delay 2000,
        .send (bor LCD_ENTRY_MODE_SET lcd_direction_t.LCD_LEFT_TO_RIGHT.val) LCD_CMD] =
        [uint8 (bor config LCD_FUNCTION_SET), 12, 1, 6] := rfl
    rw [e]
    have h1 : ¬ (lo ≤ uint8 (bor config LCD_FUNCTION_SET) ∧
        uint8 (bor config LCD_FUNCTION_SET) ≤ hi) := by omega
    have h2 : ¬ (lo ≤ 1 ∧ 1 ≤ hi) := by omega
    simp only [List.filter_cons, h1, h2, decide_False, Bool.false_eq_true, if_false]
  have hhead : ∀ lo hi : Nat, hi ≤ 15 → band config LCD_8BIT ≠ 0 →
      ((commands [Step.send config LCD_CMD, .delay 4500, .send config LCD_CMD, .delay 150,
        .send config LCD_CMD]).filter fun b => lo ≤ b ∧ b ≤ hi) = [] := by
    intro lo hi hhi h8
    have h16 := uint8_config_8bit config h8
    have e : commands [Step.send config LCD_CMD, .delay 4500, .send config LCD_CMD, .delay 150,
        .send config LCD_CMD] = [uint8 config, uint8 config, uint8 config] := rfl
    rw [e]
    have h1 : ¬ (lo ≤ uint8 config ∧ uint8 config ≤ hi) := by omega
    simp only [List.filter_cons, h1, decide_False, Bool.false_eq_true, if_false, List.filter_nil]
  have hall : ∀ lo hi : Nat, 4 ≤ lo → hi ≤ 15 →
      ((commands (createSteps config)).filter fun b => lo ≤ b ∧ b ≤ hi) =
        ([12, 6].filter fun b => lo ≤ b ∧ b ≤ hi) := by
    intro lo hi hlo hhi
    unfold createSteps
    rw [commands_append, List.filter_append, htail lo hi hlo hhi]
    by_cases h8 : band config LCD_8BIT ≠ 0
    · rw [if_pos h8, hhead lo hi hhi h8]
      rfl
    · rw [if_neg h8]
      rfl
  exact ⟨by rw [hall 8 15 (by omega) (by omega)]; rfl, by rw [hall 4 7 (by omega) (by omega)]; rfl⟩
theorem uint8_bor_bit (a b : Int) (k : Nat) (hk : (uint8 a).testBit k = true) :
    2 ^ k ≤ uint8 (bor a b) := by
  have hb : (uint8 a ||| uint8 b).testBit k = true := by
    rw [Nat.testBit_or, hk]
    rfl
  rw [uint8_bor]
  exact Nat.testBit_implies_ge hb

/-- What an operation on a device with a display-control byte in the control
register and an entry-mode byte in the mode register sends within `0x04..0x0F`:
nothing, with both registers kept, or the one register it has just merged. -/
theorem op_effect_commands (lcd : lcd_t) (o : Op)
    (hc1 : 8 ≤ lcd.control) (hc2 : lcd.control ≤ 15) (hm1 : 4 ≤ lcd.mode) (hm2 : lcd.mode ≤ 7) :
    (8 ≤ (Op.effect lcd o).1.control ∧ (Op.effect lcd o).1.control ≤ 15 ∧
      4 ≤ (Op.effect lcd o).1.mode ∧ (Op.effect lcd o).1.mode ≤ 7) ∧
    ((((commands (Op.effect lcd o).2).filter fun b => 8 ≤ b ∧ b ≤ 15) = [] ∧
        (Op.effect lcd o).1.control = lcd.control) ∨
      ((commands (Op.effect lcd o).2).filter fun b => 8 ≤ b ∧ b ≤ 15) =
        [(Op.effect lcd o).1.control.toNat]) ∧
    ((((commands (Op.effect lcd o).2).filter fun b => 4 ≤ b ∧ b ≤ 7) = [] ∧
        (Op.effect lcd o).1.mode = lcd.mode) ∨
      ((commands (Op.effect lcd o).2).filter fun b => 4 ≤ b ∧ b ≤ 7) =
        [(Op.effect lcd o).1.mode.toNat]) := by
  have quiet : ∀ v : Int, ¬ (4 ≤ uint8 v ∧ uint8 v ≤ 15) →
      (((commands [Step.send v LCD_CMD]).filter fun b => 8 ≤ b ∧ b ≤ 15) = [] ∧
        lcd.control = lcd.control) ∧
      (((commands [Step.send v LCD_CMD]).filter fun b => 4 ≤ b ∧ b ≤ 7) = [] ∧
        lcd.mode = lcd.mode) := fun v hv =>
    ⟨⟨filter_cmd_out 8 15 v (by omega), rfl⟩, ⟨filter_cmd_out 4 7 v (by omega), rfl⟩⟩
  have control : ∀ c : Int, 8 ≤ c → c ≤ 15 →
      ((commands [Step.send c LCD_CMD]).filter fun b => 8 ≤ b ∧ b ≤ 15) = [c.toNat] ∧
      ((commands [Step.send c LCD_CMD]).filter fun b => 4 ≤ b ∧ b ≤ 7) = [] := by
    intro c h1 h2
    have e := uint8_toNat c (by omega) (by omega)
    refine ⟨?_, filter_cmd_out 4 7 c (by omega)⟩
    rw [filter_cmd_in 8 15 c (by omega), e]
  have mode : ∀ m : Int, 4 ≤ m → m ≤ 7 →
      ((commands [Step.send m LCD_CMD]).filter fun b => 8 ≤ b ∧ b ≤ 15) = [] ∧
      ((commands [Step.send m LCD_CMD]).filter fun b => 4 ≤ b ∧ b ≤ 7) = [m.toNat] := by
    intro m h1 h2
    have e := uint8_toNat m (by omega) (by omega)
    refine ⟨filter_cmd_out 8 15 m (by omega), ?_⟩
    rw [filter_cmd_in 4 7 m (by omega), e]
  cases o with
  | state s =>
    have hr := control_merge lcd.control lcd_state_t.LCD_ON.val s.val hc1 hc2
      (by decide) (by cases s <;> decide)
    have hs := control _ hr.1 hr.2
    exact ⟨⟨hr.1, hr.2, hm1, hm2⟩, Or.inr hs.1, Or.inl ⟨hs.2, rfl⟩⟩
  | cursor_state s =>
    have hr := control_merge lcd.control lcd_cursor_t.LCD_CURSOR_ON.val s.val hc1 hc2
      (by decide) (by cases s <;> decide)
    have hs := control _ hr.1 hr.2
    exact ⟨⟨hr.1, hr.2, hm1, hm2⟩, Or.inr hs.1, Or.inl ⟨hs.2, rfl⟩⟩
  | cursor_blink s =>
    have hr := control_merge lcd.control lcd_blink_t.LCD_BLINK_ON.val s.val hc1 hc2
      (by decide) (by cases s <;> decide)
    have hs := control _ hr.1 hr.2
    exact ⟨⟨hr.1, hr.2, hm1, hm2⟩, Or.inr hs.1, Or.inl ⟨hs.2, rfl⟩⟩
  | text_direction d =>
    have hr := mode_merge lcd.mode lcd_direction_t.LCD_LEFT_TO_RIGHT.val d.val hm1 hm2
      (by decide) (by cases d <;> decide)
    have hs := mode _ hr.1 hr.2
    exact ⟨⟨hc1, hc2, hr.1, hr.2⟩, Or.inl ⟨hs.1, rfl⟩, Or.inr hs.2⟩
  | autoscroll s =>
    have hr := mode_merge lcd.mode lcd_autoscroll_t.LCD_AUTOSCROOL_ON.val s.val hm1 hm2
      (by decide) (by cases s <;> decide)
    have hs := mode _ hr.1 hr.2
    exact ⟨⟨hc1, hc2, hr.1, hr.2⟩, Or.inl ⟨hs.1, rfl⟩, Or.inr hs.2⟩
  | clear =>
    have hq := quiet LCD_CLEAR_DISPLAY (by decide)
    exact ⟨⟨hc1, hc2, hm1, hm2⟩, Or.inl hq.1, Or.inl hq.2⟩
  | home =>
    have hq := quiet LCD_RETURN_HOME (by decide)
    exact ⟨⟨hc1, hc2, hm1, hm2⟩, Or.inl hq.1, Or.inl hq.2⟩
  | cursor_set line col =>
    have hb : 2 ^ 7 ≤ uint8 (bor LCD_SET_DDRAM_ADDR (col + lines_offset.getD line.val 0)) :=
      uint8_bor_bit _ _ 7 (by decide)
    have hq := quiet ((uint8 (bor LCD_SET_DDRAM_ADDR (col + lines_offset.getD line.val 0)) : Nat) :
      Int) (by rw [uint8_uint8]; omega)
    exact ⟨⟨hc1, hc2, hm1, hm2⟩, Or.inl hq.1, Or.inl hq.2⟩
  | scroll d =>
    have hq := quiet (bor (bor LCD_CURSOR_SHIFT LCD_DISPLAY_MOVE) d.val)
      (by cases d <;> decide)
    exact ⟨⟨hc1, hc2, hm1, hm2⟩, Or.inl hq.1, Or.inl hq.2⟩
  | create_char index charmap =>
    have hb : 2 ^ 6 ≤ uint8 (bor LCD_SET_CGRAM_ADDR (shl (band index 0x07) 3)) :=
      uint8_bor_bit _ _ 6 (by decide)
    have hq := quiet (bor LCD_SET_CGRAM_ADDR (shl (band index 0x07) 3)) (by omega)
    have e : ∀ lo hi : Nat,
        ((commands (Op.effect lcd (.create_char index charmap)).2).filter
          fun b => lo ≤ b ∧ b ≤ hi) =
        ((commands [Step.send (bor LCD_SET_CGRAM_ADDR (shl (band index 0x07) 3)) LCD_CMD]).filter
          fun b => lo ≤ b ∧ b ≤ hi) := by
      intro lo hi
      have : (Op.effect lcd (.create_char index charmap)).2 =
          [Step.send (bor LCD_SET_CGRAM_ADDR (shl (band index 0x07) 3)) LCD_CMD] ++
            (List.ofFn charmap).map fun (c : Nat) => Step.send c LCD_DATA := rfl
      rw [this, commands_append, List.filter_append, filter_data_nat, List.append_nil]
    refine ⟨⟨hc1, hc2, hm1, hm2⟩, Or.inl ⟨?_, rfl⟩, Or.inl ⟨?_, rfl⟩⟩
    · rw [e]; exact hq.1.1
    · rw [e]; exact hq.2.1
  | print_char c =>
    have e : (Op.effect lcd (.print_char c)).2 =
        [c].map fun (c : Nat) => Step.send c LCD_DATA := rfl
    refine ⟨⟨hc1, hc2, hm1, hm2⟩, Or.inl ⟨?_, rfl⟩, Or.inl ⟨?_, rfl⟩⟩
    · rw [e]; exact filter_data_nat 8 15 _
    · rw [e]; exact filter_data_nat 4 7 _
  | print_str s =>
    exact ⟨⟨hc1, hc2, hm1, hm2⟩, Or.inl ⟨filter_data_nat 8 15 _, rfl⟩,
      Or.inl ⟨filter_data_nat 4 7 _, rfl⟩⟩
  | print_int num =>
    exact ⟨⟨hc1, hc2, hm1, hm2⟩, Or.inl ⟨filter_data 8 15 _, rfl⟩,
      Or.inl ⟨filter_data 4 7 _, rfl⟩⟩
/-- In a session both registers hold a byte of their command, the one sent
last. -/
theorem session_inv (rw : Bool) (lcd : lcd_t) (log : List Step) (h : Session rw lcd log) :
    (8 ≤ lcd.control ∧ lcd.control ≤ 15 ∧ 4 ≤ lcd.mode ∧ lcd.mode ≤ 7) ∧
    lastCommand 8 15 log = some lcd.control.toNat ∧
    lastCommand 4 7 log = some lcd.mode.toNat := by
  induction h with
  | create r r1 config control_pins data_pins env env1 slot hrun =>
    rw [lcd_create_slot rw r r1 config control_pins data_pins env env1 slot hrun]
    obtain ⟨h1, h2⟩ := createSteps_commands config
    refine ⟨by simp [initDevice], ?_, ?_⟩
    · rw [lastCommand, h1]; rfl
    · rw [lastCommand, h2]; rfl
  | op lcd lcd1 log o env env1 _ hrun ih =>
    obtain ⟨⟨hc1, hc2, hm1, hm2⟩, hc, hm⟩ := ih
    obtain ⟨hr, hcs, hms⟩ := op_effect_commands lcd o hc1 hc2 hm1 hm2
    rw [op_run_ok rw lcd lcd1 o env env1 hrun]
    refine ⟨hr, ?_, ?_⟩
    · rw [lastCommand_append]
      rcases hcs with ⟨e, ekeep⟩ | e
      · rw [lastCommand, e, ekeep, hc]; rfl
      · rw [lastCommand, e]; rfl
    · rw [lastCommand_append]
      rcases hms with ⟨e, ekeep⟩ | e
      · rw [lastCommand, e, ekeep, hm]; rfl
      · rw [lastCommand, e]; rfl
  | recreate lcd log r r1 config control_pins data_pins env env1 slot _ hrun _ =>
    rw [lcd_create_slot rw r r1 config control_pins data_pins env env1 slot hrun]
    obtain ⟨h1, h2⟩ := createSteps_commands config
    refine ⟨by simp [initDevice], ?_, ?_⟩
    · rw [lastCommand_append, lastCommand, h1]; rfl
    · rw [lastCommand_append, lastCommand, h2]; rfl

/-- C15: in every state reached from a call of `lcd_create` that returns a
handle by calls of operations with declared enumerator arguments that return
(and by later creates that return the same slot), the control register is a
byte of `0x08..0x0F` and is the last COMMAND byte of that range sent, and the
mode register is a byte of `0x04..0x07` and is the last COMMAND byte of that
range sent.  Every operation called in such a state is the making of its steps,
and every COMMAND byte of `0x08..0x0F` among them is the control register it
returns, every COMMAND byte of `0x04..0x07` the mode register it returns.  A
create that returns a handle is the raw calls of the reset followed by its
steps, whose COMMAND bytes within `0x04..0x0F` are `0x0C`, then `0x06`, the
registers it stores. -/
theorem registers_track_commands (rw : Bool) (lcd : lcd_t) (log : List Step)
    (h : Session rw lcd log) :
    (lastCommand 0x08 0x0F log = some lcd.control.toNat ∧
      0x08 ≤ lcd.control ∧ lcd.control ≤ 0x0F) ∧
    (lastCommand 0x04 0x07 log = some lcd.mode.toNat ∧
      0x04 ≤ lcd.mode ∧ lcd.mode ≤ 0x07) ∧
    (∀ (o : Op) (env env1 : Env) (lcd1 : lcd_t), Op.run rw lcd o env = .ok (lcd1, env1) →
      Op.run rw lcd o =
        (do runSteps rw lcd (Op.effect lcd o).2
            pure lcd1) ∧
      ∀ b ∈ commands (Op.effect lcd o).2,
        (0x08 ≤ b ∧ b ≤ 0x0F → (b : Int) = lcd1.control) ∧
        (0x04 ≤ b ∧ b ≤ 0x07 → (b : Int) = lcd1.mode)) ∧
    (∀ (N : Nat) (r r1 : Registry N) (config : Int) (control_pins data_pins : Nat)
      (env env1 : Env) (slot : Fin N),
      lcd_create rw r config control_pins data_pins env = .ok ((some slot, r1), env1) →
      lcd_create rw r config control_pins data_pins =
        (do emits (resetEvents rw (r1.g_lcd slot))
            runSteps rw (r1.g_lcd slot) (createSteps config)
            pure (some slot, r1)) ∧
      ((commands (createSteps config)).filter fun b => 0x04 ≤ b ∧ b ≤ 0x0F) = [0x0C, 0x06] ∧
      (r1.g_lcd slot).control = 0x0C ∧ (r1.g_lcd slot).mode = 0x06) := by
  obtain ⟨⟨hc1, hc2, hm1, hm2⟩, hc, hm⟩ := session_inv rw lcd log h
  refine ⟨⟨hc, hc1, hc2⟩, ⟨hm, hm1, hm2⟩, ?_, ?_⟩
  · intro o env env1 lcd1 hrun
    have e1 := op_run_ok rw lcd lcd1 o env env1 hrun
    obtain ⟨⟨hr1, hr2, hr3, hr4⟩, hcs, hms⟩ := op_effect_commands lcd o hc1 hc2 hm1 hm2
    refine ⟨by rw [e1]; exact op_run_effect rw lcd o, ?_⟩
    intro b hb
    rw [e1]
    constructor
    · intro hin
      have hmem : b ∈ (commands (Op.effect lcd o).2).filter fun b => 8 ≤ b ∧ b ≤ 15 := by
        simp [List.mem_filter, hb, hin]
      rcases hcs with ⟨e, _⟩ | e
      · rw [e] at hmem; simp at hmem
      · rw [e] at hmem
        simp only [List.mem_singleton] at hmem
        omega
    · intro hin
      have hmem : b ∈ (commands (Op.effect lcd o).2).filter fun b => 4 ≤ b ∧ b ≤ 7 := by
        simp [List.mem_filter, hb, hin]
      rcases hms with ⟨e, _⟩ | e
      · rw [e] at hmem; simp at hmem
      · rw [e] at hmem
        simp only [List.mem_singleton] at hmem
        omega
  · intro N r r1 config control_pins data_pins env env1 slot hrun
    have es := lcd_create_slot rw r r1 config control_pins data_pins env env1 slot hrun
    refine ⟨?_, ?_, by rw [es]; rfl, by rw [es]; rfl⟩
    · rw [es]
      exact lcd_create_steps rw r r1 config control_pins data_pins env env1 slot hrun
    · unfold createSteps
      by_cases h8 : band config LCD_8BIT ≠ 0
      · have h16 := uint8_config_8bit config h8
        have hf : 2 ^ 5 ≤ uint8 (bor config LCD_FUNCTION_SET) := by
          rw [uint8_bor, Nat.lor_comm, ← uint8_bor]
          exact uint8_bor_bit _ _ 5 (by decide)
        rw [if_pos h8]
        have e : commands ([Step.send config LCD_CMD, .delay 4500, .send config LCD_CMD,
            .delay 150, .send config LCD_CMD] ++
          [.send (bor config LCD_FUNCTION_SET) LCD_CMD,
            .send (bor LCD_DISPLAY_CONTROL lcd_state_t.LCD_ON.val) LCD_CMD,
            .send LCD_CLEAR_DISPLAY LCD_CMD, .delay 2000,
            .send (bor LCD_ENTRY_MODE_SET lcd_direction_t.LCD_LEFT_TO_RIGHT.val) LCD_CMD]) =
          [uint8 config, uint8 config, uint8 config, uint8 (bor config LCD_FUNCTION_SET),
            12, 1, 6] := rfl
        rw [e]
        have n1 : ¬ (4 ≤ uint8 config ∧ uint8 config ≤ 15) := by omega
        have n2 : ¬ (4 ≤ uint8 (bor config LCD_FUNCTION_SET) ∧
            uint8 (bor config LCD_FUNCTION_SET) ≤ 15) := by omega
        simp [List.filter_cons, n1, n2]
      · have hf : 2 ^ 5 ≤ uint8 (bor config LCD_FUNCTION_SET) := by
          rw [uint8_bor, Nat.lor_comm, ← uint8_bor]
          exact uint8_bor_bit _ _ 5 (by decide)
        rw [if_neg h8]
        have e : commands ([] ++
          [.send (bor config LCD_FUNCTION_SET) LCD_CMD,
            .send (bor LCD_DISPLAY_CONTROL lcd_state_t.LCD_ON.val) LCD_CMD,
            .send LCD_CLEAR_DISPLAY LCD_CMD, .delay 2000,
            .send (bor LCD_ENTRY_MODE_SET lcd_direction_t.LCD_LEFT_TO_RIGHT.val) LCD_CMD]) =
          [uint8 (bor config LCD_FUNCTION_SET), 12, 1, 6] := rfl
        rw [e]
        have n2 : ¬ (4 ≤ uint8 (bor config LCD_FUNCTION_SET) ∧
            uint8 (bor config LCD_FUNCTION_SET) ≤ 15) := by omega
        simp [List.filter_cons, n2]
/-- Witness of C15: the first create on the pool of one slot, 4-bit, then the
cursor blink switched on: the control register and the last display-control
byte are `0x0D`, the mode register and the last entry-mode byte `0x06`. -/
theorem registers_track_commands_witness :
    Session false ⟨1, 1, 4, 0x0D, 0x06⟩
        (createSteps 0 ++ [.send 0x0D LCD_CMD]) ∧
      lastCommand 0x08 0x0F (createSteps 0 ++ [.send 0x0D LCD_CMD]) = some 0x0D ∧
      lastCommand 0x04 0x07 (createSteps 0 ++ [.send 0x0D LCD_CMD]) = some 0x06 := by
  obtain ⟨env1, h⟩ := create_claimed_no_rw (Registry.init 1) 0 1 1 0 rfl
    (by decide) (by decide) ⟨[], []⟩
  have hs := Session.create (Registry.init 1) _ 0 1 1 ⟨[], []⟩ env1 0 h
  have hrun : Op.run false (initDevice 0 1 1) (.cursor_blink .LCD_BLINK_ON) ⟨[], []⟩ =
      .ok (⟨1, 1, 4, 0x0D, 0x06⟩, ⟨sendEvents false ⟨1, 1, 4, 0x0D, 0x06⟩ 0x0D LCD_CMD, []⟩) := by
    rfl
  have hs2 : Session false ⟨1, 1, 4, 0x0D, 0x06⟩ (createSteps 0 ++ [.send 0x0D LCD_CMD]) :=
    Session.op (initDevice 0 1 1) _ _ (.cursor_blink .LCD_BLINK_ON) ⟨[], []⟩ _ hs hrun
  have ht := registers_track_commands false _ _ hs2
  exact ⟨hs2, ht.1.1, ht.2.1.1⟩

/-! ## `lcd_print_int` at the least `int` -/

/-- C21: at `num = -2^31`, the least `int`, the negation `num = -num` wrapped to
32 bits gives `-2^31` again, a negative number; the digit loop `while (num > 0)`
then writes no entry (it returns index 0 and the buffer of zeros), and
`lcd_print_int` is the sending of the one byte `-` with kind `LCD_DATA`, with
the device record returned as it was.  Without `LCD_RW_SUPPORT` the call
returns, having recorded the calls of that one send and nothing else. -/
theorem lcd_print_int_least_int (rw : Bool) (lcd : lcd_t) :
    int32 (-(-2147483648)) = -2147483648 ∧ int32 (-(-2147483648)) < 0 ∧
    lcd_print_int_fill (int32 (-(-2147483648))) 0 (List.replicate 12 0) =
      .ok (0, List.replicate 12 0) ∧
    lcd_print_int rw lcd (-2147483648) =
      (do sends rw lcd [((Char.toNat '-' : Int), LCD_DATA)]
          pure lcd) ∧
    (∀ env : Env, lcd_print_int false lcd (-2147483648) env =
      .ok (lcd, ⟨env.trace ++ sendEvents false lcd (Char.toNat '-' : Int) LCD_DATA,
        env.reads⟩)) := by
  refine ⟨int32_neg_min, by rw [int32_neg_min]; decide, ?_, lcd_print_int_min rw lcd, ?_⟩
  · rw [int32_neg_min]
    exact fill_nonpos _ (by decide) 0 _
  · intro env
    rw [lcd_print_int_min false lcd, sends_no_rw]
    simp [emits_bind_run]
    rfl

end LCD
